import Mathlib

/-!
# Syntheta: socket server session, socket client framing and the function registry

A shallow embedding of `SourceCode/Common/classSocketServer.cpp`,
`classSocketClient.cpp`, `classSocketClient.h`, `classObjectFactory.h`,
`randomNumberGenerators.cpp` and the logging functions of `classLogger.cpp`.

Conventions of the embedding:

* `std::string` is a list of characters (`Str`); `npos` is `none`.
* The socket, the file system, the log and the calls made to registered
  handlers are explicit components of a `World` value.
* Everything one iteration of the session loop obtains from outside the
  program (the line read, the two random strings, the outcome of the system
  calls and of the socket writes) is an `Env` value, so a whole session is a
  function of the list of these values.
* A read outside a string (undefined behaviour in the source) is `none`; this
  includes `s.back()` of an empty string in `sendString`.
* The 64-bit counter `authenticationStep` is a natural number incremented
  modulo `2 ^ 64`; `int` and `short` arithmetic is two's complement.
* A value of type `double` is a rational number, and an operation on such
  values gives the nearest one (ties to even).
* The random generator is the sequence of the values it will give.
* `server()` and `stopAcceptingConnections()`, which run on two threads, are a
  step function on their shared state, applied in any order; whether the
  connection `stopAcceptingConnections()` makes reaches the acceptor is computed
  from `port_`, `portString_` and whether the host name resolves.
* The `Logger` holds its lines and its log level; a line below the level is
  not recorded.
* Of the C++ library, `std::vector::reserve` can throw; other allocations of
  memory succeed.
-/

namespace Syntheta

/-- The type `std::string`. -/
abbrev Str := List Char

/-! ## String primitives -/

/-- `hay.find(needle)` of `std::string`: the index of the first occurrence. -/
def find : Str → Str → Option Nat
  | [], needle => if needle = [] then some 0 else none
  | c :: cs, needle =>
    if needle.isPrefixOf (c :: cs) then some 0 else (find cs needle).map (· + 1)

/-- `hay.find(ch, from)` of `std::string` for a single character. -/
def findCharFrom (hay : Str) (ch : Char) (from_ : Nat) : Option Nat :=
  ((hay.drop from_).indexOf? ch).map (· + from_)

/-- `s.substr(pos, n)`. -/
def substr (s : Str) (pos n : Nat) : Str := (s.drop pos).take n

/-- `std::getline(is, theString)`: the text before the first newline. -/
def getline (wire : Str) : Str := wire.takeWhile (· ≠ '\n')

/-- The bytes `sendString(sock, s)` (classSocketServer.cpp) writes: the string
`ns`, which is `s` when `s.back()` is a newline and `s + '\n'` otherwise. For the
empty string `s.back()` reads outside the string: `none`. -/
def sendString (s : Str) : Option Str :=
  match s.getLast? with
  | none => none
  | some c => some (if c = '\n' then s else s ++ ['\n'])

/-! ## classObjectFactory.h: FunctionRegistry -/

/-- What a call of a handler produces: a value, a thrown `std::exception`
with its `what()` text, or a thrown object of another type. -/
inductive Outcome (R : Type) where
  | value (r : R)
  | stdException (what : Str)
  | otherException
  deriving DecidableEq, Repr

/-- The class `FunctionRegistry<T, Args...>`: the member `dispatch_`, a map
from keys to handlers, kept as an association list with distinct keys. -/
structure FunctionRegistry (A R : Type) where
  dispatch_ : List (Str × (A → Outcome R))

namespace FunctionRegistry

variable {A R : Type}

/-- The freshly constructed registry (`Instance()` before any `Register`). -/
def empty : FunctionRegistry A R := ⟨[]⟩

/-- `dispatch_.find(key)`. -/
def lookup (reg : FunctionRegistry A R) (key : Str) : Option (A → Outcome R) :=
  (reg.dispatch_.find? (fun e => e.1 == key)).map (·.2)

/-- `Register(key, f)`: `dispatch_.emplace(key, f).second`, with the registry
after the call. -/
def Register (reg : FunctionRegistry A R) (key : Str) (f : A → Outcome R) :
    FunctionRegistry A R × Bool :=
  match reg.lookup key with
  | some _ => (reg, false)
  | none => (⟨(key, f) :: reg.dispatch_⟩, true)

/-- The text of the error `operator()` throws for an absent key. -/
def notRegistered (key : Str) : Str :=
  "FunctionRegistry::operator(), Error: function with key ".toList ++ key ++
    " not yet registered.".toList

/-- The result of `operator()(key, args)` together with whether a registered
handler was invoked. -/
structure Dispatch (R : Type) where
  invoked : Bool
  outcome : Outcome R

/-- `operator()(key, args)`. -/
def call (reg : FunctionRegistry A R) (key : Str) (args : A) : Dispatch R :=
  match reg.lookup key with
  | some f => ⟨true, f args⟩
  | none => ⟨false, .stdException (notRegistered key)⟩

end FunctionRegistry

/-! ## classSocketServer.cpp: URL decoding and the CGI map -/

/-- Conversion of an `int` to `char` (a signed 8-bit value). -/
def toChar (v : Int) : Int := (v + 128) % 256 - 128

/-- The value of a character as a (signed) `char`. -/
def charVal (c : Char) : Int := toChar c.toNat

/-- `translateHex(hex)`, on `char` values. -/
def translateHex (hex : Int) : Int :=
  toChar (if 65 ≤ hex then ((hex.toNat &&& 0xdf : Nat) : Int) - 65 + 10 else hex - 48)

/-- The character appended for `%XY`:
`translateHex(X) * 16 + translateHex(Y)` converted to `char`. -/
def hexChar (x y : Char) : Char :=
  Char.ofNat ((translateHex (charVal x) * 16 + translateHex (charVal y)) % 256).toNat

/-- `decodeURLString(URLstr)`. `URLstr[len]` reads the terminating zero;
a read at `len + 1` is outside the string and gives `none`. -/
def decodeURLString : Str → Option Str
  | [] => some []
  | c :: rest =>
    if c = '+' then (decodeURLString rest).map (' ' :: ·)
    else if c = '%' then
      match rest with
      | [] => none
      | [x] => some [hexChar x (Char.ofNat 0)]
      | x :: y :: rest2 => (decodeURLString rest2).map (hexChar x y :: ·)
    else (decodeURLString rest).map (c :: ·)

/-- The type `CGImap` (`std::map<std::string, std::string>`). -/
abbrev CGImap := List (Str × Str)

/-- `cgiMap[name] = value`. -/
def CGImap.assign (m : CGImap) (name value : Str) : CGImap :=
  if m.any (fun e => e.1 == name) then
    m.map (fun e => if e.1 == name then (name, value) else e)
  else m ++ [(name, value)]

/-- `cgim.find(key)`. -/
def CGImap.find (m : CGImap) (key : Str) : Option Str :=
  (List.find? (fun e => e.1 == key) m).map (·.2)

/-- The loop of `parseCGImap`, from position `index`; `fuel` bounds the number
of iterations (each one moves `index` forward). -/
def parseCGImapLoop (query : Str) : Nat → Nat → CGImap → Option CGImap
  | 0, _, m => some m
  | fuel + 1, index, m =>
    if index < query.length then
      match findCharFrom query '=' index with
      | none => some m
      | some equalSignPos =>
        match decodeURLString (substr query index (equalSignPos - index)) with
        | none => none
        | some name =>
          match findCharFrom query '&' (equalSignPos + 1) with
          | none =>
            (decodeURLString (query.drop (equalSignPos + 1))).map (fun v => m.assign name v)
          | some amp =>
            match decodeURLString (substr query (equalSignPos + 1) (amp - (equalSignPos + 1))) with
            | none => none
            | some v => parseCGImapLoop query fuel (amp + 1) (m.assign name v)
    else some m

/-- `parseCGImap(query)`. -/
def parseCGImap (query : Str) : Option CGImap :=
  parseCGImapLoop query (query.length + 1) 0 []

/-! ## classLogger.cpp: the lines added to the log -/

/-- The log levels `enum { _debug_, _info_, _warn_, _error_, _numLogLevels_ }`. -/
def _debug_ : Fin 4 := 0

def _info_ : Fin 4 := 1

def _warn_ : Fin 4 := 2

def _error_ : Fin 4 := 3

/-- The `Logger`: the log lines written through it (the comment column) and
its member `logLevel_`, which the constructor sets to `_info_` and
`setLogLevel` keeps among the four levels. -/
structure Logger where
  entries : List Str
  logLevel_ : Fin 4

/-- `Logger::setLogLevel(newLevel)`: throws for a value that is not a level. -/
def Logger.setLogLevel (lg : Logger) (newLevel : Int) : Except Str Logger :=
  if h : newLevel < 0 ∨ newLevel ≥ 4 then
    .error ("Logger::setLogLevel(), bad log level ".toList ++
      (if newLevel < 0 then '-' :: (Nat.toDigits 10 newLevel.natAbs)
        else Nat.toDigits 10 newLevel.natAbs) ++ " specified".toList)
  else .ok { lg with logLevel_ := ⟨newLevel.toNat, by omega⟩ }

/-- `Logger::addToLog(comment, alsoToMasterLog, level)`: the log line it adds;
nothing for a level below `logLevel_` (`if (level < logLevel_) return;`). -/
def Logger.addToLog (lg : Logger) (comment : Str) (level : Fin 4) : Logger :=
  if level < lg.logLevel_ then lg else { lg with entries := lg.entries ++ [comment] }

/-- `Logger::errorToLog(comment)`:
`addToLog("***ERROR*** " + comment, true, _error_)`. -/
def Logger.errorToLog (lg : Logger) (comment : Str) : Logger :=
  lg.addToLog ("***ERROR*** ".toList ++ comment) _error_

/-- `Logger::warningToLog(comment)`:
`addToLog("**WARNING** " + comment, true, _warn_)`. -/
def Logger.warningToLog (lg : Logger) (comment : Str) : Logger :=
  lg.addToLog ("**WARNING** ".toList ++ comment) _warn_

/-! ## classSocketServer.cpp: the session -/

/-- The members of `SocketServer` the session reads, and the two registries
(`FunctionRegistry<std::string, const std::string&>` for commands and
`FunctionRegistry<std::string, const CGImap&>` for web forms). -/
structure SocketServer where
  commandFieldSeparator_ : Str
  outputFieldSeparator_ : Str
  webCommandString_ : Str
  supportsWebRequests_ : Bool
  htmlHeader_ : Str
  htmlFooter_ : Str
  commands : FunctionRegistry Str Str
  webCommands : FunctionRegistry CGImap Str

/-- `SocketServer::insertOutputFieldSeparator(prefix, s)`. -/
def SocketServer.insertOutputFieldSeparator (srv : SocketServer) (pre s : Str) : Str :=
  pre ++ srv.outputFieldSeparator_ ++ s

/-- `SocketServer::applyHTMLFormatting(s, title)`. -/
def SocketServer.applyHTMLFormatting (srv : SocketServer) (s title : Str) : Str :=
  let page : Str :=
    if srv.supportsWebRequests_ then srv.htmlHeader_
    else "<!DOCTYPE html>\n".toList ++ "<html lang=\"en\">\n".toList ++
      "<meta charset=\"utf-8\">\n".toList ++ ("<title>".toList ++ title ++ "</title>\n".toList) ++
      "<body>\n".toList
  let page := page ++ s
  if srv.supportsWebRequests_ then page ++ srv.htmlFooter_
  else page ++ "</body>\n".toList ++ "</html>\n".toList

/-- The local variables of `SocketServer::session` that live across
iterations of its loop. -/
structure SessionState where
  sessionAuthorizationFile : Str
  sessionAuthorizationStr : Str
  authenticationStep : Nat

/-- The variables at the start of `SocketServer::session`. -/
def SessionState.init : SessionState := ⟨[], [], 0⟩

/-- What the session acts on: the working directory of the process, the
files (absolute path and content), the strings written to the socket, the
log, and the calls made to registered command and web handlers. -/
structure World where
  cwd : Str
  files : List (Str × Str)
  sent : List Str
  log : Logger
  calls : List (Str × Str)
  webCalls : List (Str × CGImap)

/-- The absolute path of a path given relative to the working directory. -/
def World.resolve (w : World) (path : Str) : Str := w.cwd ++ '/' :: path

/-- The content of the file at an absolute path, when it exists. -/
def World.fileAt (w : World) (absPath : Str) : Option Str :=
  (w.files.find? (fun e => e.1 == absPath)).map (·.2)

/-- `std::ofstream f(path); f << content; f.close()` when the file opens. -/
def World.writeFile (w : World) (path content : Str) : World :=
  { w with files := (w.resolve path, content) ::
      w.files.filter (fun e => !(e.1 == w.resolve path)) }

/-- `std::remove(path)`; the empty path names no file. -/
def World.remove (w : World) (path : Str) : World :=
  if path = [] then w
  else { w with files := w.files.filter (fun e => !(e.1 == w.resolve path)) }

/-- The result of `boost::asio::read_until(*sock, b, ...)`: end of stream,
another error (with the text of its `system_error`), or data. For the first
read of an iteration the data is the line `std::getline` extracts; for the
read of a POST body it is the sequence of lines `std::getline` extracts
after that first line. -/
inductive ReadResult (α : Type) where
  | eof
  | error (what : Str)
  | data (a : α)

/-- Everything one iteration of the session loop obtains from outside. -/
structure Env where
  /-- The value of `listening_` read by the loop condition. -/
  listening : Bool
  /-- The first `read_until` and `getline` of the iteration. -/
  read : ReadResult Str
  /-- The text of `sock->remote_endpoint().address().to_string()`. -/
  remoteAddress : Str
  /-- The result of `RandNum::generateRandomAlphanumericString(10, 16)`. -/
  randomName : Str
  /-- The result of `RandNum::generateRandomAlphanumericString(64, 128)`. -/
  randomSecret : Str
  /-- Whether `std::ofstream authFile(...)` opens the file. -/
  openOk : Bool
  /-- Whether `chmod` returns 0. -/
  chmodOk : Bool
  /-- The result of `pipe_to_string("pwd")`: output and exit status. -/
  pwd : Str × Int
  /-- The text of the error of the socket write inside the `try` block, when
  that write fails. -/
  writeError : Option Str
  /-- Whether the socket write inside a `catch` block succeeds. -/
  catchWriteOk : Bool
  /-- The `read_until(..., "Submit+This+Form", ...)` of a POST exchange. -/
  postRead : ReadResult (List Str)

/-- How the `try` block of one iteration ends. -/
inductive Flow where
  | next
  | brk
  | stdExc (what : Str)
  | otherExc

/-- The state at the end of the `try` block of one iteration. -/
structure TryOut where
  st : SessionState
  w : World
  theString : Str
  command : Str
  isPOST : Bool
  flow : Flow

/-- The result of one iteration: the state after it and whether the loop
goes on (`false` after a `break`). -/
structure IterOut where
  st : SessionState
  w : World
  continues : Bool

def AuthStep1 : Str := "AuthStep1".toList

def AuthStep2 : Str := "AuthStep2".toList

def submitMarker : Str := "Submit+This+Form".toList

/-- A `sendString(sock, s)` inside the `try` block: `none` when `s` is empty,
otherwise the bytes are written or the write throws. -/
def trySend (env : Env) (st : SessionState) (w : World) (theString command : Str)
    (isPOST : Bool) (s : Str) (after : Flow) : Option TryOut :=
  match sendString s with
  | none => none
  | some ns =>
    match env.writeError with
    | none => some ⟨st, { w with sent := w.sent ++ [ns] }, theString, command, isPOST, after⟩
    | some what => some ⟨st, w, theString, command, isPOST, .stdExc what⟩

/-- The loop `while (is && theString.find("Submit+This+Form") == npos)
std::getline(is, theString);` : the line holding the marker, or `none` when
the stream fails first. -/
def findMarkerLine (theString : Str) : List Str → Option Str
  | [] => if (find theString submitMarker).isSome then some theString else none
  | l :: ls => if (find theString submitMarker).isSome then some theString else findMarkerLine l ls

/-- The body of the `try` block of one iteration of the loop of
`SocketServer::session`. The result is `none` where the source reads outside a
string: in `decodeURLString`, in `sendString` of an empty string, and at
`result.first.back()` when `pwd` has given no output. -/
def tryBlock (srv : SocketServer) (env : Env) (st : SessionState) (w : World) :
    Option TryOut :=
  match env.read with
  | .eof => some ⟨st, w, [], [], false, .brk⟩
  | .error what => some ⟨st, w, [], [], false, .stdExc what⟩
  | .data theString =>
    match find theString srv.commandFieldSeparator_ with
    | some p =>
      let command := theString.take p
      let step := ((if command = AuthStep1 then 0 else st.authenticationStep) + 1) % 2 ^ 64
      let st1 : SessionState := { st with authenticationStep := step }
      if step = 1 then
        if command ≠ AuthStep1 then
          some ⟨st1, w, theString, command, false,
            .stdExc ("Client at ".toList ++ env.remoteAddress ++ " did not authenticate".toList)⟩
        else
          let file := "tmp/auth_".toList ++ env.randomName
          let st2 : SessionState :=
            { st1 with sessionAuthorizationFile := file, sessionAuthorizationStr := env.randomSecret }
          let w2 := if env.openOk then w.writeFile file (env.randomSecret ++ ['\n']) else w
          if !env.chmodOk then
            some ⟨st2, w2, theString, command, false,
              .stdExc "Cannot set user-specific access for AuthStep1 authentication file".toList⟩
          else if env.pwd.2 ≠ 0 then
            some ⟨st2, w2, theString, command, false,
              .stdExc "Cannot determine the current working directory".toList⟩
          else
            match env.pwd.1.getLast? with
            | none => none
            | some c =>
              let dir := if c = '\n' then env.pwd.1.dropLast else env.pwd.1
              trySend env st2 w2 theString command false
                (srv.insertOutputFieldSeparator command (dir ++ '/' :: file)) .next
      else if step = 2 then
        if theString ≠ AuthStep2 ++ srv.commandFieldSeparator_ ++ st.sessionAuthorizationStr then
          some ⟨st1, w, theString, command, false,
            .stdExc ("Client at ".toList ++ env.remoteAddress ++
              " did not send the secret string".toList)⟩
        else
          trySend env { st1 with sessionAuthorizationFile := [] }
            (w.remove st.sessionAuthorizationFile) theString command false
            (srv.insertOutputFieldSeparator command "ok".toList) .next
      else
        let arg := theString.drop (p + srv.commandFieldSeparator_.length)
        let d := srv.commands.call command arg
        let w2 := if d.invoked then { w with calls := w.calls ++ [(command, arg)] } else w
        match d.outcome with
        | .value r =>
          trySend env st1 w2 theString command false
            (srv.insertOutputFieldSeparator command r) .next
        | .stdException what => some ⟨st1, w2, theString, command, false, .stdExc what⟩
        | .otherException => some ⟨st1, w2, theString, command, false, .otherExc⟩
    | none =>
      if (find theString "POST /".toList).isSome then
        if !srv.supportsWebRequests_ then
          some ⟨st, w, theString, [], true,
            .stdExc "SocketServer was not configured to accept web requests!".toList⟩
        else
          match env.postRead with
          | .eof => some ⟨st, w, theString, [], true, .brk⟩
          | .error what => some ⟨st, w, theString, [], true, .stdExc what⟩
          | .data lines =>
            match findMarkerLine theString lines with
            | none => some ⟨st, w, [], [], true, .stdExc "Error parsing POST query string".toList⟩
            | some query =>
              match parseCGImap query with
              | none => none
              | some cgim =>
                match cgim.find srv.webCommandString_ with
                | none =>
                  some ⟨st, w, query, [], true,
                    .stdExc ("The key \"".toList ++ srv.webCommandString_ ++
                      "\" was not found within the POST string: \"".toList ++ query ++ "\"".toList)⟩
                | some webCommand =>
                  let d := srv.webCommands.call webCommand cgim
                  let w2 :=
                    if d.invoked then { w with webCalls := w.webCalls ++ [(webCommand, cgim)] } else w
                  match d.outcome with
                  | .value r =>
                    trySend env st w2 query [] true
                      (srv.applyHTMLFormatting r webCommand) .brk
                  | .stdException what => some ⟨st, w2, query, [], true, .stdExc what⟩
                  | .otherException => some ⟨st, w2, query, [], true, .otherExc⟩
      else
        some ⟨st, w, theString, [], false,
          .stdExc ("Neither the field separator \"".toList ++ srv.commandFieldSeparator_ ++
            "\", nor \"POST /\", were found within: \"".toList ++ theString ++ "\"".toList)⟩

/-- The two `catch` blocks of the loop, which differ in `errMsg` only: log the
error, then answer with an HTML page and `break` (POST), or answer with
`command SEP_OUT Error: errMsg` when `command` is not empty; the answer goes
through `sendString`. An exception
inside the block ends the loop (`catch (...) { break; }`); the write to the
log is taken to succeed, so the exception is that of the socket write. -/
def catchBlock (srv : SocketServer) (env : Env) (t : TryOut) (errMsg : Str) :
    Option IterOut :=
  let w1 : World := { t.w with log := t.w.log.errorToLog errMsg }
  if t.isPOST then
    (sendString (srv.applyHTMLFormatting errMsg "ERROR".toList)).map fun ns =>
      if env.catchWriteOk then ⟨t.st, { w1 with sent := w1.sent ++ [ns] }, false⟩
      else ⟨t.st, w1, false⟩
  else if t.command ≠ [] then
    (sendString (srv.insertOutputFieldSeparator t.command ("Error: ".toList ++ errMsg))).map
      fun ns =>
        if env.catchWriteOk then ⟨t.st, { w1 with sent := w1.sent ++ [ns] }, true⟩
        else ⟨t.st, w1, false⟩
  else some ⟨t.st, w1, true⟩

/-- One iteration of the loop of `SocketServer::session` (after its loop
condition): the `try` block and, for an exception, its `catch` block. -/
def iteration (srv : SocketServer) (env : Env) (st : SessionState) (w : World) :
    Option IterOut :=
  (tryBlock srv env st w).bind fun t =>
    match t.flow with
    | .next => some ⟨t.st, t.w, true⟩
    | .brk => some ⟨t.st, t.w, false⟩
    | .stdExc what => catchBlock srv env t ("SocketServer::session(): ".toList ++ what)
    | .otherExc =>
      catchBlock srv env t
        ("SocketServer::session(): unknown error, with string \"".toList ++ t.theString ++
          "\"".toList)

/-- The loop of `SocketServer::session` over the given iterations. The result
has `continues = false` when the loop has been left, and `continues = true`
when all the given iterations ran and the loop is at its next read. -/
def sessionLoop (srv : SocketServer) : List Env → SessionState → World → Option IterOut
  | [], st, w => some ⟨st, w, true⟩
  | env :: rest, st, w =>
    if env.listening then
      match iteration srv env st w with
      | none => none
      | some r => if r.continues then sessionLoop srv rest r.st r.w else some r
    else some ⟨st, w, false⟩

/-- `SocketServer::session(sock)`: the loop and, once the loop has been left,
the removal of the file named by `sessionAuthorizationFile`. -/
def session (srv : SocketServer) (envs : List Env) (w : World) : Option IterOut :=
  (sessionLoop srv envs SessionState.init w).map fun r =>
    if r.continues then r
    else if r.st.sessionAuthorizationFile ≠ [] then
      { r with w := r.w.remove r.st.sessionAuthorizationFile }
    else r

/-! ## classSocketClient.cpp -/

/-- The members of `SocketClient` used by the framing functions. -/
structure SocketClient where
  commandFieldSeparator_ : Str
  receiveStringFieldSeparator_ : Str

/-- `SocketClient::sendCommandAndString(command, argument)`: the bytes written. -/
def SocketClient.sendCommandAndString (cl : SocketClient) (command argument : Str) : Str :=
  command ++ cl.commandFieldSeparator_ ++ argument ++ ['\n']

/-- `SocketClient::receiveString()` on the bytes that arrive: the line, or the
thrown `runtime_error` text when the line contains `Error:`. -/
def SocketClient.receiveString (wire : Str) : Except Str Str :=
  let theString := getline wire
  if (find theString "Error:".toList).isSome then .error theString else .ok theString

/-- `SocketClient::receiveString(tag)`. -/
def SocketClient.receiveStringTag (cl : SocketClient) (wire tag : Str) : Except Str Str :=
  match SocketClient.receiveString wire with
  | .error e => .error e
  | .ok receivedString =>
    match find receivedString cl.receiveStringFieldSeparator_ with
    | none =>
      .error ("Error: SocketClient::receiveString(".toList ++ tag ++ ") returned ".toList ++
        receivedString)
    | some p =>
      if receivedString.take p ≠ tag then
        .error ("Error: SocketClient::receiveString(".toList ++ tag ++ ") returned ".toList ++
          receivedString)
      else .ok (receivedString.drop (p + cl.receiveStringFieldSeparator_.length))

/-- `SocketClient::retrieveString(command, argument, expectedResponse)`, where
`peer` gives the bytes that arrive in answer to the bytes written. -/
def SocketClient.retrieveString (cl : SocketClient) (peer : Str → Str)
    (command argument expectedResponse : Str) : Except Str Str :=
  match cl.receiveStringTag (peer (cl.sendCommandAndString command argument)) command with
  | .error e => .error e
  | .ok response =>
    if expectedResponse ≠ [] ∧ response ≠ expectedResponse then
      .error ("Request \"".toList ++ command ++ [' '] ++ argument ++ "\" returned: ".toList ++
        response)
    else .ok response

/-- The separators a `SocketServer` has by default, with the given registries
and no web support. -/
def defaultServer (commands : FunctionRegistry Str Str) : SocketServer :=
  { commandFieldSeparator_ := "__+__".toList
    outputFieldSeparator_ := "__$__".toList
    webCommandString_ := "WebCommand".toList
    supportsWebRequests_ := false
    htmlHeader_ := []
    htmlFooter_ := []
    commands := commands
    webCommands := FunctionRegistry.empty }

/-- The separators a `SocketClient` has by default. -/
def defaultClient : SocketClient :=
  { commandFieldSeparator_ := "__+__".toList
    receiveStringFieldSeparator_ := "__$__".toList }

/-- The registry reached from the empty one by a sequence of `Register`
calls, in order. -/
def FunctionRegistry.registerAll {A R : Type} (ops : List (Str × (A → Outcome R))) :
    FunctionRegistry A R :=
  ops.foldl (fun reg op => (reg.Register op.1 op.2).1) FunctionRegistry.empty

/-- A session is authenticated when its (64-bit) step counter has reached 2,
the value it has once step 2 has been taken. -/
def SessionState.Authenticated (st : SessionState) : Prop :=
  2 ≤ st.authenticationStep ∧ st.authenticationStep < 2 ^ 64

instance (st : SessionState) : Decidable st.Authenticated :=
  inferInstanceAs (Decidable (2 ≤ st.authenticationStep ∧ st.authenticationStep < 2 ^ 64))

/-- The bytes a client receives in answer to the bytes it writes, when these
reach a session in state `st` whose next iteration has the outcomes `env`:
the session reads their first line and the client receives what that
iteration writes to the socket. -/
def sessionPeer (srv : SocketServer) (env : Env) (st : SessionState) (w : World)
    (wire : Str) : Str :=
  match iteration srv { env with read := .data (getline wire) } st w with
  | some out => (out.w.sent.drop w.sent.length).flatten
  | none => []

/-! ## classSocketClient.h: value retrieval -/

/-- `std::isspace` in the classic locale. -/
def isSpace (c : Char) : Bool :=
  c = ' ' || c = '\t' || c = '\n' || c = Char.ofNat 11 || c = Char.ofNat 12 || c = '\r'

/-- The number written by a sequence of decimal digits. -/
def digitsValue (ds : Str) : Nat := ds.foldl (fun acc d => acc * 10 + (d.toNat - 48)) 0

/-- `is >> datum` of the standard library for `int datum`, on the characters
left in the stream: white space is skipped, then an optional sign and the
decimal digits that follow are taken; the extraction fails (`none`) when there
is no digit or the number is outside the range of `int`, and otherwise gives
the number and the characters left. -/
def readInt (s : Str) : Option (Int × Str) :=
  let s1 := s.dropWhile isSpace
  let signed : Bool × Str :=
    match s1 with
    | c :: r => if c = '-' then (true, r) else if c = '+' then (false, r) else (false, s1)
    | [] => (false, s1)
  let ds := signed.2.takeWhile Char.isDigit
  if ds = [] then none
  else
    let v : Int := if signed.1 then -(digitsValue ds : Int) else (digitsValue ds : Int)
    if -2147483648 ≤ v ∧ v ≤ 2147483647 then some (v, signed.2.dropWhile Char.isDigit)
    else none

/-- `std::to_string` of an unsigned number: its decimal digits. -/
def decimal (n : Nat) : Str := Nat.toDigits 10 n

/-- `std::to_string` of a signed number. -/
def decimalInt (v : Int) : Str :=
  if v < 0 then '-' :: decimal v.natAbs else decimal v.natAbs

/-- `extractValueFromString<R>(s)` (ngiAlgorithms.h), where `readValue` is
`is >> value` for the type `R`. -/
def extractValueFromString {R : Type} (readValue : Str → Option (R × Str)) (s : Str) :
    Except Str R :=
  match readValue s with
  | none => .error "extractValueFromString(), could not retrieve value".toList
  | some (value, rest) =>
    if rest.dropWhile isSpace ≠ [] then
      .error "extractValueFromString(), additional data returned".toList
    else .ok value

/-- `SocketClient::retrieveSingleValue<R>(command, argument)`. -/
def SocketClient.retrieveSingleValue {R : Type} (cl : SocketClient) (peer : Str → Str)
    (readValue : Str → Option (R × Str)) (command argument : Str) : Except Str R :=
  match cl.receiveStringTag (peer (cl.sendCommandAndString command argument)) command with
  | .error e => .error e
  | .ok s => extractValueFromString readValue s

/-- The loop `s >> datum; while (s) { values.push_back(datum); s >> datum; }` of
`retrieveValueVector`, for at most `fuel` extractions; `none` when they do not
suffice. -/
def readValues {R : Type} (readValue : Str → Option (R × Str)) : Nat → Str → Option (List R)
  | 0, _ => none
  | fuel + 1, s =>
    match readValue s with
    | none => some []
    | some (datum, rest) => (readValues readValue fuel rest).map (datum :: ·)

/-- What `std::vector<R>` of the C++ library contributes to
`retrieveValueVector`: the value of `max_size()`, and whether `reserve` obtains
the storage for the number of elements it asks for. -/
structure VectorEnv where
  max_size : Nat
  allocates : Nat → Bool

/-- `values.reserve(n)` on the empty vector `values`: it throws
`std::length_error` when `n > max_size()` and `std::bad_alloc` when the storage
cannot be allocated (the result is the `what()` text, as libstdc++ gives it),
and otherwise returns (`none`). -/
def reserve (venv : VectorEnv) (n : Nat) : Option Str :=
  if n > venv.max_size then some "vector::reserve".toList
  else if 0 < n ∧ venv.allocates n = false then some "std::bad_alloc".toList
  else none

/-- The part of `retrieveValueVector` that follows `receiveString(command)`:
`values.reserve(expectedNumValues)` for a positive `expectedNumValues`, then the
values read from the payload and the check of their number. The parameter
`expectedNumValues` is a `std::size_t`: the number is taken modulo `2 ^ 64`. The
storage `push_back` asks for is taken to be available. -/
def parseValueVector {R : Type} (venv : VectorEnv) (readValue : Str → Option (R × Str))
    (payload : Str) (expectedNumValues : Nat) : Option (Except Str (List R)) :=
  let n := expectedNumValues % 2 ^ 64
  match (if 0 < n then reserve venv n else none) with
  | some what => some (.error what)
  | none =>
    (readValues readValue (payload.length + 1) payload).map fun values =>
      if 0 < n ∧ values.length ≠ n then
        .error ("SocketClient::retrieveValueVector(), expected ".toList ++
          decimal n ++ " values but instead retrieved ".toList ++
          decimal values.length)
      else .ok values

/-- `SocketClient::retrieveValueVector<R>(command, argument, expectedNumValues)`. -/
def SocketClient.retrieveValueVector {R : Type} (cl : SocketClient) (venv : VectorEnv)
    (peer : Str → Str) (readValue : Str → Option (R × Str)) (command argument : Str)
    (expectedNumValues : Nat) : Option (Except Str (List R)) :=
  match cl.receiveStringTag (peer (cl.sendCommandAndString command argument)) command with
  | .error e => some (.error e)
  | .ok payload => parseValueVector venv readValue payload expectedNumValues

/-! ## classSocketServer.cpp: construction and destruction of a SocketServer -/

/-- The state shared by the `SocketServer` objects of a process: the static
member `usedPorts` (a `std::set<short>`, kept as a list without repetition),
the log, and whether the directory `tmp` exists. -/
structure ProcessState where
  usedPorts : List Int
  log : Logger
  tmpExists : Bool

/-- The arguments of the constructor of `SocketServer`; `port` is the value of
the parameter of type `short`. -/
structure ServerArgs where
  port : Int
  htmlHeaderFooterFileName : Str
  isHTTPS : Bool
  cmdArgSeparatorTag : Str
  outResultSeparatorTag : Str
  inputFieldSeparatorTag : Str
  webCommandStr : Str

/-- A connection tracked in `mySockets_`: its `weak_ptr` has expired, or it
is still held by a session, with the outcome of `shutdown` and `close` on it. -/
inductive TrackedSocket where
  | expired
  | held (closing : Outcome Unit)

/-- The data members of a constructed `SocketServer`: those the session reads
(`core`) and the others. -/
structure Listener where
  core : SocketServer
  inputFieldSeparator_ : Str
  httpType_ : Str
  myURL_ : Str
  portString_ : Str
  port_ : Int
  listening_ : Bool
  mySockets_ : List TrackedSocket

/-- `SocketServer::SocketServer(theLogger, port, htmlHeaderFooterFileName, ...)`
with the process state after the call. `hostName` is `theLogger->theHostName()`
and `htmlFile` the content of the header and footer file, `none` when the file
cannot be opened. The result is the constructed object or the text of the
exception thrown. Each `addToLog` is called with its default level `_info_`. -/
def SocketServer.construct (args : ServerArgs) (hostName : Str) (htmlFile : Option Str)
    (commands : FunctionRegistry Str Str) (webCommands : FunctionRegistry CGImap Str)
    (ps : ProcessState) : ProcessState × Except Str Listener :=
  let httpType : Str := if args.isHTTPS then "https://".toList else "http://".toList
  let portString := decimalInt args.port
  let supportsWebRequests : Bool :=
    !(args.htmlHeaderFooterFileName = [] : Bool) &&
      !(find args.htmlHeaderFooterFileName "N/A".toList = some 0 : Bool)
  let make (header footer : Str) : Listener :=
    { core :=
        { commandFieldSeparator_ := args.cmdArgSeparatorTag
          outputFieldSeparator_ := args.outResultSeparatorTag
          webCommandString_ := args.webCommandStr
          supportsWebRequests_ := supportsWebRequests
          htmlHeader_ := header
          htmlFooter_ := footer
          commands := commands
          webCommands := webCommands }
      inputFieldSeparator_ := args.inputFieldSeparatorTag
      httpType_ := httpType
      myURL_ := httpType ++ hostName
      portString_ := portString
      port_ := args.port
      listening_ := true
      mySockets_ := [] }
  let makeTmp (p : ProcessState) : ProcessState :=
    if p.tmpExists then p
    else { p with
      tmpExists := true
      log := (p.log.addToLog
        "SocketServer has created a tmp directory within the current working directory".toList
        _info_) }
  if args.port ∈ ps.usedPorts then
    (ps, .error ("SocketServer::SocketServer(): a server listening on port ".toList ++ portString ++
      " was already instantiated.".toList))
  else
    let ps1 : ProcessState :=
      { ps with
        usedPorts := args.port :: ps.usedPorts
        log := ps.log.addToLog ("SocketServer instantiated with port ".toList ++ portString)
          _info_ }
    if supportsWebRequests then
      match htmlFile with
      | none => (ps1, .error ("Cannot open ".toList ++ args.htmlHeaderFooterFileName))
      | some htmlHeaderFooter =>
        match find htmlHeaderFooter "__HFSEPARATOR__".toList with
        | none =>
          (ps1, .error ("SocketServer::SocketServer(): bad format in the HTML header/footer file, ".toList
            ++ args.htmlHeaderFooterFileName))
        | some headerFooterSeparator =>
          (makeTmp { ps1 with log := (ps1.log.addToLog
              ("SocketServer has extracted HTML header/footer information from the file ".toList ++
                args.htmlHeaderFooterFileName) _info_) },
            .ok (make (htmlHeaderFooter.take headerFooterSeparator)
              (htmlHeaderFooter.drop (headerFooterSeparator + 15))))
    else
      (makeTmp { ps1 with log := (ps1.log.addToLog
          "SocketServer has not been configured to accept web requests.".toList _info_) },
        .ok (make [] []))

/-- The loop of `SocketServer::~SocketServer` over `mySockets_`: `none` when
every socket was closed, or the first exception raised by a `shutdown` or
`close`. -/
def closeSockets : List TrackedSocket → Option (Outcome Unit)
  | [] => none
  | .expired :: rest => closeSockets rest
  | .held (.value _) :: rest => closeSockets rest
  | .held e :: _ => some e

/-- `SocketServer::~SocketServer()`: the process state after it.
`selfDial` is the outcome of the connection `stopAcceptingConnections` makes to
the server's own port; an exception there is logged inside
`stopAcceptingConnections`. An exception raised while the sockets are closed
leaves the `try` block before `usedPorts.erase(port_)` and is logged. -/
def Listener.destroy (l : Listener) (selfDial : Outcome Unit) (ps : ProcessState) :
    ProcessState :=
  let ps1 : ProcessState :=
    if l.listening_ then
      match selfDial with
      | .value _ => ps
      | .stdException what =>
        { ps with log := (ps.log.warningToLog
            ("SocketServer::stopAcceptingConnections(): ".toList ++ what)) }
      | .otherException =>
        { ps with log := (ps.log.warningToLog
            "SocketServer::stopAcceptingConnections(): unknown error".toList) }
    else ps
  match closeSockets l.mySockets_ with
  | none => { ps1 with usedPorts := ps1.usedPorts.filter (· ≠ l.port_) }
  | some (.stdException what) =>
    { ps1 with log := ps1.log.warningToLog ("SocketServer::~SocketServer(): ".toList ++ what) }
  | some _ =>
    { ps1 with log := ps1.log.warningToLog "SocketServer::~SocketServer(): unknown error".toList }

/-- `short itsPort() const`. -/
def Listener.itsPort (l : Listener) : Int := l.port_

/-- The conversion of an integer to `short` (16 bits, two's complement), which
an argument of a wider integer type undergoes at a call of the constructor
`SocketServer(Logger*, short port, ...)`. -/
def toShort (v : Int) : Int := (v + 32768) % 65536 - 32768

/-- `URLstr[pos]` for a `const std::string`: the character at `pos` when
`pos < URLstr.length()`, the terminating zero when `pos` is the length, and
`none` for a position beyond it (outside the string). -/
def charAt (URLstr : Str) (pos : Nat) : Option Char :=
  if pos = URLstr.length then some (Char.ofNat 0) else URLstr.get? pos

/-- The `for` loop of `decodeURLString` from index `i`, with the `result` built
so far, following the indices the source reads; `fuel` bounds the number of
iterations. -/
def decodeURLLoop (URLstr : Str) : Nat → Nat → Str → Option Str
  | 0, _, _ => none
  | fuel + 1, i, result =>
    if i < URLstr.length then
      match charAt URLstr i with
      | none => none
      | some c =>
        if c = '+' then decodeURLLoop URLstr fuel (i + 1) (result ++ [' '])
        else if c = '%' then
          match charAt URLstr (i + 1), charAt URLstr (i + 2) with
          | some x, some y => decodeURLLoop URLstr fuel (i + 2 + 1) (result ++ [hexChar x y])
          | _, _ => none
        else decodeURLLoop URLstr fuel (i + 1) (result ++ [c])
    else some result

/-! ## classSocketClient.cpp: file transfer, connect and disconnect -/

/-- The data members of `SocketClient` that `connect` and `disconnect` assign,
and whether `socket_` is open. -/
structure SocketClient.State where
  hostname_ : Str
  portString_ : Str
  isConnected_ : Bool
  isLocalHost_ : Bool
  socketOpen : Bool

/-- The members after the constructor of `SocketClient`. -/
def SocketClient.State.init : SocketClient.State := ⟨[], [], false, false, false⟩

/-- What the file transfers obtain from outside the program. -/
structure Shell where
  /-- The result of `pipe_to_string(command)`: the output and the exit status of
  the command, or the `what()` of the exception thrown when `popen` fails. -/
  pipe_to_string : Str → Except Str (Str × Int)
  /-- The result of `ngi::filecopy(theOriginal, theCopy)`: `none` when the copy
  is made, or the `what()` of the exception thrown. -/
  filecopy : Str → Str → Option Str

/-- The statement `if (folder.back() != '/') folder += '/';`. For the empty
string `back()` has no defined result (`none`). -/
def withSlash (folder : Str) : Option Str :=
  match folder.getLast? with
  | none => none
  | some c => if c ≠ '/' then some (folder ++ ['/']) else some folder

/-- The loop `for (const auto& f : names) ngi::filecopy(src + f, dst + f);`. -/
def copyEach (sh : Shell) (src dst : Str) : List Str → Except Str Unit
  | [] => .ok ()
  | f :: fs =>
    match sh.filecopy (src ++ f) (dst ++ f) with
    | some what => .error what
    | none => copyEach sh src dst fs

/-- The string `filesToCopy` that `retrieveFiles` and `sendFiles` build from
the folder (ending in `/`) and the file names. -/
def filesToCopy (folder : Str) (names : List Str) : Str :=
  let opened := if names.length > 1 then folder ++ "\\\x7b".toList else folder
  let listed := names.foldl (fun acc f => acc ++ f ++ [',']) opened
  let popped := listed.dropLast
  if names.length > 1 then popped ++ "\\\x7d".toList else popped

/-- `SocketClient::retrieveFiles(remoteFileNames, remoteSourceFolder,
localDestinationFolder)`: it returns, or throws the given text. The result is
`none` when the assertion `!remoteSourceFolder.empty()` fails, or `back()` is
taken of an empty destination folder. -/
def SocketClient.retrieveFiles (st : SocketClient.State) (sh : Shell)
    (remoteFileNames : List Str) (remoteSourceFolder localDestinationFolder : Str) :
    Option (Except Str Unit) :=
  match withSlash remoteSourceFolder with
  | none => none
  | some remote =>
    if st.isLocalHost_ then
      match withSlash localDestinationFolder with
      | none => none
      | some dst => some (copyEach sh remote dst remoteFileNames)
    else
      match sh.pipe_to_string ("scp -q ".toList ++ st.hostname_ ++ [':'] ++
          filesToCopy remote remoteFileNames ++ [' '] ++ localDestinationFolder) with
      | .error what => some (.error what)
      | .ok (_, scpExitCode) =>
        if scpExitCode ≠ 0 then
          some (.error ("SocketClient::retrieveFiles(), scp error code: ".toList ++
            decimalInt scpExitCode))
        else some (.ok ())

/-- `s.find_last_of(ch)`: the index of the last occurrence of `ch`. -/
def findLastOf (s : Str) (ch : Char) : Option Nat :=
  (s.reverse.indexOf? ch).map (fun k => s.length - 1 - k)

/-- `is >> word` for a `std::string`: white space is skipped and the characters
up to the next white space are taken. -/
def readWord (s : Str) : Str := (s.dropWhile isSpace).takeWhile (fun c => !isSpace c)

/-- What one call of `SocketClient::connect` obtains from outside. -/
structure ConnectEnv where
  /-- The `what()` of the exception of `resolver_.resolve(q)`, when it throws. -/
  resolveError : Option Str
  /-- The `what()` of the exception of `boost::asio::connect(socket_, i)`, when
  it throws. -/
  connectError : Option Str
  /-- The bytes that arrive in answer to the bytes written. -/
  peer : Str → Str
  /-- The commands and file copies of `retrieveFiles`. -/
  shell : Shell
  /-- The content of the retrieved file, when `std::ifstream authFile` opens it. -/
  authFile : Option Str
  /-- The `what()` of the exception of `socket_.close()`, when it throws. -/
  closeError : Option Str

/-- `SocketClient::disconnect()`: the members after the call, and the exception
of `socket_.close()` when it throws (the descriptor is closed even then). -/
def SocketClient.disconnect (st : SocketClient.State) (closeError : Option Str) :
    SocketClient.State × Except Str Unit :=
  match closeError with
  | some what => ({ st with socketOpen := false }, .error what)
  | none => ({ st with socketOpen := false, isConnected_ := false }, .ok ())

/-- The `try` block of `SocketClient::connect`, up to `isConnected_ = true`:
the members when the block is left and the exception that leaves it, if any. -/
def SocketClient.connectTry (cl : SocketClient) (st : SocketClient.State) (env : ConnectEnv)
    (hostname port : Str) : Option (SocketClient.State × Except Str Unit) :=
  match env.resolveError with
  | some what => some (st, .error what)
  | none =>
    match env.connectError with
    | some what => some ({ st with socketOpen := true }, .error what)
    | none =>
      let st1 : SocketClient.State :=
        { st with
          socketOpen := true
          hostname_ := hostname
          portString_ := port
          isLocalHost_ := (hostname = "localhost".toList : Bool) }
      match cl.retrieveString env.peer AuthStep1 "please".toList [] with
      | .error what => some (st1, .error what)
      | .ok remoteFileToRetrieve =>
        match findLastOf remoteFileToRetrieve '/' with
        | none =>
          some (st1, .error
            "SocketClient::connect(), bad authorization command retrieved from server".toList)
        | some slashPos =>
          let auth1filename := remoteFileToRetrieve.drop (slashPos + 1)
          match SocketClient.retrieveFiles st1 env.shell [auth1filename]
              (remoteFileToRetrieve.take slashPos) "./".toList with
          | none => none
          | some (.error what) => some (st1, .error what)
          | some (.ok _) =>
            match env.authFile with
            | none =>
              some (st1, .error "SocketClient::connect(), could not authorize connection".toList)
            | some content =>
              match cl.retrieveString env.peer AuthStep2 (readWord content) [] with
              | .error what => some (st1, .error what)
              | .ok response =>
                if response ≠ "ok".toList then
                  some (st1, .error
                    "SocketClient::connect(), could not authorize connection.".toList)
                else some (st1, .ok ())

/-- `SocketClient::connect(hostname, port)`: the members after the call, with
the value returned or the exception thrown. An exception of the `try` block is
caught, `disconnect()` is called and the exception is thrown again; an
exception of `disconnect()` itself replaces it. -/
def SocketClient.connect (cl : SocketClient) (st : SocketClient.State) (env : ConnectEnv)
    (hostname port : Str) : Option (SocketClient.State × Except Str Bool) :=
  match cl.connectTry st env hostname port with
  | none => none
  | some (st1, .ok _) => some ({ st1 with isConnected_ := true }, .ok true)
  | some (st1, .error what) =>
    match SocketClient.disconnect st1 env.closeError with
    | (st2, .ok _) => some (st2, .error what)
    | (st2, .error closeWhat) => some (st2, .error closeWhat)

/-! ## randomNumberGenerators.cpp -/

/-- The integer nearest to `q`, the even one of the two when `q` lies halfway. -/
def roundHalfEven (q : ℚ) : Int :=
  let f := ⌊q⌋
  if q - f < 1 / 2 then f
  else if 1 / 2 < q - f then f + 1
  else if f % 2 = 0 then f else f + 1

/-- The distance between neighbouring values of type `double` (binary64: 53
significant bits, least normal exponent -1022) around `q > 0`. -/
def ulpOf (q : ℚ) : ℚ := (2 : ℚ) ^ (max (Int.log 2 q) (-1022) - 52)

/-- The `double` nearest to `q ≥ 0` (ties to even), for `q` below the overflow
threshold. -/
def roundPos (q : ℚ) : ℚ := if q = 0 then 0 else roundHalfEven (q / ulpOf q) * ulpOf q

/-- The `double` that an arithmetic operation with exact result `q` gives:
the value of type `double` nearest to `q`, the one with an even last bit when
`q` lies halfway between two (the default rounding of IEEE 754). -/
def toDouble (q : ℚ) : ℚ := if q < 0 then -roundPos (-q) else roundPos q

/-- `static_cast<int>(v)` for a `double` within the range of `int`: the
fractional part is discarded. -/
def truncate (v : ℚ) : Int := if 0 ≤ v then ⌊v⌋ else ⌈v⌉

/-- The result of an `int` operation with exact result `v` (32 bits, two's
complement). -/
def toInt32 (v : Int) : Int := (v + 2147483648) % 4294967296 - 2147483648

/-- The state of `mersenneTwisterGenerator` with `uniformDistribution`: the
values that the coming calls of `rndMT()` return, in order. -/
abbrev Draws := Nat → ℚ

/-- `RandNum::doMultiply<int>(r, multiplier)`; `none` when its assertion fails. -/
def doMultiply (r : ℚ) (multiplier : Int) : Option Int :=
  let result := truncate (toDouble (r * multiplier))
  if result ≠ multiplier ∨ result = 0 then some result else none

/-- `RandNum::rndMT<int>(multiplier)`: the result and the generator after the
call. -/
def rndMT (g : Draws) (multiplier : Int) : Option (Int × Draws) :=
  (doMultiply (g 0) multiplier).map fun result => (result, fun n => g (n + 1))

/-- `RandNum::randomIntegerWithinInclusiveRange(lo, hi)`. -/
def randomIntegerWithinInclusiveRange (g : Draws) (lo hi : Int) : Option (Int × Draws) :=
  if lo = hi then some (lo, g)
  else
    let lo1 := if lo > hi then hi else lo
    let hi1 := if lo > hi then lo else hi
    (rndMT g (toInt32 (toInt32 (hi1 - lo1) + 1))).map fun p => (toInt32 (lo1 + p.1), p.2)

/-- The array `characters`. -/
def characters : Str :=
  "0123456789abcdefghijklmnopqrstuvwxyzABCDEFGHIJKLMNOPQRSTUVWXYZ@%+/!#$^?:,()\x7b\x7d[]~`-_.".toList

/-- The loop `for (int i = 0; i < itsLength; ++i) result += characters[rndMT(62)];`
of `generateRandomAlphanumericString`, with `n` iterations to go. -/
def alphanumericLoop : Nat → Draws → Str → Option (Str × Draws)
  | 0, g, result => some (result, g)
  | n + 1, g, result =>
    match rndMT g 62 with
    | none => none
    | some (k, g1) =>
      match (if 0 ≤ k then charAt characters k.toNat else none) with
      | none => none
      | some c => alphanumericLoop n g1 (result ++ [c])

/-- `RandNum::generateRandomAlphanumericString(minSize, maxSize)`: the string
and the generator after the call. -/
def generateRandomAlphanumericString (g : Draws) (minSize maxSize : Int) :
    Option (Str × Draws) :=
  match randomIntegerWithinInclusiveRange g minSize maxSize with
  | none => none
  | some (itsLength, g1) => alphanumericLoop itsLength.toNat g1 []

/-! ## classSocketServer.cpp: `server()` and `stopAcceptingConnections()` as two threads -/

/-- Who opened a connection to the acceptor of `server()`:
`stopAcceptingConnections()` of the same object, or another party. -/
inductive Caller where
  | self
  | other (n : Nat)
  deriving DecidableEq, Repr

/-- Where the thread that runs `SocketServer::server()` is: blocked in
`a.accept(*sock)`; at `if (!listening_) break;` after `accept` has returned with
the connection of `c`; at `listening_ = false` after the `try` block, where the
lock on `myServerActiveMutex_` and the acceptor have been destroyed; or
returned. -/
inductive ServerAt where
  | accept
  | test (c : Caller)
  | afterLoop
  | done
  deriving DecidableEq, Repr

/-- Where the thread that runs `SocketServer::stopAcceptingConnections()` is:
at `if (listening_)`; at the `try` block that connects to the own port, after
`listening_ = false`; at the `std::lock_guard` on `myServerActiveMutex_`; or
returned. -/
inductive StopAt where
  | test
  | dial
  | lock
  | done
  deriving DecidableEq, Repr

/-- The state that `server()` and `stopAcceptingConnections()` share and the
place each of the two is at. -/
structure Threads where
  listening_ : Bool
  /-- Whether `myServerActiveMutex_` is held; only `server()` holds it for longer
  than one step. -/
  serverActive : Bool
  /-- Whether the acceptor `a` of `server()` exists. -/
  acceptorOpen : Bool
  /-- The connections established with the acceptor and not yet accepted. -/
  pending : List Caller
  /-- The connections for which `server()` has spawned a session. -/
  sessions : List Caller
  /-- The connection on whose acceptance the loop was left. -/
  leftOn : Option Caller
  /-- The number of warnings `stopAcceptingConnections()` has logged. -/
  warnings : Nat
  server : ServerAt
  stop : StopAt
  deriving DecidableEq, Repr

/-- Who takes the next step: the thread of `server()`, the thread of
`stopAcceptingConnections()`, or another party that connects to the port. -/
inductive Thread where
  | server
  | stop
  | other (n : Nat)
  deriving DecidableEq, Repr

/-- One step of `SocketServer::server()` from inside its loop; `none` while
`accept` blocks and after the return. -/
def serverStep (s : Threads) : Option Threads :=
  match s.server with
  | .accept =>
    match s.pending with
    | [] => none
    | c :: rest => some { s with pending := rest, server := .test c }
  | .test c =>
    if !s.listening_ then
      some { s with serverActive := false, acceptorOpen := false, leftOn := some c,
                    server := .afterLoop }
    else some { s with sessions := s.sessions ++ [c], server := .accept }
  | .afterLoop => some { s with listening_ := false, server := .done }
  | .done => none

/-- The port that the resolver gives for the service string of a query: a
string of decimal digits names the port of that number; a string of another
form, such as one with a sign, is looked up as a service name, and no service
has such a name: `none`, the resolution throws. -/
def servicePort (service : Str) : Option Nat :=
  if service ≠ [] ∧ service.all Char.isDigit = true then some (digitsValue service % 65536)
  else none

/-- The port the acceptor of `server()` is bound to: `port_` converted to the
`unsigned short` that `endpoint(tcp::v4(), port_)` takes. -/
def Listener.acceptorPort (l : Listener) : Nat := (l.port_ % 65536).toNat

/-- Whether the connection made in `stopAcceptingConnections()` reaches the
acceptor of `server()` of the same object. The query
`(tcp::v4(), host_name(), portString_)` resolves when the name of the host
resolves to an IPv4 address of the host (`hostNameOk`, the one fact taken from
outside) and `portString_` names a port; the connection then reaches the
acceptor when that port is the one the acceptor is bound to. An acceptor
constructed on port 0 is bound to a port the system chooses, which a
connection to port 0 does not reach. -/
def Listener.selfDialReaches (l : Listener) (hostNameOk : Bool) : Bool :=
  hostNameOk && (servicePort l.portString_ == some l.acceptorPort) && (l.acceptorPort != 0)

/-- One step of `SocketServer::stopAcceptingConnections()`; `none` while the
lock is awaited and after the return. The connection to the own host name and
`portString_` is established when the acceptor exists and
`selfDialReaches` holds; otherwise the exception is caught and a warning is
logged. -/
def stopAcceptingConnectionsStep (hostNameOk : Bool) (l : Listener) (s : Threads) :
    Option Threads :=
  match s.stop with
  | .test =>
    if s.listening_ then some { s with listening_ := false, stop := .dial }
    else some { s with stop := .done }
  | .dial =>
    if s.acceptorOpen && l.selfDialReaches hostNameOk then
      some { s with pending := s.pending ++ [.self], stop := .lock }
    else some { s with warnings := s.warnings + 1, stop := .lock }
  | .lock => if s.serverActive then none else some { s with stop := .done }
  | .done => none

/-- One step of the given thread, when it can take one. A connection of
another party is established while the acceptor exists. -/
def step (hostNameOk : Bool) (l : Listener) (s : Threads) : Thread → Option Threads
  | .server => serverStep s
  | .stop => stopAcceptingConnectionsStep hostNameOk l s
  | .other n => if s.acceptorOpen then some { s with pending := s.pending ++ [.other n] } else none

/-- The text `s` followed by a newline, unless `s` already ends in one: what
the claims call a newline-terminated reply. -/
def withNewline (s : Str) : Str :=
  if s.getLast? = some '\n' then s else s ++ ['\n']

/-- The outcome of an iteration that answers a POST exchange with an error
page: the loop is left; the one line `***ERROR*** errMsg` is added to the log;
exactly one string is sent, which holds `errMsg`, ends in a newline and is,
with web support, the configured header, `errMsg` and the configured footer
(and a newline unless the footer ends in one), and without web support the
minimal HTML5 page titled `ERROR` whose body is `errMsg`; no command handler
is invoked. -/
def ErrorPageSent (srv : SocketServer) (w : World) (out : IterOut) (errMsg : Str) : Prop :=
  out.continues = false ∧
  out.w.log = ⟨w.log.entries ++ ["***ERROR*** ".toList ++ errMsg], w.log.logLevel_⟩ ∧
  (∃ page, out.w.sent = w.sent ++ [page] ∧ errMsg <:+: page ∧ page.getLast? = some '\n' ∧
    page =
      if srv.supportsWebRequests_ then withNewline (srv.htmlHeader_ ++ errMsg ++ srv.htmlFooter_)
      else "<!DOCTYPE html>\n<html lang=\"en\">\n<meta charset=\"utf-8\">\n<title>ERROR</title>\n<body>\n".toList
        ++ errMsg ++ "</body>\n</html>\n".toList) ∧
  out.w.calls = w.calls

/-- The hexadecimal digit of `v < 16`, in upper or in lower case. -/
def hexDigit (upper : Bool) (v : Nat) : Char :=
  if v < 10 then Char.ofNat (48 + v)
  else if upper then Char.ofNat (55 + v) else Char.ofNat (87 + v)

/-- The string `e` is a URL-encoding of the byte string `s`: a space is written
`+`; a byte other than `+` and `%` (so every letter, digit and other unreserved
character) may be written as itself; and every byte may be written as `%`
followed by its two hexadecimal digits, each in upper or in lower case. -/
inductive UrlEncodes : Str → Str → Prop where
  | nil : UrlEncodes [] []
  | space (s e : Str) : UrlEncodes s e → UrlEncodes (' ' :: s) ('+' :: e)
  | literal (c : Char) (s e : Str) : c ≠ '+' → c ≠ '%' → UrlEncodes s e →
      UrlEncodes (c :: s) (c :: e)
  | percent (c : Char) (u1 u2 : Bool) (s e : Str) : c.toNat < 256 → UrlEncodes s e →
      UrlEncodes (c :: s) ('%' :: hexDigit u1 (c.toNat / 16) :: hexDigit u2 (c.toNat % 16) :: e)

/-- The query `k1=v1&k2=v2&...&kn=vn` of the given (encoded) pairs. -/
def cgiQuery : List (Str × Str) → Str
  | [] => []
  | (k, v) :: rest =>
    match rest with
    | [] => k ++ '=' :: v
    | _ :: _ => k ++ '=' :: v ++ '&' :: cgiQuery rest

/-- A payload that holds the given integers: each one in decimal, after the
white space given with it; `trailing` follows the last one. -/
def intsPayload : List (Str × Int) → Str → Str
  | [], trailing => trailing
  | (ws, v) :: rest, trailing => ws ++ decimalInt v ++ intsPayload rest trailing

/-- The relation between an encoded pair and its decoded pair that
`parseCGImap` needs: no `=` in the encoded key, no `&` in the encoded value,
and both decode. -/
def DecodesPair (e d : Str × Str) : Prop :=
  '=' ∉ e.1 ∧ '&' ∉ e.2 ∧ decodeURLString e.1 = some d.1 ∧ decodeURLString e.2 = some d.2

/-- The values `retrieveValueVector<int>` is said to return: the integers read
one after the other from the start of the payload, up to the first point at
which an integer cannot be read. -/
inductive ReadsUntilFailure : Str → List Int → Prop where
  | stop (s : Str) : readInt s = none → ReadsUntilFailure s []
  | step (s rest : Str) (v : Int) (vs : List Int) : readInt s = some (v, rest) →
      ReadsUntilFailure rest vs → ReadsUntilFailure s (v :: vs)

/-- The folder `d` with a trailing `/` appended when missing. -/
def slashed (d : Str) : Str := if d.getLast? = some '/' then d else d ++ ['/']

/-- The names `f1,...,fn` joined by commas, no comma after the last. -/
def commaList : List Str → Str
  | [] => []
  | [f] => f
  | f :: g :: rest => f ++ ',' :: commaList (g :: rest)

/-- The file part of the secure-copy command: `f1` for one name, and the
backslash-escaped brace list of `f1,...,fn` for more than one. -/
def braceList (names : List Str) : Str :=
  match names with
  | [f] => f
  | _ => "\\\x7b".toList ++ commaList names ++ "\\\x7d".toList

/-- The number `q` is a value of type `double`. -/
def IsDouble (q : ℚ) : Prop := toDouble q = q

/-- A value that `uniformDistribution` may give: a `double` in `[0, 1)`. -/
def UnitDouble (r : ℚ) : Prop := IsDouble r ∧ 0 ≤ r ∧ r < 1

/-- A handler that returns its argument. -/
def ping : Str → Outcome Str := fun a => .value a

/-- A handler that returns `other`, whatever its argument. -/
def other : Str → Outcome Str := fun _ => .value "other".toList

/-- The command registry holding `Ping` only. -/
def pingRegistry : FunctionRegistry Str Str :=
  (FunctionRegistry.empty.Register "Ping".toList ping).1

/-- The command registry holding `AuthStep1`, registered as an ordinary command. -/
def authStep1Registry : FunctionRegistry Str Str :=
  (FunctionRegistry.empty.Register "AuthStep1".toList ping).1

/-- An iteration that reads `line` while every system call and socket write
succeeds, the random generator giving `name` and `secret`, in directory `/srv`. -/
def lineEnv (line name secret : String) : Env :=
  { listening := true
    read := .data line.toList
    remoteAddress := "10.0.0.7".toList
    randomName := name.toList
    randomSecret := secret.toList
    openOk := true
    chmodOk := true
    pwd := ("/srv\n".toList, 0)
    writeError := none
    catchWriteOk := true
    postRead := .eof }

/-- A secret of 64 characters, as the random generator gives. -/
def secretA : String := "0123456789abcdefghijklmnopqrstuvwxyzABCDEFGHIJKLMNOPQRSTUVWXYZ01"

/-- Another secret of 64 characters. -/
def secretB : String := "ZYXWVUTSRQPONMLKJIHGFEDCBAzyxwvutsrqponmlkjihgfedcba9876543210zy"

/-- An iteration whose read meets the end of the stream. -/
def eofEnv : Env := { lineEnv "" "" "" with read := .eof }

/-- A world with working directory `/srv`, no file, nothing sent or logged. -/
def world0 : World := ⟨"/srv".toList, [], [], ⟨[], _info_⟩, [], []⟩

/-- A web handler that greets the value of the field `name`. -/
def greet : CGImap → Outcome Str :=
  fun m => .value ("Hello ".toList ++ (m.find "name".toList).getD [])

/-- The web registry holding `Greet` only. -/
def webRegistry : FunctionRegistry CGImap Str :=
  (FunctionRegistry.empty.Register "Greet".toList greet).1

/-- A server with web support, whose header and footer are `<html>` and `</html>`. -/
def webServer : SocketServer :=
  { defaultServer pingRegistry with
    supportsWebRequests_ := true
    htmlHeader_ := "<html>".toList
    htmlFooter_ := "</html>".toList
    webCommands := webRegistry }

/-- An iteration that reads `line` and, for a POST exchange, the lines `body`. -/
def postEnv (line : String) (body : List String) : Env :=
  { lineEnv line "" "" with postRead := .data (body.map String.toList) }

/-- A process in which no `SocketServer` has been constructed. -/
def processStart : ProcessState := ⟨[], ⟨[], _info_⟩, true⟩

/-- The default arguments of the constructor, for the given port and no web support. -/
def argsOn (port : Int) : ServerArgs :=
  { port := port
    htmlHeaderFooterFileName := "N/A".toList
    isHTTPS := false
    cmdArgSeparatorTag := "__+__".toList
    outResultSeparatorTag := "__$__".toList
    inputFieldSeparatorTag := "__*__".toList
    webCommandStr := "WebCommand".toList }

/-- The construction of a `SocketServer` on `port` with the default arguments. -/
def constructOn (port : Int) (ps : ProcessState) : ProcessState × Except Str Listener :=
  SocketServer.construct (argsOn port) "host".toList none pingRegistry webRegistry ps

/-- The arguments of the constructor for the given port, with web support
through the header and footer file `file`. -/
def argsWeb (port : Int) (file : String) : ServerArgs :=
  { argsOn port with htmlHeaderFooterFileName := file.toList }

/-- A shell in which every command ends with the given exit status and every
file copy is made. -/
def shellWith (status : Int) : Shell :=
  { pipe_to_string := fun _ => .ok ([], status)
    filecopy := fun _ _ => none }

/-- A client connected to the remote host `lab7`. -/
def remoteClient : SocketClient.State := ⟨"lab7".toList, "19971".toList, true, false, true⟩

/-- The answers of a server that issues the challenge file
`/srv/tmp/auth_abcdefghij` and accepts the secret `secretA`. -/
def handshakePeer (wire : Str) : Str :=
  if wire = "AuthStep1__+__please\n".toList then "AuthStep1__$__/srv/tmp/auth_abcdefghij\n".toList
  else if wire = "AuthStep2__+__".toList ++ secretA.toList ++ ['\n'] then "AuthStep2__$__ok\n".toList
  else "AuthStep2__$__Error: SocketServer::session(): Client at 10.0.0.7 did not send the secret string\n".toList

/-- A call of `connect` in which every step succeeds. -/
def connectEnv : ConnectEnv :=
  { resolveError := none
    connectError := none
    peer := handshakePeer
    shell := shellWith 0
    authFile := some (secretA.toList ++ ['\n'])
    closeError := none }

/-- A C++ library whose `std::vector<int>` holds at most `2 ^ 61 - 1` elements
and in which every allocation succeeds. -/
def vectorEnv : VectorEnv := ⟨2 ^ 61 - 1, fun _ => true⟩

/-- A command handler that returns the empty string. -/
def silent : Str → Outcome Str := fun _ => .value []

/-- The command registry holding the empty command name only. -/
def silentRegistry : FunctionRegistry Str Str :=
  (FunctionRegistry.empty.Register [] silent).1

/-- A server with the default command separator and an empty output separator. -/
def bareServer : SocketServer :=
  { defaultServer silentRegistry with outputFieldSeparator_ := [] }

/-- A web handler that returns the empty string. -/
def blank : CGImap → Outcome Str := fun _ => .value []

/-- The web registry holding `Blank` only. -/
def blankRegistry : FunctionRegistry CGImap Str :=
  (FunctionRegistry.empty.Register "Blank".toList blank).1

/-! ## Theorems -/

/-! ### The registry -/

theorem FunctionRegistry.lookup_cons {A R : Type} (k key : Str) (f : A → Outcome R)
    (l : List (Str × (A → Outcome R))) :
    (FunctionRegistry.mk ((k, f) :: l)).lookup key =
      if k = key then some f else (FunctionRegistry.mk l).lookup key := by
  by_cases h : k = key <;> simp [FunctionRegistry.lookup, List.find?_cons, h]

theorem FunctionRegistry.lookup_Register {A R : Type} (reg : FunctionRegistry A R) (k key : Str)
    (f : A → Outcome R) :
    (reg.Register k f).1.lookup key =
      if k = key then (reg.lookup k).orElse (fun _ => some f) else reg.lookup key := by
  unfold FunctionRegistry.Register
  cases hk : reg.lookup k with
  | some g =>
    by_cases h : k = key
    · subst h; simp [hk]
    · simp [h]
  | none =>
    by_cases h : k = key
    · subst h; simp [FunctionRegistry.lookup_cons]
    · cases reg; simp [FunctionRegistry.lookup_cons, h]

theorem FunctionRegistry.Register_snd {A R : Type} (reg : FunctionRegistry A R) (k : Str)
    (f : A → Outcome R) : (reg.Register k f).2 = (reg.lookup k).isNone := by
  unfold FunctionRegistry.Register
  cases reg.lookup k <;> rfl

/-- C9. If `k` is absent, `Register(k, f)` returns true, a following
`Register(k, g)` returns false, and `k` is afterwards bound to `f`: a dispatch
of `k` invokes a handler and returns the result of `f`. -/
theorem c9_register_twice {A R : Type} (reg : FunctionRegistry A R) (k : Str)
    (f g : A → Outcome R) (args : A) (habs : reg.lookup k = none) :
    (reg.Register k f).2 = true ∧
    ((reg.Register k f).1.Register k g).2 = false ∧
    ((reg.Register k f).1.Register k g).1.lookup k = some f ∧
    (((reg.Register k f).1.Register k g).1.call k args).invoked = true ∧
    (((reg.Register k f).1.Register k g).1.call k args).outcome = f args := by
  have h1 : (reg.Register k f).1.lookup k = some f := by
    rw [FunctionRegistry.lookup_Register]; simp [habs]
  have h2 : ((reg.Register k f).1.Register k g).1.lookup k = some f := by
    rw [FunctionRegistry.lookup_Register]; simp [h1]
  refine ⟨?_, ?_, h2, ?_, ?_⟩
  · rw [FunctionRegistry.Register_snd, habs]; rfl
  · rw [FunctionRegistry.Register_snd, h1]; rfl
  · simp [FunctionRegistry.call, h2]
  · simp [FunctionRegistry.call, h2]

/-- C9 (witness). `Ping` registered twice in the empty registry. -/
theorem c9_register_twice_witness :
    (FunctionRegistry.empty.Register "Ping".toList ping).2 = true ∧
    (((FunctionRegistry.empty.Register "Ping".toList ping).1.Register "Ping".toList other).2 = false) ∧
    ((FunctionRegistry.empty.Register "Ping".toList ping).1.Register "Ping".toList other).1.lookup
      "Ping".toList = some ping ∧
    ((((FunctionRegistry.empty.Register "Ping".toList ping).1.Register "Ping".toList other).1.call
      "Ping".toList "hello".toList).invoked = true) ∧
    ((((FunctionRegistry.empty.Register "Ping".toList ping).1.Register "Ping".toList other).1.call
      "Ping".toList "hello".toList).outcome = ping "hello".toList) :=
  c9_register_twice FunctionRegistry.empty "Ping".toList ping other "hello".toList rfl

theorem FunctionRegistry.lookup_foldl {A R : Type} (ops : List (Str × (A → Outcome R)))
    (reg : FunctionRegistry A R) (k : Str) :
    (ops.foldl (fun reg op => (reg.Register op.1 op.2).1) reg).lookup k =
      (reg.lookup k).orElse (fun _ => (ops.find? (fun e => e.1 == k)).map (·.2)) := by
  induction ops generalizing reg with
  | nil => cases h : reg.lookup k <;> simp [h]
  | cons op ops ih =>
    rw [List.foldl_cons, ih, FunctionRegistry.lookup_Register]
    by_cases h : op.1 = k
    · subst h
      cases hr : reg.lookup op.1 <;> simp [List.find?_cons, hr]
    · cases hr : reg.lookup k <;> simp [List.find?_cons, h, hr]

theorem FunctionRegistry.lookup_registerAll {A R : Type} (ops : List (Str × (A → Outcome R)))
    (k : Str) :
    (FunctionRegistry.registerAll ops).lookup k = (ops.find? (fun e => e.1 == k)).map (·.2) := by
  unfold FunctionRegistry.registerAll
  rw [FunctionRegistry.lookup_foldl]
  simp [FunctionRegistry.empty, FunctionRegistry.lookup]

/-- C10. In the registry reached by any sequence of `Register` calls, a
dispatch of `k` invokes no handler and raises the "not yet registered" error
if and only if no call registered `k`; otherwise it invokes a handler and
returns the result of the handler of the first call that registered `k`. -/
theorem c10_dispatch {A R : Type} (ops : List (Str × (A → Outcome R))) (k : Str) (args : A) :
    ((((FunctionRegistry.registerAll ops).call k args).invoked = false ∧
        ((FunctionRegistry.registerAll ops).call k args).outcome =
          .stdException (FunctionRegistry.notRegistered k)) ↔
      k ∉ ops.map Prod.fst) ∧
    (k ∈ ops.map Prod.fst →
      ∃ f, (ops.find? (fun e => e.1 == k)).map (·.2) = some f ∧
        ((FunctionRegistry.registerAll ops).call k args).invoked = true ∧
        ((FunctionRegistry.registerAll ops).call k args).outcome = f args) := by
  have hl := FunctionRegistry.lookup_registerAll ops k
  cases hf : ops.find? (fun e => e.1 == k) with
  | none =>
    have hk : k ∉ ops.map Prod.fst := by
      intro hmem
      obtain ⟨e, he, hek⟩ := List.mem_map.1 hmem
      have := List.find?_eq_none.1 hf e he
      simp [hek] at this
    rw [hf] at hl
    simp only [Option.map_none'] at hl
    refine ⟨⟨fun _ => hk, fun _ => ?_⟩, fun h => absurd h hk⟩
    simp [FunctionRegistry.call, hl]
  | some e =>
    have hk : k ∈ ops.map Prod.fst := by
      have h1 := List.mem_of_find?_eq_some hf
      have h2 := List.find?_some hf
      exact List.mem_map.2 ⟨e, h1, by simpa using h2⟩
    rw [hf] at hl
    simp only [Option.map_some'] at hl
    refine ⟨⟨fun h => ?_, fun h => absurd hk h⟩, fun _ => ⟨e.2, rfl, ?_, ?_⟩⟩
    · simp [FunctionRegistry.call, hl] at h
    · simp [FunctionRegistry.call, hl]
    · simp [FunctionRegistry.call, hl]

/-! ### The session: auxiliary facts -/


theorem tryBlock_dispatch (srv : SocketServer) (env : Env) (st : SessionState) (w : World)
    (L : Str) (p : Nat) (hread : env.read = .data L)
    (hp : find L srv.commandFieldSeparator_ = some p) (hc : L.take p ≠ AuthStep1)
    (hauth : st.Authenticated) :
    tryBlock srv env st w =
      (let command := L.take p
       let st1 : SessionState :=
         { st with authenticationStep := (st.authenticationStep + 1) % 2 ^ 64 }
       let arg := L.drop (p + srv.commandFieldSeparator_.length)
       let d := srv.commands.call command arg
       let w2 := if d.invoked then { w with calls := w.calls ++ [(command, arg)] } else w
       match d.outcome with
       | .value r =>
         trySend env st1 w2 L command false
           (srv.insertOutputFieldSeparator command r) .next
       | .stdException what => some ⟨st1, w2, L, command, false, .stdExc what⟩
       | .otherException => some ⟨st1, w2, L, command, false, .otherExc⟩) := by
  obtain ⟨h2, h64⟩ := hauth
  have hs1 : (st.authenticationStep + 1) % 2 ^ 64 ≠ 1 := by omega
  have hs2 : (st.authenticationStep + 1) % 2 ^ 64 ≠ 2 := by omega
  simp only [tryBlock, hread, hp, hc, if_false, hs1, hs2]

theorem withNewline_getLast (s : Str) : (withNewline s).getLast? = some '\n' := by
  unfold withNewline
  split
  · assumption
  · simp

theorem sendString_nil : sendString [] = none := rfl

theorem sendString_of_ne (s : Str) (h : s ≠ []) : sendString s = some (withNewline s) := by
  unfold sendString withNewline
  cases hl : s.getLast? with
  | none => exact absurd (List.getLast?_eq_none_iff.1 hl) h
  | some c =>
    by_cases hc : c = '\n'
    · simp [hc]
    · simp [hc]

theorem sendString_cons (c : Char) (s : Str) :
    sendString (c :: s) = some (withNewline (c :: s)) :=
  sendString_of_ne _ (List.cons_ne_nil c s)

theorem sendString_eq_none (s : Str) (h : sendString s = none) : s = [] := by
  by_contra hne
  rw [sendString_of_ne s hne] at h
  cases h

theorem trySend_of_ne (env : Env) (st : SessionState) (w : World) (theString command : Str)
    (isPOST : Bool) (s : Str) (after : Flow) (h : s ≠ []) :
    trySend env st w theString command isPOST s after =
      some (match env.writeError with
        | none =>
          ⟨st, { w with sent := w.sent ++ [withNewline s] }, theString, command, isPOST, after⟩
        | some what => ⟨st, w, theString, command, isPOST, .stdExc what⟩) := by
  unfold trySend
  rw [sendString_of_ne s h]
  cases env.writeError <;> rfl

theorem applyHTMLFormatting_ne (srv : SocketServer) (s title : Str) (h : s ≠ []) :
    srv.applyHTMLFormatting s title ≠ [] := by
  unfold SocketServer.applyHTMLFormatting
  cases srv.supportsWebRequests_ <;> simp [h]

theorem errorToLog_entries (lg : Logger) (comment : Str) :
    (lg.errorToLog comment).entries = lg.entries ++ ["***ERROR*** ".toList ++ comment] := by
  have h : ¬ _error_ < lg.logLevel_ := by
    have := lg.logLevel_.isLt
    simp only [_error_, Fin.lt_def]
    omega
  simp [Logger.errorToLog, Logger.addToLog, h]

theorem errorToLog_logLevel (lg : Logger) (comment : Str) :
    (lg.errorToLog comment).logLevel_ = lg.logLevel_ := by
  unfold Logger.errorToLog Logger.addToLog
  split_ifs <;> rfl

theorem errorToLog_eq (lg : Logger) (comment : Str) :
    lg.errorToLog comment = ⟨lg.entries ++ ["***ERROR*** ".toList ++ comment], lg.logLevel_⟩ := by
  have h1 := errorToLog_entries lg comment
  have h2 := errorToLog_logLevel lg comment
  cases hx : lg.errorToLog comment
  rw [hx] at h1 h2
  simp only at h1 h2
  rw [h1, h2]

theorem catchBlock_of_ne (srv : SocketServer) (env : Env) (t : TryOut) (errMsg : Str)
    (h : errMsg ≠ []) :
    catchBlock srv env t errMsg =
      some (if t.isPOST then
          if env.catchWriteOk then
            ⟨t.st, { t.w with
              log := t.w.log.errorToLog errMsg
              sent := t.w.sent ++
                [withNewline (srv.applyHTMLFormatting errMsg "ERROR".toList)] }, false⟩
          else ⟨t.st, { t.w with log := t.w.log.errorToLog errMsg }, false⟩
        else if t.command ≠ [] then
          if env.catchWriteOk then
            ⟨t.st, { t.w with
              log := t.w.log.errorToLog errMsg
              sent := t.w.sent ++ [withNewline
                (srv.insertOutputFieldSeparator t.command ("Error: ".toList ++ errMsg))] }, true⟩
          else ⟨t.st, { t.w with log := t.w.log.errorToLog errMsg }, false⟩
        else ⟨t.st, { t.w with log := t.w.log.errorToLog errMsg }, true⟩) := by
  have h1 := sendString_of_ne _ (applyHTMLFormatting_ne srv errMsg "ERROR".toList h)
  have h2 : sendString (srv.insertOutputFieldSeparator t.command ("Error: ".toList ++ errMsg)) =
      some (withNewline
        (srv.insertOutputFieldSeparator t.command ("Error: ".toList ++ errMsg))) := by
    apply sendString_of_ne
    simp [SocketServer.insertOutputFieldSeparator]
  unfold catchBlock
  rw [h1, h2]
  split_ifs <;> rfl

theorem sessionMsg_ne (what : Str) : "SocketServer::session(): ".toList ++ what ≠ [] := by
  simp

theorem unknownMsg_ne (theString : Str) :
    "SocketServer::session(): unknown error, with string \"".toList ++ theString ++
      "\"".toList ≠ [] := by
  simp

theorem iteration_of_tryBlock (srv : SocketServer) (env : Env) (st : SessionState) (w : World)
    (t : TryOut) (ht : tryBlock srv env st w = some t) :
    iteration srv env st w =
      match t.flow with
      | .next => some ⟨t.st, t.w, true⟩
      | .brk => some ⟨t.st, t.w, false⟩
      | .stdExc what => catchBlock srv env t ("SocketServer::session(): ".toList ++ what)
      | .otherExc =>
        catchBlock srv env t
          ("SocketServer::session(): unknown error, with string \"".toList ++ t.theString ++
            "\"".toList) := by
  simp only [iteration, ht, Option.some_bind]

theorem iteration_value_map (srv : SocketServer) (env : Env) (st : SessionState) (w : World)
    (c a r : Str) (h : Str → Outcome Str) (hauth : st.Authenticated)
    (hread : env.read = .data (c ++ srv.commandFieldSeparator_ ++ a))
    (hfirst : find (c ++ srv.commandFieldSeparator_ ++ a) srv.commandFieldSeparator_ =
      some c.length)
    (hc : c ≠ AuthStep1)
    (hreg : srv.commands.lookup c = some h) (hr : h a = .value r)
    (hwr : env.writeError = none) :
    iteration srv env st w =
      (sendString (c ++ srv.outputFieldSeparator_ ++ r)).map fun ns =>
        ⟨{ st with authenticationStep := (st.authenticationStep + 1) % 2 ^ 64 },
          { w with sent := w.sent ++ [ns]
                   calls := w.calls ++ [(c, a)] }, true⟩ := by
  have htake : (c ++ srv.commandFieldSeparator_ ++ a).take c.length = c := by
    simp [List.append_assoc]
  have hdrop : (c ++ srv.commandFieldSeparator_ ++ a).drop
      (c.length + srv.commandFieldSeparator_.length) = a := by
    rw [← List.length_append]; simp
  have ht := tryBlock_dispatch srv env st w _ _ hread hfirst (by rw [htake]; exact hc) hauth
  have hcall : srv.commands.call c a = ⟨true, .value r⟩ := by
    simp [FunctionRegistry.call, hreg, hr]
  simp only [htake, hdrop, hcall] at ht
  simp only [iteration, ht, trySend, hwr, SocketServer.insertOutputFieldSeparator]
  cases sendString (c ++ srv.outputFieldSeparator_ ++ r) <;> simp

theorem iteration_value (srv : SocketServer) (env : Env) (st : SessionState) (w : World)
    (c a r : Str) (h : Str → Outcome Str) (hauth : st.Authenticated)
    (hread : env.read = .data (c ++ srv.commandFieldSeparator_ ++ a))
    (hfirst : find (c ++ srv.commandFieldSeparator_ ++ a) srv.commandFieldSeparator_ =
      some c.length)
    (hc : c ≠ AuthStep1)
    (hreg : srv.commands.lookup c = some h) (hr : h a = .value r)
    (hwr : env.writeError = none) (hne : c ++ srv.outputFieldSeparator_ ++ r ≠ []) :
    iteration srv env st w =
      some ⟨{ st with authenticationStep := (st.authenticationStep + 1) % 2 ^ 64 },
        { w with sent := w.sent ++ [withNewline (c ++ srv.outputFieldSeparator_ ++ r)]
                 calls := w.calls ++ [(c, a)] }, true⟩ := by
  rw [iteration_value_map srv env st w c a r h hauth hread hfirst hc hreg hr hwr,
    sendString_of_ne _ hne]
  rfl

theorem iteration_value_nil (srv : SocketServer) (env : Env) (st : SessionState) (w : World)
    (c a r : Str) (h : Str → Outcome Str) (hauth : st.Authenticated)
    (hread : env.read = .data (c ++ srv.commandFieldSeparator_ ++ a))
    (hfirst : find (c ++ srv.commandFieldSeparator_ ++ a) srv.commandFieldSeparator_ =
      some c.length)
    (hc : c ≠ AuthStep1)
    (hreg : srv.commands.lookup c = some h) (hr : h a = .value r)
    (hwr : env.writeError = none) (hnil : c ++ srv.outputFieldSeparator_ ++ r = []) :
    iteration srv env st w = none := by
  rw [iteration_value_map srv env st w c a r h hauth hread hfirst hc hreg hr hwr, hnil]
  rfl

theorem sessionLoop_cons (srv : SocketServer) (env : Env) (rest : List Env)
    (st st1 : SessionState) (w w1 : World) (hl : env.listening = true)
    (hi : iteration srv env st w = some ⟨st1, w1, true⟩) :
    sessionLoop srv (env :: rest) st w = sessionLoop srv rest st1 w1 := by
  simp only [sessionLoop, hl, hi, if_true]

theorem catchBlock_calls (srv : SocketServer) (env : Env) (t : TryOut) (errMsg : Str)
    (h : errMsg ≠ []) :
    ∃ out, catchBlock srv env t errMsg = some out ∧ out.w.calls = t.w.calls := by
  rw [catchBlock_of_ne srv env t errMsg h]
  refine ⟨_, rfl, ?_⟩
  split_ifs <;> rfl

theorem trySend_calls (env : Env) (st : SessionState) (w : World) (theString command : Str)
    (isPOST : Bool) (s : Str) (after : Flow) (t : TryOut)
    (h : trySend env st w theString command isPOST s after = some t) :
    t.w.calls = w.calls := by
  unfold trySend at h
  cases hs : sendString s with
  | none => rw [hs] at h; cases h
  | some ns =>
    rw [hs] at h
    cases hw : env.writeError with
    | none => rw [hw] at h; cases h; rfl
    | some what => rw [hw] at h; cases h; rfl

theorem iteration_calls_of_tryBlock (srv : SocketServer) (env : Env) (st : SessionState)
    (w : World) (t : TryOut) (ht : tryBlock srv env st w = some t) :
    ∃ out, iteration srv env st w = some out ∧ out.w.calls = t.w.calls := by
  rw [iteration_of_tryBlock srv env st w t ht]
  cases t.flow with
  | next => exact ⟨_, rfl, rfl⟩
  | brk => exact ⟨_, rfl, rfl⟩
  | stdExc what => exact catchBlock_calls srv env t _ (sessionMsg_ne what)
  | otherExc => exact catchBlock_calls srv env t _ (unknownMsg_ne t.theString)

theorem iteration_dispatch_calls (srv : SocketServer) (env : Env) (st : SessionState) (w : World)
    (c a : Str) (h : Str → Outcome Str) (hauth : st.Authenticated)
    (hread : env.read = .data (c ++ srv.commandFieldSeparator_ ++ a))
    (hfirst : find (c ++ srv.commandFieldSeparator_ ++ a) srv.commandFieldSeparator_ =
      some c.length)
    (hc : c ≠ AuthStep1) (hreg : srv.commands.lookup c = some h)
    (hne : c ++ srv.outputFieldSeparator_ ≠ []) :
    ∃ out, iteration srv env st w = some out ∧ out.w.calls = w.calls ++ [(c, a)] := by
  have htake : (c ++ srv.commandFieldSeparator_ ++ a).take c.length = c := by
    simp [List.append_assoc]
  have hdrop : (c ++ srv.commandFieldSeparator_ ++ a).drop
      (c.length + srv.commandFieldSeparator_.length) = a := by
    rw [← List.length_append]; simp
  have ht := tryBlock_dispatch srv env st w _ _ hread hfirst (by rw [htake]; exact hc) hauth
  have hcall : (srv.commands.call c a).invoked = true := by simp [FunctionRegistry.call, hreg]
  simp only [htake, hdrop, hcall, if_true] at ht
  cases ho : (srv.commands.call c a).outcome with
  | value r =>
    rw [ho] at ht
    have hne2 : srv.insertOutputFieldSeparator c r ≠ [] := by
      intro h0
      apply hne
      unfold SocketServer.insertOutputFieldSeparator at h0
      exact (List.append_eq_nil.1 h0).1
    simp only [trySend_of_ne _ _ _ _ _ _ _ _ hne2] at ht
    obtain ⟨out, h1, h2⟩ := iteration_calls_of_tryBlock srv env st w _ ht
    refine ⟨out, h1, ?_⟩
    rw [h2]
    cases env.writeError <;> rfl
  | stdException what =>
    rw [ho] at ht
    exact iteration_calls_of_tryBlock srv env st w _ ht
  | otherException =>
    rw [ho] at ht
    exact iteration_calls_of_tryBlock srv env st w _ ht

theorem iteration_failure (srv : SocketServer) (env : Env) (st : SessionState) (w : World)
    (c a : Str) (hauth : st.Authenticated) (hmax : st.authenticationStep + 1 < 2 ^ 64)
    (hread : env.read = .data (c ++ srv.commandFieldSeparator_ ++ a))
    (hfirst : find (c ++ srv.commandFieldSeparator_ ++ a) srv.commandFieldSeparator_ =
      some c.length)
    (hc : c ≠ AuthStep1) (hne : c ≠ [])
    (hfail : ∀ r, (srv.commands.call c a).outcome ≠ .value r)
    (hcw : env.catchWriteOk = true) :
    ∃ errMsg out,
      (srv.commands.lookup c = none →
        errMsg = "SocketServer::session(): ".toList ++ FunctionRegistry.notRegistered c) ∧
      iteration srv env st w = some out ∧ out.continues = true ∧
      out.st = { st with authenticationStep := st.authenticationStep + 1 } ∧
      out.w.sent = w.sent ++
        [withNewline (c ++ srv.outputFieldSeparator_ ++ ("Error: ".toList ++ errMsg))] ∧
      out.w.log.entries = w.log.entries ++ ["***ERROR*** ".toList ++ errMsg] ∧
      out.w.files = w.files ∧ (srv.commands.lookup c = none → out.w.calls = w.calls) := by
  have htake : (c ++ srv.commandFieldSeparator_ ++ a).take c.length = c := by
    simp [List.append_assoc]
  have hdrop : (c ++ srv.commandFieldSeparator_ ++ a).drop
      (c.length + srv.commandFieldSeparator_.length) = a := by
    rw [← List.length_append]; simp
  have ht := tryBlock_dispatch srv env st w _ _ hread hfirst (by rw [htake]; exact hc) hauth
  simp only [htake, hdrop, Nat.mod_eq_of_lt hmax] at ht
  cases ho : (srv.commands.call c a).outcome with
  | value r => exact absurd ho (hfail r)
  | stdException what =>
    rw [ho] at ht
    refine ⟨"SocketServer::session(): ".toList ++ what, _, ?_,
      (iteration_of_tryBlock srv env st w _ ht).trans
        (catchBlock_of_ne srv env _ _ (sessionMsg_ne what)), ?_⟩
    · intro hnone
      have : (srv.commands.call c a).outcome =
          .stdException (FunctionRegistry.notRegistered c) := by
        simp [FunctionRegistry.call, hnone]
      rw [ho] at this
      injection this with hw
      rw [hw]
    · have hinv : srv.commands.lookup c = none → (srv.commands.call c a).invoked = false := by
        intro hnone; simp [FunctionRegistry.call, hnone]
      revert hinv
      cases (srv.commands.call c a).invoked <;>
        simp [hne, hcw, errorToLog_entries, SocketServer.insertOutputFieldSeparator]
  | otherException =>
    rw [ho] at ht
    refine ⟨"SocketServer::session(): unknown error, with string \"".toList ++
      (c ++ srv.commandFieldSeparator_ ++ a) ++ "\"".toList, _, ?_,
      (iteration_of_tryBlock srv env st w _ ht).trans
        (catchBlock_of_ne srv env _ _ (unknownMsg_ne _)), ?_⟩
    · intro hnone
      have : (srv.commands.call c a).outcome =
          .stdException (FunctionRegistry.notRegistered c) := by
        simp [FunctionRegistry.call, hnone]
      rw [ho] at this
      cases this
    · have hinv : srv.commands.lookup c = none → (srv.commands.call c a).invoked = false := by
        intro hnone; simp [FunctionRegistry.call, hnone]
      revert hinv
      cases (srv.commands.call c a).invoked <;>
        simp [hne, hcw, errorToLog_entries, SocketServer.insertOutputFieldSeparator]


theorem getline_append_newline (s t : Str) (h : '\n' ∉ s) : getline (s ++ '\n' :: t) = s := by
  unfold getline
  rw [List.takeWhile_append_of_pos]
  · simp
  · intro x hx
    have : x ≠ '\n' := fun hxe => h (hxe ▸ hx)
    simpa using this

theorem withNewline_of_not_mem (s : Str) (h : '\n' ∉ s) : withNewline s = s ++ ['\n'] := by
  unfold withNewline
  rw [if_neg]
  intro hl
  exact h (List.mem_of_getLast?_eq_some hl)

theorem find_append_self (c tl a : Str) (hd : Char) (h : hd ∉ c) :
    find (c ++ (hd :: tl) ++ a) (hd :: tl) = some c.length := by
  induction c with
  | nil => simp [find, List.isPrefixOf]
  | cons x c ih =>
    have hx : x ≠ hd := fun hxe => h (hxe ▸ List.mem_cons_self _ _)
    have hc : hd ∉ c := fun hm => h (List.mem_cons_of_mem _ hm)
    have ih2 := ih hc
    simp only [List.append_assoc, List.cons_append] at ih2
    simp [find, List.isPrefixOf, ih2, Ne.symm hx]

theorem alnum_ne (x : Char) (h : x.isAlphanum = true) :
    x ≠ '_' ∧ x ≠ ':' ∧ x ≠ '\n' := by
  refine ⟨?_, ?_, ?_⟩ <;> (rintro rfl; revert h; decide)

theorem not_error_isPrefixOf (c rest : Str) (halnum : ∀ x ∈ c, x.isAlphanum = true) :
    "Error:".toList.isPrefixOf (c ++ '_' :: rest) = false := by
  rcases c with _ | ⟨x1, _ | ⟨x2, _ | ⟨x3, _ | ⟨x4, _ | ⟨x5, _ | ⟨x6, c⟩⟩⟩⟩⟩⟩ <;>
    simp [List.isPrefixOf]
  intro _ _ _ _ _ h6
  exact (alnum_ne x6 (halnum x6 (by simp))).2.1 h6.symm


theorem find_error_none (c r : Str) (halnum : ∀ x ∈ c, x.isAlphanum = true)
    (hre : find r "Error:".toList = none) :
    find (c ++ "__$__".toList ++ r) "Error:".toList = none := by
  induction c with
  | nil =>
    have hre2 : find r ['E', 'r', 'r', 'o', 'r', ':'] = none := hre
    simp [find, List.isPrefixOf, hre2]
  | cons x c ih =>
    have h1 := not_error_isPrefixOf (x :: c) ("_$__".toList ++ r) halnum
    have h2 := ih (fun y hy => halnum y (List.mem_cons_of_mem _ hy))
    have e : (x :: c) ++ "__$__".toList ++ r = x :: (c ++ "__$__".toList ++ r) := by simp
    have e2 : (x :: c) ++ '_' :: ("_$__".toList ++ r) = x :: (c ++ "__$__".toList ++ r) := by simp
    rw [e2] at h1
    rw [e, find, h1, h2]
    rfl

/-! ### The session: the claims -/

/-- C1 (evaluation at the failing input). A fresh session that reads three structured
lines, none of them `AuthStep1` or `AuthStep2`, answers the first two with an
error and dispatches the third to the handler registered for `Ping`: the
handler is invoked although no challenge was issued and no file was created. -/
theorem c1_dispatch_without_handshake :
    (session (defaultServer pingRegistry)
        [lineEnv "Hello__+__a" "abcdefghij" secretA, lineEnv "Hello__+__b" "abcdefghij" secretA,
         lineEnv "Ping__+__hello" "abcdefghij" secretA] world0).map
      (fun o => (o.w.calls, o.w.sent.getLast?, o.w.files)) =
    some ([("Ping".toList, "hello".toList)], some "Ping__$__hello\n".toList, []) := by
  decide

/-- C2 (evaluation at the failing input). A fresh session that reads a structured line
other than `AuthStep1` and then the line `AuthStep2__+__` answers the second
line with `AuthStep2__$__ok` and is authenticated, although no challenge was
issued. -/
theorem c2_ok_without_challenge :
    (session (defaultServer pingRegistry)
        [lineEnv "Hello__+__a" "abcdefghij" secretA, lineEnv "AuthStep2__+__" "abcdefghij" secretA]
        world0).map
      (fun o => (o.w.sent, o.w.files, decide o.st.Authenticated)) =
    some (["Hello__$__Error: SocketServer::session(): Client at 10.0.0.7 did not authenticate\n".toList,
      "AuthStep2__$__ok\n".toList], [], true) := by
  decide

/-- C3 (evaluation at the failing input). A fresh session is issued a
challenge and then reads `AuthStep2__+__wrong`: the line is answered with an
error, the session has not ended and its step counter is 2; the following line
`Ping__+__hello` is processed, dispatched to the handler of `Ping` and
answered. Likewise, after a first structured line `Hello__+__x` the session
has not ended and the following `AuthStep1__+__please` is processed and
answered with a challenge. -/
theorem c3_session_survives_violation :
    (session (defaultServer pingRegistry)
        [lineEnv "AuthStep1__+__please" "abcdefghij" secretA,
         lineEnv "AuthStep2__+__wrong" "abcdefghij" secretA] world0).map
      (fun o => (o.continues, o.w.sent, o.st.authenticationStep)) =
    some (true,
      ["AuthStep1__$__/srv/tmp/auth_abcdefghij\n".toList,
       "AuthStep2__$__Error: SocketServer::session(): Client at 10.0.0.7 did not send the secret string\n".toList],
      2) ∧
    (session (defaultServer pingRegistry)
        [lineEnv "AuthStep1__+__please" "abcdefghij" secretA,
         lineEnv "AuthStep2__+__wrong" "abcdefghij" secretA,
         lineEnv "Ping__+__hello" "abcdefghij" secretA] world0).map
      (fun o => (o.continues, o.w.sent, o.w.calls)) =
    some (true,
      ["AuthStep1__$__/srv/tmp/auth_abcdefghij\n".toList,
       "AuthStep2__$__Error: SocketServer::session(): Client at 10.0.0.7 did not send the secret string\n".toList,
       "Ping__$__hello\n".toList],
      [("Ping".toList, "hello".toList)]) ∧
    (session (defaultServer pingRegistry)
        [lineEnv "Hello__+__x" "abcdefghij" secretA,
         lineEnv "AuthStep1__+__please" "abcdefghij" secretA] world0).map
      (fun o => (o.continues, o.w.sent)) =
    some (true,
      ["Hello__$__Error: SocketServer::session(): Client at 10.0.0.7 did not authenticate\n".toList,
       "AuthStep1__$__/srv/tmp/auth_abcdefghij\n".toList]) :=
  ⟨by decide, by decide, by decide⟩

/-- C4. A fresh session with the default separators, when the system calls and
socket writes succeed: `AuthStep1__+__please` is answered with
`AuthStep1__$__cwd/tmp/auth_name` and the file at that path then holds the
secret followed by a newline; the following line `AuthStep2__+__secret` is
answered with `AuthStep2__$__ok`, the file no longer exists, the session is
authenticated, no handler has been invoked, and a next structured line (with a
registered command other than `AuthStep1`) is dispatched to its handler. -/
theorem c4_handshake (commands : FunctionRegistry Str Str) (w : World) (e1 e2 : Env)
    (hl1 : e1.listening = true) (h1 : e1.read = .data "AuthStep1__+__please".toList)
    (hopen : e1.openOk = true) (hchmod : e1.chmodOk = true)
    (hpwd : e1.pwd = (w.cwd ++ ['\n'], 0)) (hw1 : e1.writeError = none)
    (hl2 : e2.listening = true)
    (h2 : e2.read = .data ("AuthStep2__+__".toList ++ e1.randomSecret))
    (hw2 : e2.writeError = none) :
    ∃ r1 r2,
      session (defaultServer commands) [e1] w = some r1 ∧
      r1.w.sent = w.sent ++
        [withNewline ("AuthStep1__$__".toList ++ (w.cwd ++ "/tmp/auth_".toList ++ e1.randomName))] ∧
      r1.w.fileAt (w.cwd ++ "/tmp/auth_".toList ++ e1.randomName) =
        some (e1.randomSecret ++ ['\n']) ∧
      session (defaultServer commands) [e1, e2] w = some r2 ∧
      r2.w.sent = r1.w.sent ++ ["AuthStep2__$__ok\n".toList] ∧
      r2.w.fileAt (w.cwd ++ "/tmp/auth_".toList ++ e1.randomName) = none ∧
      r2.continues = true ∧ r2.st.Authenticated ∧ r2.w.calls = w.calls ∧
      ∀ (e3 : Env) (c a : Str) (h : Str → Outcome Str),
        e3.read = .data (c ++ "__+__".toList ++ a) →
        find (c ++ "__+__".toList ++ a) "__+__".toList = some c.length →
        c ≠ AuthStep1 → commands.lookup c = some h →
        ∃ r3, iteration (defaultServer commands) e3 r2.st r2.w = some r3 ∧
          r3.w.calls = r2.w.calls ++ [(c, a)] := by
  have hf1 : find "AuthStep1__+__please".toList "__+__".toList = some 9 := by decide
  have hf2 : find ("AuthStep2__+__".toList ++ e1.randomSecret) "__+__".toList = some 9 := by
    simp [find, List.isPrefixOf]
  have ht1 : List.take 9 "AuthStep1__+__please".toList = AuthStep1 := by decide
  have ht2 : List.take 9 ("AuthStep2__+__".toList ++ e1.randomSecret) = AuthStep2 := by
    simp [AuthStep2]
  have hne : AuthStep2 ≠ AuthStep1 := by decide
  have hlast : (w.cwd ++ ['\n']).getLast? = some '\n' := by simp
  have hdir : (w.cwd ++ ['\n']).dropLast = w.cwd := by simp
  have hi1 : iteration (defaultServer commands) e1 SessionState.init w =
      some ⟨⟨"tmp/auth_".toList ++ e1.randomName, e1.randomSecret, 1⟩,
        { w.writeFile ("tmp/auth_".toList ++ e1.randomName) (e1.randomSecret ++ ['\n']) with
          sent := w.sent ++ [withNewline ("AuthStep1__$__".toList ++
            (w.cwd ++ "/tmp/auth_".toList ++ e1.randomName))] }, true⟩ := by
    simp only [iteration, tryBlock, h1, defaultServer, hf1, ht1, SessionState.init, hopen, hchmod,
      hpwd, hlast, hdir, if_true, trySend, hw1, SocketServer.insertOutputFieldSeparator]
    simp [World.writeFile, AuthStep1, sendString_cons]
  have hi2 : ∀ w1 : World, iteration (defaultServer commands) e2
      ⟨"tmp/auth_".toList ++ e1.randomName, e1.randomSecret, 1⟩ w1 =
      some ⟨⟨[], e1.randomSecret, 2⟩,
        { w1.remove ("tmp/auth_".toList ++ e1.randomName) with
          sent := w1.sent ++ ["AuthStep2__$__ok\n".toList] }, true⟩ := by
    intro w1
    simp only [iteration, tryBlock, h2, defaultServer, hf2, ht2, hne, trySend, hw2,
      SocketServer.insertOutputFieldSeparator]
    simp [AuthStep2, withNewline, World.remove, sendString_cons]
  refine ⟨⟨⟨"tmp/auth_".toList ++ e1.randomName, e1.randomSecret, 1⟩,
        { w.writeFile ("tmp/auth_".toList ++ e1.randomName) (e1.randomSecret ++ ['\n']) with
          sent := w.sent ++ [withNewline ("AuthStep1__$__".toList ++
            (w.cwd ++ "/tmp/auth_".toList ++ e1.randomName))] }, true⟩,
      ⟨⟨[], e1.randomSecret, 2⟩,
        { World.remove { w.writeFile ("tmp/auth_".toList ++ e1.randomName)
              (e1.randomSecret ++ ['\n']) with
            sent := w.sent ++ [withNewline ("AuthStep1__$__".toList ++
              (w.cwd ++ "/tmp/auth_".toList ++ e1.randomName))] }
            ("tmp/auth_".toList ++ e1.randomName) with
          sent := (w.sent ++ [withNewline ("AuthStep1__$__".toList ++
              (w.cwd ++ "/tmp/auth_".toList ++ e1.randomName))]) ++ ["AuthStep2__$__ok\n".toList] },
        true⟩, ?_, rfl, ?_, ?_, rfl, ?_, rfl, by simp [SessionState.Authenticated], ?_, ?_⟩
  · rw [session, sessionLoop_cons _ _ _ _ _ _ _ hl1 hi1]; rfl
  · simp [World.fileAt, World.writeFile, World.resolve]
  · rw [session, sessionLoop_cons _ _ _ _ _ _ _ hl1 hi1,
      sessionLoop_cons _ _ _ _ _ _ _ hl2 (hi2 _)]
    rfl
  · simp [World.fileAt, World.writeFile, World.remove, World.resolve, List.find?_eq_none]
  · simp [World.writeFile, World.remove]
  · intro e3 c a h hr3 hfind hc hreg
    exact iteration_dispatch_calls (defaultServer commands) e3 _ _ c a h
      (by simp [SessionState.Authenticated]) hr3 hfind hc hreg (by simp [defaultServer])

/-- C4 (witness). The handshake in directory `/srv` with a concrete name and secret. -/
theorem c4_handshake_witness :
    ∃ r2, session (defaultServer pingRegistry)
        [lineEnv "AuthStep1__+__please" "abcdefghij" secretA,
         lineEnv ("AuthStep2__+__" ++ secretA) "klmnopqrst" secretB] world0 = some r2 ∧
      r2.w.sent = ["AuthStep1__$__/srv/tmp/auth_abcdefghij\n".toList, "AuthStep2__$__ok\n".toList] ∧
      r2.w.fileAt "/srv/tmp/auth_abcdefghij".toList = none ∧ r2.st.Authenticated := by
  obtain ⟨r1, r2, -, h1, -, h2, h3, h4, -, h5, -, -⟩ :=
    c4_handshake pingRegistry world0 (lineEnv "AuthStep1__+__please" "abcdefghij" secretA)
      (lineEnv ("AuthStep2__+__" ++ secretA) "klmnopqrst" secretB) rfl rfl rfl rfl rfl rfl rfl rfl rfl
  exact ⟨r2, h2, by rw [h3, h1]; decide, h4, h5⟩

/-- C5 (evaluation at the failing input). A session that reads `AuthStep1__+__please`
twice and then meets the end of the stream has left its loop, and the
challenge file created for the first `AuthStep1` still exists. -/
theorem c5_challenge_file_left :
    (session (defaultServer pingRegistry)
        [lineEnv "AuthStep1__+__please" "aaaaaaaaaa" secretA,
         lineEnv "AuthStep1__+__please" "bbbbbbbbbb" secretB, eofEnv] world0).map
      (fun o => (o.continues, o.w.files)) =
    some (false, [("/srv/tmp/auth_aaaaaaaaaa".toList, (secretA ++ "\n").toList)]) := by
  decide

/-- C6 (amended). In an authenticated session whose step counter is below its
maximum, a line `c SEP_CMD a` whose first `SEP_CMD` is the one after `c`, with
`c` other than `AuthStep1` and registered with a handler `h` that returns
`h a = r`, the reply text `c SEP_OUT r` not being empty, makes the session
invoke the handler once and send exactly one reply, `c SEP_OUT r` ended by a
newline, and stay authenticated. (For an empty reply text `sendString` reads
outside the string and the iteration has no defined result.) -/
theorem c6_reply (srv : SocketServer) (env : Env) (st : SessionState) (w : World)
    (c a r : Str) (h : Str → Outcome Str)
    (hauth : st.Authenticated) (hmax : st.authenticationStep + 1 < 2 ^ 64)
    (hread : env.read = .data (c ++ srv.commandFieldSeparator_ ++ a))
    (hfirst : find (c ++ srv.commandFieldSeparator_ ++ a) srv.commandFieldSeparator_ =
      some c.length)
    (hc : c ≠ AuthStep1)
    (hreg : srv.commands.lookup c = some h) (hr : h a = .value r)
    (hwr : env.writeError = none) :
    (c ++ srv.outputFieldSeparator_ ++ r ≠ [] →
      iteration srv env st w =
        some ⟨{ st with authenticationStep := st.authenticationStep + 1 },
          { w with sent := w.sent ++ [withNewline (c ++ srv.outputFieldSeparator_ ++ r)]
                   calls := w.calls ++ [(c, a)] }, true⟩) ∧
    (c ++ srv.outputFieldSeparator_ ++ r = [] → iteration srv env st w = none) ∧
    (withNewline (c ++ srv.outputFieldSeparator_ ++ r)).getLast? = some '\n' ∧
    SessionState.Authenticated { st with authenticationStep := st.authenticationStep + 1 } := by
  refine ⟨fun hne => ?_,
    iteration_value_nil srv env st w c a r h hauth hread hfirst hc hreg hr hwr,
    withNewline_getLast _, ⟨by have := hauth.1; simp; omega, hmax⟩⟩
  have hv := iteration_value srv env st w c a r h hauth hread hfirst hc hreg hr hwr hne
  rw [Nat.mod_eq_of_lt hmax] at hv
  exact hv

/-- C6 (witness). With `Ping` registered to return its argument, `Ping__+__hello` is
answered `Ping__$__hello`. -/
theorem c6_reply_witness :
    iteration (defaultServer pingRegistry) (lineEnv "Ping__+__hello" "abcdefghij" secretA)
        ⟨[], [], 2⟩ world0 =
      some ⟨⟨[], [], 3⟩, { world0 with sent := ["Ping__$__hello\n".toList]
                                       calls := [("Ping".toList, "hello".toList)] }, true⟩ :=
  (c6_reply (defaultServer pingRegistry) (lineEnv "Ping__+__hello" "abcdefghij" secretA)
    ⟨[], [], 2⟩ world0 "Ping".toList "hello".toList "hello".toList ping
    (by decide) (by decide) rfl (by decide) (by decide) rfl rfl rfl).1 (by decide)

/-- C6 (counterexample). With `AuthStep1` registered as a command, the line
`AuthStep1__+__hello` in an authenticated session is not answered with the
handler result: no handler is invoked, a challenge is issued and the session
is back at step 1. And with an empty output separator and the empty command
name registered with a handler that returns the empty string, the reply text
for the line `__+__x` is empty: `sendString` reads outside it and no
newline-terminated reply is defined. -/
theorem c6_counterexample :
    authStep1Registry.lookup "AuthStep1".toList = some ping ∧
    find "AuthStep1__+__hello".toList "__+__".toList = some 9 ∧
    (iteration (defaultServer authStep1Registry)
        (lineEnv "AuthStep1__+__hello" "abcdefghij" secretA) ⟨[], [], 2⟩ world0).map
      (fun o => (o.w.sent, o.w.calls, o.st.authenticationStep)) =
      some (["AuthStep1__$__/srv/tmp/auth_abcdefghij\n".toList], [], 1) ∧
    silentRegistry.lookup [] = some silent ∧
    find "__+__x".toList bareServer.commandFieldSeparator_ = some 0 ∧
    silent "x".toList = .value [] ∧
    sendString (bareServer.insertOutputFieldSeparator [] []) = none ∧
    iteration bareServer (lineEnv "__+__x" "abcdefghij" secretA) ⟨[], [], 2⟩ world0 = none :=
  ⟨rfl, by decide, by decide, rfl, by decide, rfl, by decide, rfl⟩

/-- C7 (amended). Default separators, `c` made of letters and digits and other than
`AuthStep1`, registered with `h`; `a` without newline; `h a = r` without
newline and without `Error:`. The line written by `sendCommandAndString c a`
is read by an authenticated session as `c __+__ a` and split at the end of
`c`, the handler is called with `a`, the reply written is `c __$__ r` and a
newline, the tagged receive decodes it into `r`, and `retrieveString c a`
returns `r`. -/
theorem c7_round_trip (commands : FunctionRegistry Str Str) (env : Env) (st : SessionState)
    (w : World) (c a r : Str) (h : Str → Outcome Str)
    (hauth : st.Authenticated)
    (halnum : ∀ x ∈ c, x.isAlphanum = true) (hc : c ≠ AuthStep1)
    (hreg : commands.lookup c = some h) (ha : '\n' ∉ a)
    (hr : h a = .value r) (hrn : '\n' ∉ r) (hre : find r "Error:".toList = none)
    (hwr : env.writeError = none) :
    getline (defaultClient.sendCommandAndString c a) = c ++ "__+__".toList ++ a ∧
    find (c ++ "__+__".toList ++ a) "__+__".toList = some c.length ∧
    (∃ out, iteration (defaultServer commands)
        { env with read := .data (getline (defaultClient.sendCommandAndString c a)) } st w =
          some out ∧
        out.w.sent = w.sent ++ [c ++ "__$__".toList ++ r ++ ['\n']] ∧
        out.w.calls = w.calls ++ [(c, a)]) ∧
    defaultClient.receiveStringTag (c ++ "__$__".toList ++ r ++ ['\n']) c = .ok r ∧
    defaultClient.retrieveString (sessionPeer (defaultServer commands) env st w) c a [] =
      .ok r := by
  have hus : '_' ∉ c := fun hm => (alnum_ne _ (halnum _ hm)).1 rfl
  have hnl : '\n' ∉ c := fun hm => (alnum_ne _ (halnum _ hm)).2.2 rfl
  have hline : getline (defaultClient.sendCommandAndString c a) = c ++ "__+__".toList ++ a := by
    unfold SocketClient.sendCommandAndString
    apply getline_append_newline
    simp only [List.mem_append, not_or]
    exact ⟨⟨hnl, by decide⟩, ha⟩
  have hfind : find (c ++ "__+__".toList ++ a) "__+__".toList = some c.length :=
    find_append_self c "_+__".toList a '_' hus
  have hnlr : '\n' ∉ c ++ "__$__".toList ++ r := by
    simp only [List.mem_append, not_or]
    exact ⟨⟨hnl, by decide⟩, hrn⟩
  have hit := iteration_value (defaultServer commands)
    { env with read := .data (c ++ "__+__".toList ++ a) } st w c a r h hauth rfl hfind hc hreg hr hwr
    (by simp [defaultServer])
  have hsend : withNewline (c ++ (defaultServer commands).outputFieldSeparator_ ++ r) =
      c ++ "__$__".toList ++ r ++ ['\n'] := withNewline_of_not_mem _ hnlr
  rw [hsend] at hit
  have hrecv : defaultClient.receiveStringTag (c ++ "__$__".toList ++ r ++ ['\n']) c = .ok r := by
    have hg : getline (c ++ "__$__".toList ++ r ++ ['\n']) = c ++ "__$__".toList ++ r :=
      getline_append_newline _ [] hnlr
    have hf : find (c ++ "__$__".toList ++ r) defaultClient.receiveStringFieldSeparator_ =
        some c.length := find_append_self c "_$__".toList r '_' hus
    have htake : (c ++ "__$__".toList ++ r).take c.length = c := by simp [List.append_assoc]
    have hdrop : (c ++ "__$__".toList ++ r).drop
        (c.length + defaultClient.receiveStringFieldSeparator_.length) = r := by
      rw [show defaultClient.receiveStringFieldSeparator_ = "__$__".toList from rfl,
        ← List.length_append]
      simp
    have hrs : SocketClient.receiveString (c ++ "__$__".toList ++ r ++ ['\n']) =
        .ok (c ++ "__$__".toList ++ r) := by
      simp only [SocketClient.receiveString, hg, find_error_none c r halnum hre]
      rfl
    simp only [SocketClient.receiveStringTag, hrs, hf, htake, hdrop]
    simp
  refine ⟨hline, hfind, ⟨_, by rw [hline]; exact hit, rfl, rfl⟩, hrecv, ?_⟩
  have hpeer : sessionPeer (defaultServer commands) env st w
      (defaultClient.sendCommandAndString c a) = c ++ "__$__".toList ++ r ++ ['\n'] := by
    simp only [sessionPeer, hline, hit]
    simp
  simp only [SocketClient.retrieveString, hpeer, hrecv]
  simp


/-- C7 (witness). `retrieveString Ping hello` returns `hello`. -/
theorem c7_round_trip_witness :
    defaultClient.retrieveString
      (sessionPeer (defaultServer pingRegistry) (lineEnv "" "abcdefghij" secretA) ⟨[], [], 2⟩
        world0) "Ping".toList "hello".toList [] = .ok "hello".toList :=
  (c7_round_trip pingRegistry (lineEnv "" "abcdefghij" secretA) ⟨[], [], 2⟩ world0
    "Ping".toList "hello".toList "hello".toList ping (by decide) (by decide) (by decide) rfl
    (by decide) rfl (by decide) (by decide) rfl).2.2.2.2

/-- C7 (counterexample). With `AuthStep1` registered to return its argument,
`retrieveString AuthStep1 hello` against an authenticated session returns the
path of a new challenge file, not `hello`. -/
theorem c7_counterexample :
    authStep1Registry.lookup "AuthStep1".toList = some ping ∧
    ping "hello".toList = .value "hello".toList ∧
    defaultClient.retrieveString
      (sessionPeer (defaultServer authStep1Registry) (lineEnv "" "abcdefghij" secretA)
        ⟨[], [], 2⟩ world0) "AuthStep1".toList "hello".toList [] =
      .ok "/srv/tmp/auth_abcdefghij".toList :=
  ⟨rfl, rfl, rfl⟩

/-- C8 (amended). In an authenticated session whose step counter is two below
its maximum or less, a structured line whose non-empty command `c`, other than
`AuthStep1`, is not registered or whose handler raises is answered with
`c SEP_OUT Error: errMsg`, one error line is added to the log, the session
stays authenticated and goes on reading, and a following line with a
registered command (other than `AuthStep1`) whose handler returns `r2`, the
reply text `c2 SEP_OUT r2` not being empty, is answered with `c2 SEP_OUT r2`
without a further log line. (For an empty reply text `sendString` reads
outside the string and the session has no defined result.) -/
theorem c8_recoverable (srv : SocketServer) (e1 e2 : Env) (st : SessionState) (w : World)
    (c a c2 a2 r2 : Str) (h2 : Str → Outcome Str)
    (hauth : st.Authenticated) (hmax : st.authenticationStep + 2 < 2 ^ 64)
    (hl1 : e1.listening = true)
    (hread1 : e1.read = .data (c ++ srv.commandFieldSeparator_ ++ a))
    (hfirst1 : find (c ++ srv.commandFieldSeparator_ ++ a) srv.commandFieldSeparator_ =
      some c.length)
    (hc : c ≠ AuthStep1) (hne : c ≠ [])
    (hfail : ∀ r, (srv.commands.call c a).outcome ≠ .value r)
    (hcw : e1.catchWriteOk = true)
    (hl2 : e2.listening = true)
    (hread2 : e2.read = .data (c2 ++ srv.commandFieldSeparator_ ++ a2))
    (hfirst2 : find (c2 ++ srv.commandFieldSeparator_ ++ a2) srv.commandFieldSeparator_ =
      some c2.length)
    (hc2 : c2 ≠ AuthStep1)
    (hreg2 : srv.commands.lookup c2 = some h2) (hr2 : h2 a2 = .value r2)
    (hw2 : e2.writeError = none) :
    ∃ errMsg out1,
      (srv.commands.lookup c = none →
        errMsg = "SocketServer::session(): ".toList ++ FunctionRegistry.notRegistered c) ∧
      iteration srv e1 st w = some out1 ∧ out1.continues = true ∧
      out1.w.sent = w.sent ++
        [withNewline (c ++ srv.outputFieldSeparator_ ++ ("Error: ".toList ++ errMsg))] ∧
      out1.w.log.entries = w.log.entries ++ ["***ERROR*** ".toList ++ errMsg] ∧
      out1.st.Authenticated ∧
      (c2 ++ srv.outputFieldSeparator_ ++ r2 ≠ [] →
        ∃ out2, sessionLoop srv [e1, e2] st w = some out2 ∧ out2.continues = true ∧
          out2.w.sent = out1.w.sent ++ [withNewline (c2 ++ srv.outputFieldSeparator_ ++ r2)] ∧
          out2.w.log = out1.w.log ∧
          out2.st.Authenticated) ∧
      (c2 ++ srv.outputFieldSeparator_ ++ r2 = [] → sessionLoop srv [e1, e2] st w = none) := by
  obtain ⟨errMsg, out1, hmsg, hit, hcont, hst, hsent, hlog, -, -⟩ :=
    iteration_failure srv e1 st w c a hauth (by omega) hread1 hfirst1 hc hne hfail hcw
  have hauth1 : out1.st.Authenticated := by
    rw [hst]; exact ⟨by have := hauth.1; simp; omega, by simp; omega⟩
  have hmax1 : out1.st.authenticationStep + 1 < 2 ^ 64 := by rw [hst]; simp; omega
  have hauth2 : SessionState.Authenticated
      { out1.st with authenticationStep := out1.st.authenticationStep + 1 } :=
    ⟨by have := hauth1.1; simp; omega, hmax1⟩
  have hout1 : out1 = ⟨out1.st, out1.w, true⟩ := by cases out1; simp_all
  have hit1 : iteration srv e1 st w = some ⟨out1.st, out1.w, true⟩ := by rw [← hout1]; exact hit
  refine ⟨errMsg, out1, hmsg, hit, hcont, hsent, hlog, hauth1, fun hne2 => ?_, fun hnil => ?_⟩
  · have hit2 :=
      iteration_value srv e2 out1.st out1.w c2 a2 r2 h2 hauth1 hread2 hfirst2 hc2 hreg2 hr2 hw2
        hne2
    rw [Nat.mod_eq_of_lt hmax1] at hit2
    refine ⟨⟨{ out1.st with authenticationStep := out1.st.authenticationStep + 1 },
      { out1.w with sent := out1.w.sent ++ [withNewline (c2 ++ srv.outputFieldSeparator_ ++ r2)]
                    calls := out1.w.calls ++ [(c2, a2)] }, true⟩, ?_, rfl, rfl, rfl, hauth2⟩
    rw [sessionLoop_cons _ _ _ _ _ _ _ hl1 hit1, sessionLoop_cons _ _ _ _ _ _ _ hl2 hit2]
    rfl
  · have hit2 :=
      iteration_value_nil srv e2 out1.st out1.w c2 a2 r2 h2 hauth1 hread2 hfirst2 hc2 hreg2 hr2
        hw2 hnil
    rw [sessionLoop_cons _ _ _ _ _ _ _ hl1 hit1]
    simp only [sessionLoop, hl2, hit2, if_true]

/-- C8 (witness). The unregistered command `Nope` followed by `Ping__+__hello`. -/
theorem c8_recoverable_witness :
    ∃ errMsg out1 out2,
      (pingRegistry.lookup "Nope".toList = none →
        errMsg = "SocketServer::session(): ".toList ++
          FunctionRegistry.notRegistered "Nope".toList) ∧
      iteration (defaultServer pingRegistry) (lineEnv "Nope__+__x" "abcdefghij" secretA)
        ⟨[], [], 2⟩ world0 = some out1 ∧ out1.continues = true ∧
      out1.w.sent = [withNewline ("Nope".toList ++ "__$__".toList ++ ("Error: ".toList ++ errMsg))] ∧
      out1.w.log.entries = ["***ERROR*** ".toList ++ errMsg] ∧
      out1.st.Authenticated ∧
      sessionLoop (defaultServer pingRegistry)
        [lineEnv "Nope__+__x" "abcdefghij" secretA, lineEnv "Ping__+__hello" "abcdefghij" secretA]
        ⟨[], [], 2⟩ world0 = some out2 ∧ out2.continues = true ∧
      out2.w.sent = out1.w.sent ++ [withNewline ("Ping".toList ++ "__$__".toList ++ "hello".toList)] ∧
      out2.w.log = out1.w.log ∧
      out2.st.Authenticated := by
  obtain ⟨errMsg, out1, h1, h2, h3, h4, h5, h6, h7, -⟩ :=
    c8_recoverable (defaultServer pingRegistry) (lineEnv "Nope__+__x" "abcdefghij" secretA)
      (lineEnv "Ping__+__hello" "abcdefghij" secretA) ⟨[], [], 2⟩ world0
      "Nope".toList "x".toList "Ping".toList "hello".toList "hello".toList ping
      (by decide) (by decide) rfl rfl (by decide) (by decide) (by decide)
      (fun _ h => Outcome.noConfusion h) rfl rfl rfl (by decide) (by decide) rfl rfl rfl
  obtain ⟨out2, h8⟩ := h7 (by decide)
  exact ⟨errMsg, out1, out2, h1, h2, h3, h4, h5, h6, h8⟩

/-- C8 (counterexample). In an authenticated session the unregistered, non-empty
command `AuthStep1` is not answered with an error and nothing is logged for
it; the session goes back to step 1 and the following line `Ping__+__hello` is
not dispatched. And with an empty output separator, after the unregistered
command `Nope` the following line `__+__x`, whose registered command returns
the empty string, has an empty reply text: `sendString` reads outside it and
the session has no defined result. -/
theorem c8_counterexample :
    pingRegistry.lookup "AuthStep1".toList = none ∧
    (sessionLoop (defaultServer pingRegistry)
        [lineEnv "AuthStep1__+__x" "abcdefghij" secretA,
         lineEnv "Ping__+__hello" "abcdefghij" secretA] ⟨[], [], 2⟩ world0).map
      (fun o => (o.w.sent, o.w.log.entries.length, o.w.calls)) =
    some (["AuthStep1__$__/srv/tmp/auth_abcdefghij\n".toList,
      "Ping__$__Error: SocketServer::session(): Client at 10.0.0.7 did not send the secret string\n".toList],
      1, []) ∧
    silentRegistry.lookup "Nope".toList = none ∧
    silentRegistry.lookup [] = some silent ∧
    (iteration bareServer (lineEnv "Nope__+__x" "abcdefghij" secretA) ⟨[], [], 2⟩ world0).map
      (fun o => (o.continues, o.w.sent.length)) = some (true, 1) ∧
    sessionLoop bareServer
        [lineEnv "Nope__+__x" "abcdefghij" secretA, lineEnv "__+__x" "abcdefghij" secretA]
        ⟨[], [], 2⟩ world0 = none :=
  ⟨rfl, by decide, rfl, rfl, by decide, rfl⟩


/-! ### The client: receiving -/

theorem find_some_spec (hay needle : Str) (p : Nat) (h : find hay needle = some p) :
    needle.isPrefixOf (hay.drop p) = true ∧
      ∀ q, q < p → needle.isPrefixOf (hay.drop q) = false := by
  induction hay generalizing p with
  | nil =>
    simp only [find] at h
    split at h
    · rename_i hn
      cases h
      subst hn
      exact ⟨by simp, fun q hq => absurd hq (Nat.not_lt_zero _)⟩
    · cases h
  | cons c cs ih =>
    simp only [find] at h
    split at h
    · rename_i hpre
      cases h
      exact ⟨by simpa using hpre, fun q hq => absurd hq (Nat.not_lt_zero _)⟩
    · rename_i hpre
      cases hf : find cs needle with
      | none => simp [hf] at h
      | some p0 =>
        simp [hf] at h
        subst h
        obtain ⟨h1, h2⟩ := ih p0 hf
        refine ⟨by simpa using h1, ?_⟩
        intro q hq
        cases q with
        | zero => exact Bool.eq_false_iff.mpr hpre
        | succ q => simpa using h2 q (by omega)

theorem find_none_spec (hay needle : Str) (h : find hay needle = none) (q : Nat) :
    needle.isPrefixOf (hay.drop q) = false := by
  induction hay generalizing q with
  | nil =>
    simp only [find] at h
    split at h
    · cases h
    · rename_i hn
      cases needle with
      | nil => exact absurd rfl hn
      | cons a as => simp [List.isPrefixOf]
  | cons c cs ih =>
    simp only [find] at h
    split at h
    · cases h
    · rename_i hpre
      cases hf : find cs needle with
      | some p0 => simp [hf] at h
      | none =>
        cases q with
        | zero => exact Bool.eq_false_iff.mpr hpre
        | succ q => simpa using ih hf q


theorem isPrefixOf_append_self (needle rest : Str) : needle.isPrefixOf (needle ++ rest) = true := by
  induction needle with
  | nil => simp [List.isPrefixOf]
  | cons a as ih => simp [List.isPrefixOf, ih]

theorem find_isSome_of_occurrence (pre needle rest : Str) :
    (find (pre ++ needle ++ rest) needle).isSome = true := by
  induction pre with
  | nil =>
    cases h : needle ++ rest with
    | nil =>
      obtain ⟨hn, hr⟩ := List.append_eq_nil.1 h
      subst hn; subst hr
      rfl
    | cons c cs =>
      have hp := isPrefixOf_append_self needle rest
      rw [h] at hp
      simp [find, h, hp]
  | cons x pre ih =>
    simp only [List.cons_append, find]
    split
    · rfl
    · cases hf : find (pre ++ needle ++ rest) needle with
      | none => rw [hf] at ih; cases ih
      | some p => rfl

theorem getline_append_of_not_mem (a b : Str) (h : '\n' ∉ a) :
    getline (a ++ b) = a ++ getline b := by
  unfold getline
  rw [List.takeWhile_append_of_pos]
  intro x hx
  have : x ≠ '\n' := fun hxe => h (hxe ▸ hx)
  simpa using this

theorem receiveString_error_reply (srv : SocketServer) (command errMsg : Str)
    (hnl : '\n' ∉ command ++ srv.outputFieldSeparator_) :
    SocketClient.receiveString
        (withNewline (srv.insertOutputFieldSeparator command ("Error: ".toList ++ errMsg))) =
      .error (getline
        (withNewline (srv.insertOutputFieldSeparator command ("Error: ".toList ++ errMsg)))) := by
  have hsome : ∀ tail : Str, (find (getline (srv.insertOutputFieldSeparator command
      ("Error: ".toList ++ errMsg) ++ tail)) "Error:".toList).isSome = true := by
    intro tail
    have e1 : srv.insertOutputFieldSeparator command ("Error: ".toList ++ errMsg) ++ tail =
        (command ++ srv.outputFieldSeparator_ ++ "Error:".toList) ++ (' ' :: errMsg ++ tail) := by
      simp [SocketServer.insertOutputFieldSeparator]
    have hnl2 : '\n' ∉ command ++ srv.outputFieldSeparator_ ++ "Error:".toList := by
      intro hm
      rcases List.mem_append.1 hm with h1 | h2
      · exact hnl h1
      · revert h2; decide
    rw [e1, getline_append_of_not_mem _ _ hnl2]
    exact find_isSome_of_occurrence _ _ _
  have hs : (find (getline (withNewline (srv.insertOutputFieldSeparator command
      ("Error: ".toList ++ errMsg)))) "Error:".toList).isSome = true := by
    unfold withNewline
    split
    · simpa using hsome []
    · exact hsome ['\n']
  simp only [SocketClient.receiveString, hs, if_true]


theorem receiveString_ok (wire : Str) (h : find (getline wire) "Error:".toList = none) :
    SocketClient.receiveString wire = .ok (getline wire) := by
  simp only [SocketClient.receiveString, h]
  rfl

theorem receiveString_error (wire : Str) (p : Nat)
    (h : find (getline wire) "Error:".toList = some p) :
    SocketClient.receiveString wire = .error (getline wire) := by
  simp only [SocketClient.receiveString, h]
  rfl

/-- C13. The untagged receive raises the received line verbatim when the line
contains `Error:` and returns the line unchanged otherwise; and the reply the
session sends for a failed command, `command SEP_OUT Error: errMsg` (with no
newline in `command SEP_OUT`), is raised as an error, with the received line as
its message, by `retrieveString`, `retrieveSingleValue` and
`retrieveValueVector`, whatever the expected tag, response or count. -/
theorem c13_error_signalling {R : Type} (cl : SocketClient) (wire : Str) :
    (find (getline wire) "Error:".toList ≠ none →
      SocketClient.receiveString wire = .error (getline wire)) ∧
    (find (getline wire) "Error:".toList = none →
      SocketClient.receiveString wire = .ok (getline wire)) ∧
    ∀ (srv : SocketServer) (command errMsg tag argument expected : Str) (n : Nat)
      (venv : VectorEnv) (readValue : Str → Option (R × Str)),
      '\n' ∉ command ++ srv.outputFieldSeparator_ →
      cl.retrieveString
          (fun _ => withNewline (srv.insertOutputFieldSeparator command ("Error: ".toList ++ errMsg)))
          tag argument expected =
        .error (getline (withNewline
          (srv.insertOutputFieldSeparator command ("Error: ".toList ++ errMsg)))) ∧
      cl.retrieveSingleValue
          (fun _ => withNewline (srv.insertOutputFieldSeparator command ("Error: ".toList ++ errMsg)))
          readValue tag argument =
        .error (getline (withNewline
          (srv.insertOutputFieldSeparator command ("Error: ".toList ++ errMsg)))) ∧
      cl.retrieveValueVector venv
          (fun _ => withNewline (srv.insertOutputFieldSeparator command ("Error: ".toList ++ errMsg)))
          readValue tag argument n =
        some (.error (getline (withNewline
          (srv.insertOutputFieldSeparator command ("Error: ".toList ++ errMsg))))) := by
  refine ⟨?_, ?_, ?_⟩
  · intro h
    cases hf : find (getline wire) "Error:".toList with
    | none => exact absurd hf h
    | some p => exact receiveString_error wire p hf
  · intro h
    exact receiveString_ok wire h
  · intro srv command errMsg tag argument expected n venv readValue hnl
    have hr := receiveString_error_reply srv command errMsg hnl
    refine ⟨?_, ?_, ?_⟩
    · simp only [SocketClient.retrieveString, SocketClient.receiveStringTag, hr]
    · simp only [SocketClient.retrieveSingleValue, SocketClient.receiveStringTag, hr]
    · simp only [SocketClient.retrieveValueVector, SocketClient.receiveStringTag, hr]

/-- C13 (witness). The error reply to the unregistered command `Nope`, received
by `retrieveValueVector<int>` with three values expected. -/
theorem c13_error_signalling_witness :
    defaultClient.retrieveValueVector vectorEnv
        (fun _ => withNewline ((defaultServer pingRegistry).insertOutputFieldSeparator "Nope".toList
          ("Error: ".toList ++ "not registered".toList)))
        readInt "Nope".toList "x".toList 3 =
      some (.error "Nope__$__Error: not registered".toList) :=
  ((c13_error_signalling defaultClient []).2.2 (defaultServer pingRegistry) "Nope".toList
    "not registered".toList "Nope".toList "x".toList [] 3 vectorEnv readInt (by decide)).2.2

/-- C14. For a received line without `Error:`: when the separator occurs in the
line, `find` gives its first occurrence `p`; the tagged receive returns the
text after that occurrence when the text before it is the expected tag, and
raises an error when it is another text; when the separator does not occur in
the line, the tagged receive raises an error. -/
theorem c14_tagged_receive (cl : SocketClient) (wire t : Str)
    (hno : find (getline wire) "Error:".toList = none) :
    (∀ p, find (getline wire) cl.receiveStringFieldSeparator_ = some p →
      (cl.receiveStringFieldSeparator_.isPrefixOf ((getline wire).drop p) = true ∧
        ∀ q, q < p → cl.receiveStringFieldSeparator_.isPrefixOf ((getline wire).drop q) = false) ∧
      ((getline wire).take p = t →
        cl.receiveStringTag wire t =
          .ok ((getline wire).drop (p + cl.receiveStringFieldSeparator_.length))) ∧
      ((getline wire).take p ≠ t → ∃ e, cl.receiveStringTag wire t = .error e)) ∧
    (find (getline wire) cl.receiveStringFieldSeparator_ = none →
      (∀ q, cl.receiveStringFieldSeparator_.isPrefixOf ((getline wire).drop q) = false) ∧
      ∃ e, cl.receiveStringTag wire t = .error e) := by
  have hr : SocketClient.receiveString wire = .ok (getline wire) := receiveString_ok wire hno
  refine ⟨?_, ?_⟩
  · intro p hp
    refine ⟨find_some_spec _ _ _ hp, ?_, ?_⟩
    · intro ht
      simp only [SocketClient.receiveStringTag, hr, hp]
      simp [ht]
    · intro ht
      simp only [SocketClient.receiveStringTag, hr, hp]
      simp [ht]
  · intro hn
    refine ⟨find_none_spec _ _ hn, ?_⟩
    simp only [SocketClient.receiveStringTag, hr, hn]
    exact ⟨_, rfl⟩

/-- C14 (witness). The line `Ping__$__hello` received with the tag `Ping`. -/
theorem c14_tagged_receive_witness :
    defaultClient.receiveStringTag "Ping__$__hello\n".toList "Ping".toList = .ok "hello".toList :=
  ((c14_tagged_receive defaultClient "Ping__$__hello\n".toList "Ping".toList (by decide)).1 4
    (by decide)).2.1 (by decide)


/-! ### The session: reset rule and web forms -/

theorem iteration_authStep1 (srv : SocketServer) (env : Env) (st : SessionState) (w : World)
    (L : Str) (p : Nat) (hread : env.read = .data L)
    (hp : find L srv.commandFieldSeparator_ = some p) (hc : L.take p = AuthStep1)
    (hopen : env.openOk = true) (hchmod : env.chmodOk = true)
    (hpwd : env.pwd = (w.cwd ++ ['\n'], 0)) (hwr : env.writeError = none) :
    iteration srv env st w =
      some ⟨⟨"tmp/auth_".toList ++ env.randomName, env.randomSecret, 1⟩,
        { w.writeFile ("tmp/auth_".toList ++ env.randomName) (env.randomSecret ++ ['\n']) with
          sent := w.sent ++ [withNewline (AuthStep1 ++ srv.outputFieldSeparator_ ++
            (w.cwd ++ "/tmp/auth_".toList ++ env.randomName))] }, true⟩ := by
  have hlast : (w.cwd ++ ['\n']).getLast? = some '\n' := by simp
  have hdir : (w.cwd ++ ['\n']).dropLast = w.cwd := by simp
  have hs : ∀ x : Str, sendString (AuthStep1 ++ srv.outputFieldSeparator_ ++ x) =
      some (withNewline (AuthStep1 ++ srv.outputFieldSeparator_ ++ x)) :=
    fun x => sendString_of_ne _ (by simp [AuthStep1])
  simp only [iteration, tryBlock, hread, hp, hc, hopen, hchmod, hpwd, hlast, hdir, if_true,
    trySend, hs, hwr,
    SocketServer.insertOutputFieldSeparator]
  simp [World.writeFile]

theorem trySend_w_calls (env : Env) (st : SessionState) (w : World) (theString command : Str)
    (isPOST : Bool) (s : Str) (after : Flow) (t : TryOut)
    (h : trySend env st w theString command isPOST s after = some t) :
    t.w.calls = w.calls :=
  trySend_calls env st w theString command isPOST s after t h

theorem tryBlock_step2_calls (srv : SocketServer) (env : Env) (st : SessionState) (w : World)
    (L : Str) (p : Nat) (hread : env.read = .data L)
    (hp : find L srv.commandFieldSeparator_ = some p) (hst : st.authenticationStep = 1)
    (t : TryOut) (ht : tryBlock srv env st w = some t) : t.w.calls = w.calls := by
  simp only [tryBlock, hread, hp, hst] at ht
  by_cases hc : L.take p = AuthStep1
  · simp only [hc, if_true, Nat.zero_add, ne_eq, not_true_eq_false, if_false] at ht
    have h1 : (1 : Nat) % 2 ^ 64 = 1 := by norm_num
    simp only [h1, if_true] at ht
    split_ifs at ht
    all_goals first
      | (cases ht; rfl)
      | (cases hg : env.pwd.1.getLast? with
          | none => simp only [hg] at ht; cases ht
          | some c =>
            simp only [hg] at ht
            exact (trySend_w_calls _ _ _ _ _ _ _ _ _ ht).trans (by simp [World.writeFile]))
  · simp only [hc, if_false] at ht
    have h2 : (1 + 1 : Nat) % 2 ^ 64 = 2 := by norm_num
    have h21 : (2 : Nat) ≠ 1 := by decide
    simp only [h2, h21, if_false, if_true] at ht
    split_ifs at ht
    all_goals first
      | (cases ht; rfl)
      | exact (trySend_w_calls _ _ _ _ _ _ _ _ _ ht).trans (by simp [World.remove]; split_ifs <;> rfl)


theorem take_ne_authStep1 (rest : Str) (p : Nat) : (AuthStep2 ++ rest).take p ≠ AuthStep1 := by
  intro h
  have hlen : p = 9 ∨ (AuthStep2 ++ rest).length < p := by
    have := congrArg List.length h
    simp only [List.length_take] at this
    have h9 : AuthStep1.length = 9 := by decide
    omega
  rcases hlen with h9 | hlt
  · subst h9
    have : (AuthStep2 ++ rest).take 9 = AuthStep2 := by
      have hl : AuthStep2.length = 9 := by decide
      rw [← hl, List.take_left]
    rw [this] at h
    revert h; decide
  · rw [List.take_of_length_le (by omega)] at h
    have := congrArg (List.take 9) h
    have hl : AuthStep2.length = 9 := by decide
    rw [← hl, List.take_left] at this
    rw [hl] at this
    revert this; decide

theorem iteration_step2_accept (srv : SocketServer) (env : Env) (st : SessionState) (w : World)
    (p : Nat) (hread : env.read =
      .data (AuthStep2 ++ srv.commandFieldSeparator_ ++ st.sessionAuthorizationStr))
    (hp : find (AuthStep2 ++ srv.commandFieldSeparator_ ++ st.sessionAuthorizationStr)
      srv.commandFieldSeparator_ = some p)
    (hst : st.authenticationStep = 1) (hwr : env.writeError = none) :
    iteration srv env st w =
      some ⟨⟨[], st.sessionAuthorizationStr, 2⟩,
        { w.remove st.sessionAuthorizationFile with
          sent := w.sent ++ [withNewline
            ((AuthStep2 ++ srv.commandFieldSeparator_ ++ st.sessionAuthorizationStr).take p ++
              srv.outputFieldSeparator_ ++ "ok".toList)] }, true⟩ := by
  have hc := take_ne_authStep1 (srv.commandFieldSeparator_ ++ st.sessionAuthorizationStr) p
  rw [← List.append_assoc] at hc
  have h2 : (1 + 1 : Nat) % 2 ^ 64 = 2 := by norm_num
  have h21 : (2 : Nat) ≠ 1 := by decide
  have hs : ∀ x : Str, sendString (x ++ srv.outputFieldSeparator_ ++ "ok".toList) =
      some (withNewline (x ++ srv.outputFieldSeparator_ ++ "ok".toList)) :=
    fun x => sendString_of_ne _ (by simp)
  simp only [iteration, tryBlock, hread, hp, hc, hst, if_false, h2, h21, if_true, ne_eq,
    not_true_eq_false, trySend, hs, hwr, SocketServer.insertOutputFieldSeparator,
    Option.some_bind]
  simp [World.remove]
  split_ifs <;> rfl

theorem iteration_step2_reject (srv : SocketServer) (env : Env) (st : SessionState) (w : World)
    (L : Str) (p : Nat) (hread : env.read = .data L)
    (hp : find L srv.commandFieldSeparator_ = some p) (hc : L.take p ≠ AuthStep1)
    (hst : st.authenticationStep = 1)
    (hL : L ≠ AuthStep2 ++ srv.commandFieldSeparator_ ++ st.sessionAuthorizationStr) :
    ∃ out, iteration srv env st w = some out ∧
      out.w.log = w.log.errorToLog ("SocketServer::session(): ".toList ++
        ("Client at ".toList ++ env.remoteAddress ++ " did not send the secret string".toList)) ∧
      out.w.files = w.files := by
  have h2 : (1 + 1 : Nat) % 2 ^ 64 = 2 := by norm_num
  have h21 : (2 : Nat) ≠ 1 := by decide
  simp only [iteration, tryBlock, hread, hp, hc, hst, if_false, h2, h21, if_true, ne_eq, hL,
    not_false_eq_true, Option.some_bind]
  rw [catchBlock_of_ne _ _ _ _ (sessionMsg_ne _)]
  refine ⟨_, rfl, ?_, ?_⟩ <;> (split_ifs <;> rfl)


theorem tryBlock_pwd_none (srv : SocketServer) (env : Env) (st : SessionState) (w : World)
    (L : Str) (p : Nat) (hread : env.read = .data L)
    (hp : find L srv.commandFieldSeparator_ = some p)
    (hub : L.take p = AuthStep1 ∧ env.chmodOk = true ∧ env.pwd.2 = 0 ∧ env.pwd.1 = []) :
    tryBlock srv env st w = none ∧ iteration srv env st w = none := by
  obtain ⟨hc, hch, hst2, h0⟩ := hub
  have h1 : (0 + 1 : Nat) % 2 ^ 64 = 1 := by norm_num
  have ht : tryBlock srv env st w = none := by
    simp only [tryBlock, hread, hp, hc, if_true, h1, ne_eq, not_true_eq_false, if_false, hch,
      Bool.not_true, Bool.false_eq_true, hst2, h0, List.getLast?_nil]
  exact ⟨ht, by simp only [iteration, ht, Option.none_bind]⟩

theorem tryBlock_structured_some (srv : SocketServer) (env : Env) (st : SessionState) (w : World)
    (L : Str) (p : Nat) (hread : env.read = .data L)
    (hp : find L srv.commandFieldSeparator_ = some p) (hst : st.authenticationStep = 1)
    (hno : ¬ (L.take p = AuthStep1 ∧ env.chmodOk = true ∧ env.pwd.2 = 0 ∧ env.pwd.1 = [])) :
    ∃ t, tryBlock srv env st w = some t := by
  simp only [tryBlock, hread, hp, hst]
  by_cases hc : L.take p = AuthStep1
  · simp only [hc, if_true, Nat.zero_add, ne_eq, not_true_eq_false, if_false]
    have h1 : (1 : Nat) % 2 ^ 64 = 1 := by norm_num
    simp only [h1, if_true]
    by_cases hch : env.chmodOk = true
    · by_cases hst2 : env.pwd.2 = 0
      · have hne : env.pwd.1 ≠ [] := fun h0 => hno ⟨hc, hch, hst2, h0⟩
        cases hg : env.pwd.1.getLast? with
        | none => exact absurd (List.getLast?_eq_none_iff.1 hg) hne
        | some c =>
          simp only [hch, Bool.not_true, Bool.false_eq_true, if_false, hst2, not_true_eq_false]
          exact ⟨_, trySend_of_ne _ _ _ _ _ _ _ _
            (by simp [SocketServer.insertOutputFieldSeparator, AuthStep1])⟩
      · simp only [hch, Bool.not_true, Bool.false_eq_true, if_false, hst2, not_false_eq_true,
          if_true]
        exact ⟨_, rfl⟩
    · have hch2 : env.chmodOk = false := by cases h : env.chmodOk <;> simp_all
      simp only [hch2, Bool.not_false, if_true]
      exact ⟨_, rfl⟩
  · simp only [hc, if_false]
    have h2 : (1 + 1 : Nat) % 2 ^ 64 = 2 := by norm_num
    have h21 : (2 : Nat) ≠ 1 := by decide
    simp only [h2, h21, if_false, if_true]
    split_ifs
    all_goals first
      | exact ⟨_, rfl⟩
      | exact ⟨_, trySend_of_ne _ _ _ _ _ _ _ _
          (by simp [SocketServer.insertOutputFieldSeparator])⟩

/-- C16. In every state of a session, a structured line whose command is
`AuthStep1` is handled as handshake step 1 (the system calls and the socket
write succeeding): a new challenge file holding the new secret is written, the
reply is `AuthStep1 SEP_OUT cwd/tmp/auth_name`, no handler is invoked and the
step counter is 1. The next structured line invokes no handler either; when
its command is not `AuthStep1` it is checked as step 2: a line other than
`AuthStep2 SEP_CMD secret` is logged as not carrying the secret, and the line
`AuthStep2 SEP_CMD secret` is answered with `ok`. (Only when that next line is
again an `AuthStep1` line for which `chmod` and `pwd` succeed and `pwd` has
given no output does the iteration have no defined result: `back()` reads
outside the empty output.) -/
theorem c16_reset_rule (srv : SocketServer) (env : Env) (st : SessionState) (w : World)
    (L : Str) (p : Nat) (hread : env.read = .data L)
    (hp : find L srv.commandFieldSeparator_ = some p) (hc : L.take p = AuthStep1)
    (hopen : env.openOk = true) (hchmod : env.chmodOk = true)
    (hpwd : env.pwd = (w.cwd ++ ['\n'], 0)) (hwr : env.writeError = none) :
    ∃ out, iteration srv env st w = some out ∧ out.continues = true ∧
      out.st.authenticationStep = 1 ∧ out.st.sessionAuthorizationStr = env.randomSecret ∧
      out.w.sent = w.sent ++ [withNewline (AuthStep1 ++ srv.outputFieldSeparator_ ++
        (w.cwd ++ "/tmp/auth_".toList ++ env.randomName))] ∧
      out.w.fileAt (w.cwd ++ "/tmp/auth_".toList ++ env.randomName) =
        some (env.randomSecret ++ ['\n']) ∧
      out.w.calls = w.calls ∧
      ∀ (env2 : Env) (L2 : Str) (p2 : Nat), env2.read = .data L2 →
        find L2 srv.commandFieldSeparator_ = some p2 →
        ((L2.take p2 = AuthStep1 ∧ env2.chmodOk = true ∧ env2.pwd.2 = 0 ∧ env2.pwd.1 = []) →
          iteration srv env2 out.st out.w = none) ∧
        (¬ (L2.take p2 = AuthStep1 ∧ env2.chmodOk = true ∧ env2.pwd.2 = 0 ∧ env2.pwd.1 = []) →
          ∃ out2, iteration srv env2 out.st out.w = some out2 ∧ out2.w.calls = w.calls ∧
            (L2.take p2 ≠ AuthStep1 →
              L2 ≠ AuthStep2 ++ srv.commandFieldSeparator_ ++ env.randomSecret →
              out2.w.log = out.w.log.errorToLog ("SocketServer::session(): ".toList ++
                ("Client at ".toList ++ env2.remoteAddress ++
                  " did not send the secret string".toList))) ∧
            (L2 = AuthStep2 ++ srv.commandFieldSeparator_ ++ env.randomSecret →
              env2.writeError = none →
              out2.st.authenticationStep = 2 ∧
              out2.w.sent = out.w.sent ++
                [withNewline (L2.take p2 ++ srv.outputFieldSeparator_ ++ "ok".toList)])) := by
  refine ⟨_, iteration_authStep1 srv env st w L p hread hp hc hopen hchmod hpwd hwr, rfl, rfl, rfl,
    rfl, ?_, ?_, ?_⟩
  · simp [World.fileAt, World.writeFile, World.resolve]
  · simp [World.writeFile]
  · intro env2 L2 p2 hread2 hp2
    refine ⟨fun hub => (tryBlock_pwd_none srv env2 _ _ L2 p2 hread2 hp2 hub).2, fun hno => ?_⟩
    obtain ⟨t, ht⟩ := tryBlock_structured_some srv env2
        ⟨"tmp/auth_".toList ++ env.randomName, env.randomSecret, 1⟩
        { w.writeFile ("tmp/auth_".toList ++ env.randomName) (env.randomSecret ++ ['\n']) with
          sent := w.sent ++ [withNewline (AuthStep1 ++ srv.outputFieldSeparator_ ++
            (w.cwd ++ "/tmp/auth_".toList ++ env.randomName))] } L2 p2 hread2 hp2 rfl hno
    have hcalls := tryBlock_step2_calls srv env2 _ _ L2 p2 hread2 hp2 rfl t ht
    obtain ⟨out2, ho1, ho2⟩ := iteration_calls_of_tryBlock srv env2 _ _ t ht
    refine ⟨out2, ho1, ?_, ?_, ?_⟩
    · rw [ho2, hcalls]; simp [World.writeFile]
    · intro hc2 hL2
      obtain ⟨out3, h31, h32, -⟩ := iteration_step2_reject srv env2
        ⟨"tmp/auth_".toList ++ env.randomName, env.randomSecret, 1⟩ _ L2 p2 hread2 hp2 hc2 rfl hL2
      rw [ho1] at h31
      cases h31
      exact h32
    · intro hL2 hwr2
      subst hL2
      have h3 := iteration_step2_accept srv env2
        ⟨"tmp/auth_".toList ++ env.randomName, env.randomSecret, 1⟩
        { w.writeFile ("tmp/auth_".toList ++ env.randomName) (env.randomSecret ++ ['\n']) with
          sent := w.sent ++ [withNewline (AuthStep1 ++ srv.outputFieldSeparator_ ++
            (w.cwd ++ "/tmp/auth_".toList ++ env.randomName))] } p2 hread2 hp2 rfl hwr2
      rw [ho1] at h3
      cases h3
      exact ⟨rfl, rfl⟩

/-- C16 (witness). `AuthStep1__+__please` received by an authenticated session. -/
theorem c16_reset_rule_witness :
    ∃ out, iteration (defaultServer pingRegistry)
        (lineEnv "AuthStep1__+__please" "abcdefghij" secretA) ⟨[], [], 5⟩ world0 = some out ∧
      out.st.authenticationStep = 1 ∧
      out.w.sent = ["AuthStep1__$__/srv/tmp/auth_abcdefghij\n".toList] ∧ out.w.calls = [] := by
  obtain ⟨out, h1, -, h2, -, h3, -, h4, -⟩ :=
    c16_reset_rule (defaultServer pingRegistry)
      (lineEnv "AuthStep1__+__please" "abcdefghij" secretA) ⟨[], [], 5⟩ world0
      "AuthStep1__+__please".toList 9 rfl (by decide) (by decide) rfl rfl rfl rfl
  exact ⟨out, h1, h2, by rw [h3]; decide, h4⟩


theorem findMarkerLine_first (pre post : List Str) (q : Str)
    (hpre : ∀ l ∈ pre, find l submitMarker = none)
    (hq : (find q submitMarker).isSome = true) (L : Str) (body : List Str)
    (hlines : L :: body = pre ++ q :: post) : findMarkerLine L body = some q := by
  induction pre generalizing L body with
  | nil =>
    simp only [List.nil_append, List.cons.injEq] at hlines
    obtain ⟨h1, h2⟩ := hlines
    subst h1
    cases body <;> simp [findMarkerLine, hq]
  | cons x pre ih =>
    simp only [List.cons_append, List.cons.injEq] at hlines
    obtain ⟨h1, h2⟩ := hlines
    subst h1
    have hx : find L submitMarker = none := hpre L (List.mem_cons_self _ _)
    cases body with
    | nil => cases pre <;> cases h2
    | cons l ls =>
      simp only [findMarkerLine, hx, Option.isSome_none, Bool.false_eq_true, if_false]
      exact ih (fun y hy => hpre y (List.mem_cons_of_mem _ hy)) l ls h2

/-- The success path of a web form whose page is not empty: with web support
enabled, for a line that contains `POST /` and no `SEP_CMD`, when `query` is
the first of the lines of the exchange that holds `Submit+This+Form`, its
decoded map `m` binds the configured field name to `v` and `v` is registered in
the web registry with a handler `g` that returns `g m = r`: the handler is
invoked once, the session sends exactly one string, `htmlHeader ++ r ++
htmlFooter` ended by a newline, and leaves its loop, so no later line of the
connection is read or answered. -/
theorem web_success_page (srv : SocketServer) (env : Env) (st : SessionState) (w : World)
    (L query v r : Str) (body pre post : List Str) (m : CGImap) (g : CGImap → Outcome Str)
    (rest : List Env)
    (hweb : srv.supportsWebRequests_ = true) (hl : env.listening = true)
    (hread : env.read = .data L) (hnosep : find L srv.commandFieldSeparator_ = none)
    (hpost : (find L "POST /".toList).isSome = true)
    (hbody : env.postRead = .data body) (hlines : L :: body = pre ++ query :: post)
    (hpre : ∀ l ∈ pre, find l submitMarker = none)
    (hq : (find query submitMarker).isSome = true)
    (hm : parseCGImap query = some m) (hv : m.find srv.webCommandString_ = some v)
    (hreg : srv.webCommands.lookup v = some g) (hr : g m = .value r)
    (hwr : env.writeError = none) (hne : srv.htmlHeader_ ++ r ++ srv.htmlFooter_ ≠ []) :
    iteration srv env st w =
      some ⟨st, { w with sent := w.sent ++ [withNewline (srv.htmlHeader_ ++ r ++ srv.htmlFooter_)]
                         webCalls := w.webCalls ++ [(v, m)] }, false⟩ ∧
    (withNewline (srv.htmlHeader_ ++ r ++ srv.htmlFooter_)).getLast? = some '\n' ∧
    sessionLoop srv (env :: rest) st w =
      some ⟨st, { w with sent := w.sent ++ [withNewline (srv.htmlHeader_ ++ r ++ srv.htmlFooter_)]
                         webCalls := w.webCalls ++ [(v, m)] }, false⟩ := by
  have hf := findMarkerLine_first pre post query hpre hq L body hlines
  have hcall : srv.webCommands.call v m = ⟨true, .value r⟩ := by
    simp [FunctionRegistry.call, hreg, hr]
  have hs : sendString (srv.htmlHeader_ ++ (r ++ srv.htmlFooter_)) =
      some (withNewline (srv.htmlHeader_ ++ (r ++ srv.htmlFooter_))) :=
    sendString_of_ne _ (by rw [← List.append_assoc]; exact hne)
  have hit : iteration srv env st w =
      some ⟨st, { w with sent := w.sent ++ [withNewline (srv.htmlHeader_ ++ r ++ srv.htmlFooter_)]
                         webCalls := w.webCalls ++ [(v, m)] }, false⟩ := by
    simp only [iteration, tryBlock, hread, hnosep, hpost, hweb, hbody, hf, hm, hv, hcall, trySend,
      hwr, SocketServer.applyHTMLFormatting]
    simp [hs]
  refine ⟨hit, withNewline_getLast _, ?_⟩
  simp only [sessionLoop, hl, hit, if_true]
  simp

/-- The web form `WebCommand=Greet&name=Bob&Submit+This+Form` is answered with
the page `<html>Hello Bob</html>` and the line after it is not read. -/
theorem web_success_page_greet :
    sessionLoop webServer
        [postEnv "POST /form HTTP/1.1" ["", "WebCommand=Greet&name=Bob&Submit+This+Form"],
         lineEnv "Ping__+__hello" "abcdefghij" secretA] SessionState.init world0 =
      some ⟨SessionState.init,
        { world0 with
          sent := ["<html>Hello Bob</html>\n".toList]
          webCalls := [("Greet".toList,
            [("WebCommand".toList, "Greet".toList), ("name".toList, "Bob".toList)])] }, false⟩ :=
  (web_success_page webServer
    (postEnv "POST /form HTTP/1.1" ["", "WebCommand=Greet&name=Bob&Submit+This+Form"])
    SessionState.init world0 "POST /form HTTP/1.1".toList
    "WebCommand=Greet&name=Bob&Submit+This+Form".toList "Greet".toList "Hello Bob".toList
    ["".toList, "WebCommand=Greet&name=Bob&Submit+This+Form".toList]
    ["POST /form HTTP/1.1".toList, "".toList] []
    [("WebCommand".toList, "Greet".toList), ("name".toList, "Bob".toList)] greet
    [lineEnv "Ping__+__hello" "abcdefghij" secretA]
    rfl rfl rfl (by decide) (by decide) rfl rfl (by decide) (by decide) (by decide) (by decide) rfl rfl
    rfl (by decide)).2.2

/-- C17 (evaluation at the failing input). A `SocketServer` constructed with a
header and footer file that holds `__HFSEPARATOR__` only has web support, an
empty header and an empty footer. When it reads a POST exchange whose form
selects the registered web command `Blank`, whose handler returns the empty
string, the page `htmlHeader + g(m) + htmlFooter` is empty, `sendString` reads
`back()` of the empty string, and the iteration has no defined result: no
newline-terminated page is sent. -/
theorem c17_empty_page :
    ∃ ps l,
      SocketServer.construct (argsWeb 19971 "hf.html") "host".toList
        (some "__HFSEPARATOR__".toList) pingRegistry blankRegistry processStart = (ps, .ok l) ∧
      l.core.supportsWebRequests_ = true ∧
      find "POST /form HTTP/1.1".toList l.core.commandFieldSeparator_ = none ∧
      parseCGImap "WebCommand=Blank&Submit+This+Form".toList =
        some [("WebCommand".toList, "Blank".toList)] ∧
      l.core.webCommands.lookup "Blank".toList = some blank ∧
      blank [("WebCommand".toList, "Blank".toList)] = .value [] ∧
      l.core.htmlHeader_ ++ [] ++ l.core.htmlFooter_ = [] ∧
      sendString (l.core.applyHTMLFormatting [] "Blank".toList) = none ∧
      iteration l.core (postEnv "POST /form HTTP/1.1" ["WebCommand=Blank&Submit+This+Form"])
        SessionState.init world0 = none :=
  ⟨_, _, rfl, by decide, by decide, by decide, rfl, rfl, by decide, by decide, rfl⟩

theorem infix_applyHTMLFormatting (srv : SocketServer) (s title : Str) :
    s <:+: srv.applyHTMLFormatting s title := by
  unfold SocketServer.applyHTMLFormatting
  cases srv.supportsWebRequests_
  · exact ⟨"<!DOCTYPE html>\n".toList ++ "<html lang=\"en\">\n".toList ++
      "<meta charset=\"utf-8\">\n".toList ++ ("<title>".toList ++ title ++ "</title>\n".toList) ++
      "<body>\n".toList, "</body>\n".toList ++ "</html>\n".toList, by simp [List.append_assoc]⟩
  · exact ⟨srv.htmlHeader_, srv.htmlFooter_, by simp⟩

theorem applyHTMLFormatting_error (srv : SocketServer) (errMsg : Str) :
    srv.applyHTMLFormatting errMsg "ERROR".toList =
      if srv.supportsWebRequests_ then srv.htmlHeader_ ++ errMsg ++ srv.htmlFooter_
      else "<!DOCTYPE html>\n<html lang=\"en\">\n<meta charset=\"utf-8\">\n<title>ERROR</title>\n<body>\n".toList
        ++ errMsg ++ "</body>\n</html>\n".toList := by
  unfold SocketServer.applyHTMLFormatting
  cases srv.supportsWebRequests_ <;> simp

theorem withNewline_errorPage (srv : SocketServer) (errMsg : Str) :
    withNewline (srv.applyHTMLFormatting errMsg "ERROR".toList) =
      if srv.supportsWebRequests_ then withNewline (srv.htmlHeader_ ++ errMsg ++ srv.htmlFooter_)
      else "<!DOCTYPE html>\n<html lang=\"en\">\n<meta charset=\"utf-8\">\n<title>ERROR</title>\n<body>\n".toList
        ++ errMsg ++ "</body>\n</html>\n".toList := by
  rw [applyHTMLFormatting_error]
  cases srv.supportsWebRequests_
  · have hl : ("<!DOCTYPE html>\n<html lang=\"en\">\n<meta charset=\"utf-8\">\n<title>ERROR</title>\n<body>\n".toList
        ++ errMsg ++ "</body>\n</html>\n".toList).getLast? = some '\n' := by
      rw [List.getLast?_append]
      rfl
    simp only [Bool.false_eq_true, if_false]
    unfold withNewline
    rw [if_pos hl]
  · simp

theorem infix_withNewline (s t : Str) (h : s <:+: t) : s <:+: withNewline t := by
  unfold withNewline
  split
  · exact h
  · exact h.trans (List.infix_append' [] t ['\n'])

theorem errorPage_catchBlock (srv : SocketServer) (env : Env) (w : World)
    (t : TryOut) (errMsg : Str) (hne : errMsg ≠ []) (hP : t.isPOST = true)
    (hcw : env.catchWriteOk = true) (hw : t.w.log = w.log) (hs : t.w.sent = w.sent)
    (hc : t.w.calls = w.calls) :
    ∃ out, catchBlock srv env t errMsg = some out ∧ ErrorPageSent srv w out errMsg ∧
      out.w.webCalls = t.w.webCalls := by
  rw [catchBlock_of_ne srv env t errMsg hne]
  refine ⟨_, rfl, ?_, ?_⟩
  · simp only [hP, hcw, if_true]
    refine ⟨rfl, ?_, ⟨_, ?_, ?_, withNewline_getLast _, withNewline_errorPage srv errMsg⟩, hc⟩
    · show t.w.log.errorToLog errMsg = _
      rw [hw, errorToLog_eq]
    · show t.w.sent ++ _ = _
      rw [hs]
    · exact infix_withNewline _ _ (infix_applyHTMLFormatting srv errMsg "ERROR".toList)
  · simp only [hP, hcw, if_true]

theorem errorPage_of_stdExc (srv : SocketServer) (env : Env) (st : SessionState) (w : World)
    (t : TryOut) (what : Str) (ht : tryBlock srv env st w = some t) (hP : t.isPOST = true)
    (hcw : env.catchWriteOk = true) (hw : t.w.log = w.log) (hs : t.w.sent = w.sent)
    (hc : t.w.calls = w.calls) (hf : t.flow = .stdExc what) :
    ∃ out, iteration srv env st w = some out ∧
      ErrorPageSent srv w out ("SocketServer::session(): ".toList ++ what) ∧
      out.w.webCalls = t.w.webCalls := by
  rw [iteration_of_tryBlock srv env st w t ht]
  simp only [hf]
  exact errorPage_catchBlock srv env w t _ (sessionMsg_ne what) hP hcw hw hs hc

theorem errorPage_of_otherExc (srv : SocketServer) (env : Env) (st : SessionState) (w : World)
    (t : TryOut) (ht : tryBlock srv env st w = some t) (hP : t.isPOST = true)
    (hcw : env.catchWriteOk = true) (hw : t.w.log = w.log) (hs : t.w.sent = w.sent)
    (hc : t.w.calls = w.calls) (hf : t.flow = .otherExc) :
    ∃ out, iteration srv env st w = some out ∧
      ErrorPageSent srv w out ("SocketServer::session(): unknown error, with string \"".toList ++
        t.theString ++ "\"".toList) ∧
      out.w.webCalls = t.w.webCalls := by
  rw [iteration_of_tryBlock srv env st w t ht]
  simp only [hf]
  exact errorPage_catchBlock srv env w t _ (unknownMsg_ne t.theString) hP hcw hw hs hc

/-- C18. A POST exchange (a line with `POST /` and no `SEP_CMD`) that raises an
error is answered with exactly one page that holds the error message
(`ErrorPageSent`: without web support the minimal HTML5 page titled `ERROR`
whose body is the message; with web support the configured header, the message
and the configured footer), the line `***ERROR*** message` is added to the
log, and the loop is left: when web support is not configured; and, with web
support and the body received, when the decoded map lacks the configured field
(no handler is invoked), when the web command is not registered (no handler is
invoked), and when the handler raises a `std::exception` or another object (the
handler was invoked and no result of it is sent). -/
theorem c18_web_failure (srv : SocketServer) (env : Env) (st : SessionState) (w : World)
    (L : Str) (hread : env.read = .data L)
    (hnosep : find L srv.commandFieldSeparator_ = none)
    (hpost : (find L "POST /".toList).isSome = true) (hcw : env.catchWriteOk = true) :
    (srv.supportsWebRequests_ = false →
      ∃ out, iteration srv env st w = some out ∧
        ErrorPageSent srv w out ("SocketServer::session(): ".toList ++
          "SocketServer was not configured to accept web requests!".toList) ∧
        out.w.webCalls = w.webCalls) ∧
    (srv.supportsWebRequests_ = true →
      ∀ (body : List Str) (query : Str) (m : CGImap), env.postRead = .data body →
        findMarkerLine L body = some query → parseCGImap query = some m →
        (m.find srv.webCommandString_ = none →
          ∃ out, iteration srv env st w = some out ∧
            ErrorPageSent srv w out ("SocketServer::session(): ".toList ++
              ("The key \"".toList ++ srv.webCommandString_ ++
                "\" was not found within the POST string: \"".toList ++ query ++ "\"".toList)) ∧
            out.w.webCalls = w.webCalls) ∧
        (∀ v, m.find srv.webCommandString_ = some v →
          (srv.webCommands.lookup v = none →
            ∃ out, iteration srv env st w = some out ∧
              ErrorPageSent srv w out ("SocketServer::session(): ".toList ++
                FunctionRegistry.notRegistered v) ∧
              out.w.webCalls = w.webCalls) ∧
          (∀ g, srv.webCommands.lookup v = some g →
            (∀ what, g m = .stdException what →
              ∃ out, iteration srv env st w = some out ∧
                ErrorPageSent srv w out ("SocketServer::session(): ".toList ++ what) ∧
                out.w.webCalls = w.webCalls ++ [(v, m)]) ∧
            (g m = .otherException →
              ∃ out, iteration srv env st w = some out ∧
                ErrorPageSent srv w out
                  ("SocketServer::session(): unknown error, with string \"".toList ++ query ++
                    "\"".toList) ∧
                out.w.webCalls = w.webCalls ++ [(v, m)])))) := by
  refine ⟨?_, ?_⟩
  · intro hweb
    exact errorPage_of_stdExc srv env st w ⟨st, w, L, [], true, _⟩ _
      (by simp only [tryBlock, hread, hnosep, hpost, hweb]; rfl) rfl hcw rfl rfl rfl rfl
  · intro hweb body query m hbody hfm hm
    refine ⟨?_, ?_⟩
    · intro hnone
      exact errorPage_of_stdExc srv env st w ⟨st, w, query, [], true, _⟩ _
        (by simp only [tryBlock, hread, hnosep, hpost, hweb, hbody, hfm, hm, hnone]; rfl)
        rfl hcw rfl rfl rfl rfl
    · intro v hv
      refine ⟨?_, ?_⟩
      · intro hlk
        have hcall : srv.webCommands.call v m = ⟨false, .stdException
            (FunctionRegistry.notRegistered v)⟩ := by
          simp [FunctionRegistry.call, hlk]
        exact errorPage_of_stdExc srv env st w ⟨st, w, query, [], true, _⟩ _
          (by simp only [tryBlock, hread, hnosep, hpost, hweb, hbody, hfm, hm, hv, hcall]; rfl)
          rfl hcw rfl rfl rfl rfl
      · intro g hlk
        refine ⟨?_, ?_⟩
        · intro what hg
          have hcall : srv.webCommands.call v m = ⟨true, .stdException what⟩ := by
            simp [FunctionRegistry.call, hlk, hg]
          exact errorPage_of_stdExc srv env st w
            ⟨st, { w with webCalls := w.webCalls ++ [(v, m)] }, query, [], true, _⟩ _
            (by simp only [tryBlock, hread, hnosep, hpost, hweb, hbody, hfm, hm, hv, hcall]; rfl)
            rfl hcw rfl rfl rfl rfl
        · intro hg
          have hcall : srv.webCommands.call v m = ⟨true, .otherException⟩ := by
            simp [FunctionRegistry.call, hlk, hg]
          exact errorPage_of_otherExc srv env st w
            ⟨st, { w with webCalls := w.webCalls ++ [(v, m)] }, query, [], true, _⟩
            (by simp only [tryBlock, hread, hnosep, hpost, hweb, hbody, hfm, hm, hv, hcall]; rfl)
            rfl hcw rfl rfl rfl rfl


/-! ### Construction and destruction of a SocketServer -/

theorem construct_registered (args : ServerArgs) (hostName : Str) (htmlFile : Option Str)
    (commands : FunctionRegistry Str Str) (webCommands : FunctionRegistry CGImap Str)
    (ps : ProcessState) (h : args.port ∈ ps.usedPorts) :
    SocketServer.construct args hostName htmlFile commands webCommands ps =
      (ps, .error ("SocketServer::SocketServer(): a server listening on port ".toList ++
        decimalInt args.port ++ " was already instantiated.".toList)) := by
  simp only [SocketServer.construct, h, if_true]

theorem construct_usedPorts (args : ServerArgs) (hostName : Str) (htmlFile : Option Str)
    (commands : FunctionRegistry Str Str) (webCommands : FunctionRegistry CGImap Str)
    (ps : ProcessState) :
    (SocketServer.construct args hostName htmlFile commands webCommands ps).1.usedPorts =
      if args.port ∈ ps.usedPorts then ps.usedPorts else args.port :: ps.usedPorts := by
  by_cases h : args.port ∈ ps.usedPorts
  · simp only [SocketServer.construct, h, if_true]
  · simp only [SocketServer.construct, h, if_false]
    cases htmlFile with
    | none => split_ifs <;> rfl
    | some content =>
      cases hfc : find content "__HFSEPARATOR__".toList with
      | none => simp only [hfc]; split_ifs <;> rfl
      | some p => simp only [hfc]; split_ifs <;> rfl

theorem construct_ok_mem (args : ServerArgs) (hostName : Str) (htmlFile : Option Str)
    (commands : FunctionRegistry Str Str) (webCommands : FunctionRegistry CGImap Str)
    (ps ps1 : ProcessState) (l : Listener)
    (h : SocketServer.construct args hostName htmlFile commands webCommands ps = (ps1, .ok l)) :
    args.port ∈ ps1.usedPorts := by
  have hu := construct_usedPorts args hostName htmlFile commands webCommands ps
  rw [h] at hu
  by_cases hm : args.port ∈ ps.usedPorts
  · rw [construct_registered args hostName htmlFile commands webCommands ps hm] at h
    cases h
  · simp only [hm, if_false] at hu
    rw [hu]
    exact List.mem_cons_self _ _

/-- C11. When a `SocketServer` has been constructed on a port, the port is in
`usedPorts`; and in every process state whose `usedPorts` holds the port (so
while that object is alive), constructing a `SocketServer` on the same port
throws the "already instantiated" error and leaves the process state, with
`usedPorts`, as it was. -/
theorem c11_port_exclusivity (args1 args2 : ServerArgs) (host1 host2 : Str)
    (html1 html2 : Option Str) (commands1 commands2 : FunctionRegistry Str Str)
    (web1 web2 : FunctionRegistry CGImap Str) (ps ps1 : ProcessState) (l1 : Listener)
    (h1 : SocketServer.construct args1 host1 html1 commands1 web1 ps = (ps1, .ok l1))
    (hport : args2.port = args1.port) :
    args1.port ∈ ps1.usedPorts ∧
    ∀ ps2 : ProcessState, args1.port ∈ ps2.usedPorts →
      SocketServer.construct args2 host2 html2 commands2 web2 ps2 =
        (ps2, .error ("SocketServer::SocketServer(): a server listening on port ".toList ++
          decimalInt args2.port ++ " was already instantiated.".toList)) :=
  ⟨construct_ok_mem args1 host1 html1 commands1 web1 ps ps1 l1 h1,
    fun ps2 h2 => construct_registered args2 host2 html2 commands2 web2 ps2 (hport ▸ h2)⟩

theorem destroy_releases_port (l : Listener) (selfDial : Outcome Unit) (ps : ProcessState)
    (h : closeSockets l.mySockets_ = none) (q : Int) :
    q ∈ (l.destroy selfDial ps).usedPorts ↔ q ∈ ps.usedPorts ∧ q ≠ l.port_ := by
  simp only [Listener.destroy, h]
  split_ifs <;> (try split) <;> simp


/-- C11 (witness). A second construction on port 19971 after a first one. -/
theorem c11_port_exclusivity_witness :
    (constructOn 19971 (constructOn 19971 processStart).1) =
      ((constructOn 19971 processStart).1,
        .error "SocketServer::SocketServer(): a server listening on port 19971 was already instantiated.".toList) :=
  (c11_port_exclusivity (argsOn 19971) (argsOn 19971) "host".toList "host".toList none none
    pingRegistry pingRegistry webRegistry webRegistry processStart _ _ rfl rfl).2 _ (by decide)

/-- C12 (evaluation at the failing input). A `SocketServer` is constructed on port
19971 and tracks one connection still held by a session; when it is destroyed
and `shutdown` on that connection raises an error, port 19971 is still in
`usedPorts`, and a new construction on port 19971 throws. -/
theorem c12_port_left_registered :
    ∃ ps1 l, constructOn 19971 processStart = (ps1, .ok l) ∧
      (Listener.destroy
          { l with mySockets_ := [.held (.stdException "shutdown: Transport endpoint is not connected".toList)] }
          (.value ()) ps1).usedPorts = [19971] ∧
      (constructOn 19971 (Listener.destroy
          { l with mySockets_ := [.held (.stdException "shutdown: Transport endpoint is not connected".toList)] }
          (.value ()) ps1)).2 =
        .error "SocketServer::SocketServer(): a server listening on port 19971 was already instantiated.".toList :=
  ⟨_, _, rfl, rfl, rfl⟩

/-- C18 (witness). A POST line received by a server without web support: the
page sent and the line logged. -/
theorem c18_web_failure_witness :
    ∃ out, iteration (defaultServer pingRegistry) (postEnv "POST /form HTTP/1.1" []) SessionState.init
        world0 = some out ∧
      out.continues = false ∧
      out.w.log = ⟨["***ERROR*** SocketServer::session(): SocketServer was not configured to accept web requests!".toList], _info_⟩ ∧
      out.w.sent = ["<!DOCTYPE html>\n<html lang=\"en\">\n<meta charset=\"utf-8\">\n<title>ERROR</title>\n<body>\nSocketServer::session(): SocketServer was not configured to accept web requests!</body>\n</html>\n".toList] ∧
      out.w.calls = [] ∧ out.w.webCalls = [] := by
  obtain ⟨out, h1, ⟨h2, h3, ⟨page, h4, -, -, h5⟩, h6⟩, h7⟩ :=
    (c18_web_failure (defaultServer pingRegistry) (postEnv "POST /form HTTP/1.1" [])
      SessionState.init world0 "POST /form HTTP/1.1".toList rfl (by decide) (by decide) rfl).1 rfl
  refine ⟨out, h1, h2, h3, ?_, h6, h7⟩
  rw [h4, h5]
  rfl


/-! ### URL decoding -/

theorem translateHex_hexDigit : ∀ (u : Bool) (v : Fin 16),
    translateHex (charVal (hexDigit u v.val)) = (v.val : Int) := by
  decide


theorem hexChar_hexDigit (c : Char) (u1 u2 : Bool) (hb : c.toNat < 256) :
    hexChar (hexDigit u1 (c.toNat / 16)) (hexDigit u2 (c.toNat % 16)) = c := by
  have h1 := translateHex_hexDigit u1 ⟨c.toNat / 16, by omega⟩
  have h2 := translateHex_hexDigit u2 ⟨c.toNat % 16, by omega⟩
  simp only at h1 h2
  unfold hexChar
  rw [h1, h2]
  have : (((c.toNat / 16 : Nat) : Int) * 16 + ((c.toNat % 16 : Nat) : Int)) % 256 =
      ((c.toNat : Nat) : Int) := by omega
  rw [this, Int.toNat_ofNat, Char.ofNat_toNat]

theorem decodeURLString_plus (rest : Str) :
    decodeURLString ('+' :: rest) = (decodeURLString rest).map (' ' :: ·) := by
  rw [decodeURLString.eq_def]
  simp

theorem decodeURLString_literal (c : Char) (rest : Str) (hp : c ≠ '+') (hq : c ≠ '%') :
    decodeURLString (c :: rest) = (decodeURLString rest).map (c :: ·) := by
  rw [decodeURLString.eq_def]
  simp [hp, hq]

theorem decodeURLString_percent (x y : Char) (rest : Str) :
    decodeURLString ('%' :: x :: y :: rest) = (decodeURLString rest).map (hexChar x y :: ·) := by
  rw [decodeURLString]
  simp

theorem decodeURLString_of_encodes (s e : Str) (h : UrlEncodes s e) :
    decodeURLString e = some s := by
  induction h with
  | nil => rfl
  | space s e _ ih => rw [decodeURLString_plus, ih]; rfl
  | literal c s e hp hq _ ih => rw [decodeURLString_literal c e hp hq, ih]; rfl
  | percent c u1 u2 s e hb _ ih =>
    rw [decodeURLString_percent, ih, hexChar_hexDigit c u1 u2 hb]; rfl

/-- C19. For every byte string `s` and every URL-encoding `e` of it (space as
`+`, bytes other than `+` and `%` possibly as themselves, any byte as `%` and
its two hexadecimal digits in either case), `decodeURLString e` returns `s`. -/
theorem c19_decode_round_trip (s e : Str) (h : UrlEncodes s e) :
    decodeURLString e = some s :=
  decodeURLString_of_encodes s e h

/-- C19 (witness). The encoding `a+%2b%3D` of the string `a +=`. -/
theorem c19_decode_round_trip_witness :
    decodeURLString "a+%2b%3D".toList = some "a +=".toList :=
  c19_decode_round_trip "a +=".toList "a+%2b%3D".toList
    (.literal 'a' _ _ (by decide) (by decide)
      (.space _ _ (.percent '+' false false _ _ (by decide)
        (.percent '=' false true _ _ (by decide) .nil))))


/-! ### The CGI map -/

theorem findCharFrom_hit (pre k rest : Str) (c : Char) (hk : c ∉ k) :
    findCharFrom (pre ++ k ++ c :: rest) c pre.length = some (pre.length + k.length) := by
  unfold findCharFrom
  have hd : (pre ++ k ++ c :: rest).drop pre.length = k ++ c :: rest := by
    rw [List.append_assoc, List.drop_left]
  have hn : k.findIdx? (· == c) = none := by
    rw [List.findIdx?_eq_none_iff]
    intro x hx
    have : x ≠ c := fun h => hk (h ▸ hx)
    simpa using this
  rw [hd, List.indexOf?, List.findIdx?_append, hn]
  simp [Nat.add_comm]

theorem findCharFrom_miss (pre v : Str) (c : Char) (hv : c ∉ v) :
    findCharFrom (pre ++ v) c pre.length = none := by
  unfold findCharFrom
  have hn : v.findIdx? (· == c) = none := by
    rw [List.findIdx?_eq_none_iff]
    intro x hx
    have : x ≠ c := fun h => hv (h ▸ hx)
    simpa using this
  rw [List.drop_left, List.indexOf?, hn]
  rfl

theorem substr_mid (a b c : Str) : substr (a ++ b ++ c) a.length b.length = b := by
  unfold substr
  rw [List.append_assoc, List.drop_left, List.take_left]

theorem parseCGImapLoop_query (enc dec : List (Str × Str)) (h : List.Forall₂ DecodesPair enc dec) :
    ∀ (pre : Str) (m : CGImap) (fuel : Nat), enc.length < fuel →
      parseCGImapLoop (pre ++ cgiQuery enc) fuel pre.length m =
        some (dec.foldl (fun m d => m.assign d.1 d.2) m) := by
  induction h with
  | nil =>
    intro pre m fuel hf
    cases fuel with
    | zero => rfl
    | succ f => simp [parseCGImapLoop, cgiQuery]
  | @cons e d enc1 dec1 hR hrest ih =>
    intro pre m fuel hf
    obtain ⟨ek, ev⟩ := e
    obtain ⟨k, v⟩ := d
    obtain ⟨h1, h2, h3, h4⟩ := hR
    simp only at h1 h2 h3 h4
    cases fuel with
    | zero => exact absurd hf (Nat.not_lt_zero _)
    | succ f =>
      cases hrest with
      | nil =>
        have hq : pre ++ cgiQuery [(ek, ev)] = pre ++ ek ++ '=' :: ev := by
          simp [cgiQuery]
        have hq2 : pre ++ ek ++ '=' :: ev = (pre ++ ek ++ ['=']) ++ ev := by simp
        have hlen : pre.length < (pre ++ ek ++ '=' :: ev).length := by simp
        have heq := findCharFrom_hit pre ek ev '=' h1
        have hamp : findCharFrom (pre ++ ek ++ '=' :: ev) '&' (pre.length + ek.length + 1) = none := by
          have := findCharFrom_miss (pre ++ ek ++ ['=']) ev '&' h2
          rw [← hq2] at this
          simpa using this
        have hname : substr (pre ++ ek ++ '=' :: ev) pre.length (pre.length + ek.length - pre.length)
            = ek := by
          rw [Nat.add_sub_cancel_left]; exact substr_mid pre ek _
        have hval : (pre ++ ek ++ '=' :: ev).drop (pre.length + ek.length + 1) = ev := by
          rw [hq2]
          have : pre.length + ek.length + 1 = (pre ++ ek ++ ['=']).length := by simp; omega
          rw [this, List.drop_left]
        rw [hq, parseCGImapLoop]
        simp only [hlen, if_true, heq, hname, h3, hamp, hval, h4]
        rfl
      | @cons e2 d2 enc2 dec2 hR2 hrest2 =>
        have hq : pre ++ cgiQuery ((ek, ev) :: e2 :: enc2) =
            pre ++ ek ++ '=' :: (ev ++ '&' :: cgiQuery (e2 :: enc2)) := by
          simp [cgiQuery]
        have hq2 : pre ++ ek ++ '=' :: (ev ++ '&' :: cgiQuery (e2 :: enc2)) =
            (pre ++ ek ++ ['=']) ++ ev ++ '&' :: cgiQuery (e2 :: enc2) := by simp
        have hq3 : pre ++ ek ++ '=' :: (ev ++ '&' :: cgiQuery (e2 :: enc2)) =
            (pre ++ ek ++ '=' :: ev ++ ['&']) ++ cgiQuery (e2 :: enc2) := by simp
        have hlen : pre.length <
            (pre ++ ek ++ '=' :: (ev ++ '&' :: cgiQuery (e2 :: enc2))).length := by simp
        have heq := findCharFrom_hit pre ek (ev ++ '&' :: cgiQuery (e2 :: enc2)) '=' h1
        have hamp : findCharFrom (pre ++ ek ++ '=' :: (ev ++ '&' :: cgiQuery (e2 :: enc2))) '&'
            (pre.length + ek.length + 1) = some (pre.length + ek.length + 1 + ev.length) := by
          have := findCharFrom_hit (pre ++ ek ++ ['=']) ev (cgiQuery (e2 :: enc2)) '&' h2
          rw [← hq2] at this
          simpa using this
        have hname : substr (pre ++ ek ++ '=' :: (ev ++ '&' :: cgiQuery (e2 :: enc2))) pre.length
            (pre.length + ek.length - pre.length) = ek := by
          rw [Nat.add_sub_cancel_left]; exact substr_mid pre ek _
        have hval : substr (pre ++ ek ++ '=' :: (ev ++ '&' :: cgiQuery (e2 :: enc2)))
            (pre.length + ek.length + 1)
            (pre.length + ek.length + 1 + ev.length - (pre.length + ek.length + 1)) = ev := by
          rw [Nat.add_sub_cancel_left, hq2]
          have : pre.length + ek.length + 1 = (pre ++ ek ++ ['=']).length := by simp; omega
          rw [this]
          exact substr_mid _ ev _
        have hidx : pre.length + ek.length + 1 + ev.length + 1 =
            (pre ++ ek ++ '=' :: ev ++ ['&']).length := by simp; omega
        have ih2 := ih (pre ++ ek ++ '=' :: ev ++ ['&']) (m.assign k v) f
          (by simp only [List.length_cons] at hf ⊢; omega)
        rw [hq, parseCGImapLoop]
        simp only [hlen, if_true, heq, hname, h3, hamp, hval, h4]
        rw [hidx, hq3, ih2]
        rfl


theorem cgiQuery_length (enc : List (Str × Str)) : enc.length ≤ (cgiQuery enc).length := by
  induction enc with
  | nil => simp
  | cons e rest ih =>
    obtain ⟨k, v⟩ := e
    cases rest with
    | nil => simp [cgiQuery]; omega
    | cons e2 rest2 =>
      simp only [cgiQuery, List.length_append, List.length_cons] at ih ⊢
      omega

theorem assign_of_not_mem (m : CGImap) (k v : Str) (h : k ∉ m.map Prod.fst) :
    m.assign k v = m ++ [(k, v)] := by
  unfold CGImap.assign
  rw [if_neg]
  intro hany
  rw [List.any_eq_true] at hany
  obtain ⟨e, he, hek⟩ := hany
  exact h (List.mem_map.2 ⟨e, he, by simpa using hek⟩)

theorem foldl_assign (dec : List (Str × Str)) :
    ∀ m : CGImap, ((m ++ dec).map Prod.fst).Nodup →
      dec.foldl (fun m d => m.assign d.1 d.2) m = m ++ dec := by
  induction dec with
  | nil => intro m _; simp
  | cons d rest ih =>
    intro m hnd
    have hk : d.1 ∉ m.map Prod.fst := by
      intro hm
      rw [List.map_append, List.map_cons] at hnd
      have := (List.nodup_append.1 hnd).2.2
      exact this hm (List.mem_cons_self _ _)
    rw [List.foldl_cons, assign_of_not_mem m d.1 d.2 hk, ih]
    · simp
    · simpa using hnd

theorem find_of_nodup (dec : CGImap) (hnd : (dec.map Prod.fst).Nodup) (d : Str × Str)
    (hd : d ∈ dec) : CGImap.find dec d.1 = some d.2 := by
  induction dec with
  | nil => cases hd
  | cons x rest ih =>
    rw [List.map_cons, List.nodup_cons] at hnd
    rcases List.mem_cons.1 hd with rfl | hr
    · simp [CGImap.find]
    · have hne : ¬ x.1 = d.1 := by
        intro he
        exact hnd.1 (he ▸ List.mem_map.2 ⟨d, hr, rfl⟩)
      have := ih hnd.2 hr
      simp only [CGImap.find] at this ⊢
      rw [List.find?_cons_of_neg _ (by simpa using hne)]
      exact this

theorem findCharFrom_ge (hay : Str) (c : Char) (from_ p : Nat)
    (h : findCharFrom hay c from_ = some p) : from_ ≤ p := by
  unfold findCharFrom at h
  cases hi : (hay.drop from_).indexOf? c with
  | none => rw [hi] at h; cases h
  | some i =>
    rw [hi] at h
    simp only [Option.map_some', Option.some.injEq] at h
    omega

/-- The fuel of `parseCGImap` suffices: the loop gives the same result for
every fuel above the number of characters from `index` to the end. -/
theorem parseCGImapLoop_fuel (query : Str) : ∀ (fuel index : Nat) (m : CGImap) (fuel2 : Nat),
    query.length < index + fuel → query.length < index + fuel2 →
    parseCGImapLoop query fuel index m = parseCGImapLoop query fuel2 index m := by
  intro fuel
  induction fuel with
  | zero =>
    intro index m fuel2 h1 _
    cases fuel2 with
    | zero => rfl
    | succ f2 =>
      have : ¬ index < query.length := by omega
      simp only [parseCGImapLoop, this, if_false]
  | succ f ih =>
    intro index m fuel2 h1 h2
    cases fuel2 with
    | zero =>
      have : ¬ index < query.length := by omega
      simp only [parseCGImapLoop, this, if_false]
    | succ f2 =>
      rw [parseCGImapLoop, parseCGImapLoop]
      split
      · cases heq : findCharFrom query '=' index with
        | none => rfl
        | some e =>
          simp only
          cases decodeURLString (substr query index (e - index)) with
          | none => rfl
          | some name =>
            simp only
            cases hamp : findCharFrom query '&' (e + 1) with
            | none => rfl
            | some amp =>
              simp only
              cases decodeURLString (substr query (e + 1) (amp - (e + 1))) with
              | none => rfl
              | some v =>
                simp only
                have h3 := findCharFrom_ge _ _ _ _ heq
                have h4 := findCharFrom_ge _ _ _ _ hamp
                exact ih (amp + 1) _ f2 (by omega) (by omega)
      · rfl

/-- C20. For encoded pairs with no `=` in a key and no `&` in a value, whose
keys and values decode and whose decoded keys are pairwise distinct,
`parseCGImap` applied to `k1=v1&...&kn=vn` returns the map of the `n` decoded
pairs, which sends each decoded key to its decoded value. -/
theorem c20_parseCGImap (enc dec : List (Str × Str)) (h : List.Forall₂ DecodesPair enc dec)
    (hnd : (dec.map Prod.fst).Nodup) :
    parseCGImap (cgiQuery enc) = some dec ∧ dec.length = enc.length ∧
      ∀ d ∈ dec, CGImap.find dec d.1 = some d.2 := by
  refine ⟨?_, h.length_eq.symm, fun d hd => find_of_nodup dec hnd d hd⟩
  have := parseCGImapLoop_query enc dec h [] [] ((cgiQuery enc).length + 1)
    (Nat.lt_succ_of_le (cgiQuery_length enc))
  simp only [List.nil_append, List.length_nil] at this
  rw [parseCGImap, this, foldl_assign dec [] (by simpa using hnd)]
  rfl

/-- C20 (witness). The query `a=1&b%3D=&c=x+y`: the second value is empty. -/
theorem c20_parseCGImap_witness :
    parseCGImap "a=1&b%3D=&c=x+y".toList =
      some [("a".toList, "1".toList), ("b=".toList, []), ("c".toList, "x y".toList)] :=
  (c20_parseCGImap
    [("a".toList, "1".toList), ("b%3D".toList, []), ("c".toList, "x+y".toList)]
    [("a".toList, "1".toList), ("b=".toList, []), ("c".toList, "x y".toList)]
    (.cons ⟨by decide, by decide, by decide, by decide⟩
      (.cons ⟨by decide, by decide, by decide, by decide⟩
        (.cons ⟨by decide, by decide, by decide, by decide⟩ .nil)))
    (by decide)).1


/-! ### Reading integers -/

theorem digitChar_facts : ∀ k : Fin 10,
    (Nat.digitChar k.val).isDigit = true ∧ (Nat.digitChar k.val).toNat - 48 = k.val ∧
      isSpace (Nat.digitChar k.val) = false ∧ Nat.digitChar k.val ≠ '-' ∧
      Nat.digitChar k.val ≠ '+' := by
  decide

theorem digitsValue_append (ds : Str) (d : Char) :
    digitsValue (ds ++ [d]) = digitsValue ds * 10 + (d.toNat - 48) := by
  simp [digitsValue, List.foldl_append]

theorem toDigitsCore_digits : ∀ (fuel n : Nat) (acc : Str), n < fuel →
    ∃ ds, (∀ c ∈ ds, c.isDigit = true) ∧ digitsValue ds = n ∧ ds ≠ [] ∧
      Nat.toDigitsCore 10 fuel n acc = ds ++ acc := by
  intro fuel
  induction fuel with
  | zero => intro n acc h; exact absurd h (Nat.not_lt_zero _)
  | succ f ih =>
    intro n acc h
    obtain ⟨hd1, hd2, -, -, -⟩ := digitChar_facts ⟨n % 10, Nat.mod_lt _ (by decide)⟩
    simp only at hd1 hd2
    rw [Nat.toDigitsCore]
    by_cases h0 : n / 10 = 0
    · simp only [h0, if_true]
      refine ⟨[Nat.digitChar (n % 10)], ?_, ?_, by simp, rfl⟩
      · intro c hc
        rw [List.mem_singleton] at hc
        rw [hc]; exact hd1
      · have : digitsValue [Nat.digitChar (n % 10)] = (Nat.digitChar (n % 10)).toNat - 48 := by
          simp [digitsValue]
        rw [this, hd2]
        omega
    · simp only [h0, if_false]
      obtain ⟨ds, h3, h4, -, h1⟩ := ih (n / 10) (Nat.digitChar (n % 10) :: acc) (by omega)
      refine ⟨ds ++ [Nat.digitChar (n % 10)], ?_, ?_, by simp, by rw [h1]; simp⟩
      · intro c hc
        rcases List.mem_append.1 hc with hc1 | hc2
        · exact h3 c hc1
        · rw [List.mem_singleton] at hc2
          rw [hc2]; exact hd1
      · rw [digitsValue_append, h4, hd2]
        omega

theorem decimal_spec (n : Nat) :
    decimal n ≠ [] ∧ (∀ c ∈ decimal n, c.isDigit = true) ∧ digitsValue (decimal n) = n := by
  obtain ⟨ds, h3, h4, h2, h1⟩ := toDigitsCore_digits (n + 1) n [] (Nat.lt_succ_self n)
  have : decimal n = ds := by
    simp only [decimal, Nat.toDigits, h1, List.append_nil]
  rw [this]
  exact ⟨h2, h3, h4⟩

theorem isDigit_facts (c : Char) (h : c.isDigit = true) :
    isSpace c = false ∧ c ≠ '-' ∧ c ≠ '+' := by
  refine ⟨?_, ?_, ?_⟩
  · cases hs : isSpace c with
    | false => rfl
    | true =>
      simp only [isSpace, Bool.or_eq_true, decide_eq_true_eq] at hs
      rcases hs with ((((h1 | h1) | h1) | h1) | h1) | h1 <;> (subst h1; revert h; decide)
  · rintro rfl; revert h; decide
  · rintro rfl; revert h; decide

theorem dropWhile_space_append (ws rest : Str) (hws : ∀ c ∈ ws, isSpace c = true)
    (hrest : ∀ c ∈ rest.head?, isSpace c = false) :
    (ws ++ rest).dropWhile isSpace = rest := by
  induction ws with
  | nil =>
    cases rest with
    | nil => rfl
    | cons c cs =>
      have := hrest c (by simp)
      simp [List.dropWhile, this]
  | cons w ws ih =>
    have hw := hws w (List.mem_cons_self _ _)
    simp only [List.cons_append, List.dropWhile, hw]
    exact ih (fun c hc => hws c (List.mem_cons_of_mem _ hc))

theorem takeWhile_digit_append (ds rest : Str) (hds : ∀ c ∈ ds, c.isDigit = true)
    (hrest : ∀ c ∈ rest.head?, c.isDigit = false) :
    (ds ++ rest).takeWhile Char.isDigit = ds ∧ (ds ++ rest).dropWhile Char.isDigit = rest := by
  induction ds with
  | nil =>
    cases rest with
    | nil => exact ⟨rfl, rfl⟩
    | cons c cs =>
      have := hrest c (by simp)
      simp [List.takeWhile, List.dropWhile, this]
  | cons d ds ih =>
    have hd := hds d (List.mem_cons_self _ _)
    obtain ⟨i1, i2⟩ := ih (fun c hc => hds c (List.mem_cons_of_mem _ hc))
    simp only [List.cons_append, List.takeWhile, List.dropWhile, hd]
    exact ⟨congrArg (d :: ·) i1, i2⟩


theorem readInt_decimalInt (ws rest : Str) (v : Int) (hws : ∀ c ∈ ws, isSpace c = true)
    (hv : -2147483648 ≤ v ∧ v ≤ 2147483647)
    (hrest : ∀ c ∈ rest.head?, c.isDigit = false) :
    readInt (ws ++ decimalInt v ++ rest) = some (v, rest) := by
  obtain ⟨hne, hdig, hval⟩ := decimal_spec v.natAbs
  obtain ⟨d, ds, hdd⟩ := List.exists_cons_of_ne_nil hne
  have hd : d.isDigit = true := hdig d (by rw [hdd]; exact List.mem_cons_self _ _)
  obtain ⟨hd1, hd2, hd3⟩ := isDigit_facts d hd
  obtain ⟨ht, hdr⟩ := takeWhile_digit_append (decimal v.natAbs) rest hdig hrest
  by_cases hneg : v < 0
  · have hdrop : (ws ++ decimalInt v ++ rest).dropWhile isSpace =
        '-' :: (decimal v.natAbs ++ rest) := by
      rw [List.append_assoc]
      have : decimalInt v ++ rest = '-' :: (decimal v.natAbs ++ rest) := by
        simp [decimalInt, hneg]
      rw [this]
      apply dropWhile_space_append _ _ hws
      simp [isSpace]
    simp only [readInt, hdrop, if_true, ht, hdr, hne, if_false, hval]
    have hvv : -((v.natAbs : Nat) : Int) = v := by omega
    rw [hvv]
    simp [hv.1, hv.2]
  · have hdrop : (ws ++ decimalInt v ++ rest).dropWhile isSpace = d :: (ds ++ rest) := by
      rw [List.append_assoc]
      have : decimalInt v ++ rest = d :: (ds ++ rest) := by simp [decimalInt, hneg, hdd]
      rw [this]
      apply dropWhile_space_append _ _ hws
      simp [hd1]
    have hback : d :: (ds ++ rest) = decimal v.natAbs ++ rest := by rw [hdd]; rfl
    simp only [readInt, hdrop, hd2, hd3, if_false]
    rw [hback]
    simp only [ht, hdr, hne, if_false, hval]
    have hvv : ((v.natAbs : Nat) : Int) = v := by omega
    rw [hvv]
    simp [hv.1, hv.2]

theorem readInt_space (ws : Str) (hws : ∀ c ∈ ws, isSpace c = true) : readInt ws = none := by
  have : ws.dropWhile isSpace = [] := by
    have := dropWhile_space_append ws [] hws (by simp)
    simpa using this
  simp [readInt, this]


theorem not_isDigit_of_isSpace (c : Char) (h : isSpace c = true) : c.isDigit = false := by
  cases hd : c.isDigit with
  | false => rfl
  | true => rw [(isDigit_facts c hd).1] at h; cases h

theorem intsPayload_head (items : List (Str × Int)) (trailing : Str)
    (hitems : ∀ x ∈ items, x.1 ≠ [] ∧ ∀ c ∈ x.1, isSpace c = true)
    (htr : ∀ c ∈ trailing, isSpace c = true) :
    ∀ c ∈ (intsPayload items trailing).head?, c.isDigit = false := by
  intro c hc
  apply not_isDigit_of_isSpace
  cases items with
  | nil =>
    simp only [intsPayload] at hc
    exact htr c (List.mem_of_mem_head? hc)
  | cons x rest =>
    obtain ⟨ws, v⟩ := x
    obtain ⟨hne, hsp⟩ := hitems (ws, v) (List.mem_cons_self _ _)
    simp only at hne hsp
    obtain ⟨w, ws2, hw⟩ := List.exists_cons_of_ne_nil hne
    subst hw
    simp only [intsPayload, List.cons_append, List.head?_cons, Option.mem_def,
      Option.some.injEq] at hc
    subst hc
    exact hsp w (List.mem_cons_self _ _)

theorem readValues_intsPayload (items : List (Str × Int)) (trailing : Str)
    (htr : ∀ c ∈ trailing, isSpace c = true) :
    ∀ fuel : Nat, items.length < fuel →
      (∀ x ∈ items, (∀ c ∈ x.1, isSpace c = true) ∧ -2147483648 ≤ x.2 ∧ x.2 ≤ 2147483647) →
      (∀ x ∈ items.tail, x.1 ≠ []) →
      readValues readInt fuel (intsPayload items trailing) = some (items.map (·.2)) := by
  induction items with
  | nil =>
    intro fuel hf _ _
    cases fuel with
    | zero => exact absurd hf (Nat.not_lt_zero _)
    | succ f => simp [readValues, intsPayload, readInt_space trailing htr]
  | cons x rest ih =>
    intro fuel hf hsp hsep
    obtain ⟨ws, v⟩ := x
    cases fuel with
    | zero => exact absurd hf (Nat.not_lt_zero _)
    | succ f =>
      obtain ⟨hws, hv⟩ := hsp (ws, v) (List.mem_cons_self _ _)
      simp only at hws hv
      simp only [List.tail_cons] at hsep
      have hrestsp : ∀ x ∈ rest,
          (∀ c ∈ x.1, isSpace c = true) ∧ -2147483648 ≤ x.2 ∧ x.2 ≤ 2147483647 :=
        fun y hy => hsp y (List.mem_cons_of_mem _ hy)
      have hhead := intsPayload_head rest trailing
        (fun y hy => ⟨hsep y hy, (hrestsp y hy).1⟩) htr
      have hread := readInt_decimalInt ws (intsPayload rest trailing) v hws hv hhead
      have hih := ih f (by simp only [List.length_cons] at hf; omega) hrestsp
        (fun y hy => hsep y (List.mem_of_mem_tail hy))
      simp only [intsPayload, readValues, hread, hih, List.map_cons, Option.map_some']

theorem decimalInt_ne_nil (v : Int) : decimalInt v ≠ [] := by
  unfold decimalInt
  split
  · simp
  · exact (decimal_spec v.natAbs).1

theorem intsPayload_length (items : List (Str × Int)) (trailing : Str) :
    items.length ≤ (intsPayload items trailing).length := by
  induction items with
  | nil => simp
  | cons x rest ih =>
    obtain ⟨ws, v⟩ := x
    have := List.length_pos.2 (decimalInt_ne_nil v)
    simp only [intsPayload, List.length_append, List.length_cons]
    omega

theorem parseValueVector_intsPayload (venv : VectorEnv) (items : List (Str × Int))
    (trailing : Str) (n : Nat)
    (hsp : ∀ x ∈ items, (∀ c ∈ x.1, isSpace c = true) ∧ -2147483648 ≤ x.2 ∧ x.2 ≤ 2147483647)
    (hsep : ∀ x ∈ items.tail, x.1 ≠ []) (htr : ∀ c ∈ trailing, isSpace c = true)
    (h64 : n < 2 ^ 64) (hres : 0 < n → n ≤ venv.max_size ∧ venv.allocates n = true) :
    parseValueVector venv readInt (intsPayload items trailing) n =
      some (if 0 < n ∧ items.length ≠ n then
          .error ("SocketClient::retrieveValueVector(), expected ".toList ++ decimal n ++
            " values but instead retrieved ".toList ++ decimal items.length)
        else .ok (items.map (·.2))) := by
  have h := readValues_intsPayload items trailing htr ((intsPayload items trailing).length + 1)
    (Nat.lt_succ_of_le (intsPayload_length items trailing)) hsp hsep
  have hr : (if 0 < n then reserve venv n else none) = none := by
    by_cases hn : 0 < n
    · obtain ⟨h1, h2⟩ := hres hn
      simp [reserve, hn, h2, Nat.not_lt.2 h1]
    · simp [hn]
  simp only [parseValueVector, Nat.mod_eq_of_lt h64, hr, h, Option.map_some', List.length_map]

/-- C15 (amended). For a payload that holds `k` integers, each within the
range of `int`, in decimal, separated by white space (with optional white space
before the first and after the last), `retrieveValueVector<int>` with
`expectedNumValues = n` (a `std::size_t`), when for `n > 0` the vector reserves
storage for `n` elements (`n` is at most `max_size()` and the allocation
succeeds): when `n > 0` it raises an error if and only if `k` is not `n`, with
the decimal representations of `n` and of `k` in the message; otherwise (also
for `n = 0`) it returns the `k` values in order. -/
theorem c15_count_validation (cl : SocketClient) (venv : VectorEnv) (peer : Str → Str)
    (command argument : Str) (items : List (Str × Int)) (trailing : Str) (n : Nat)
    (hsp : ∀ x ∈ items, (∀ c ∈ x.1, isSpace c = true) ∧ -2147483648 ≤ x.2 ∧ x.2 ≤ 2147483647)
    (hsep : ∀ x ∈ items.tail, x.1 ≠ []) (htr : ∀ c ∈ trailing, isSpace c = true)
    (h64 : n < 2 ^ 64) (hres : 0 < n → n ≤ venv.max_size ∧ venv.allocates n = true)
    (hrecv : cl.receiveStringTag (peer (cl.sendCommandAndString command argument)) command =
      .ok (intsPayload items trailing)) :
    cl.retrieveValueVector venv peer readInt command argument n =
      some (if 0 < n ∧ items.length ≠ n then
          .error ("SocketClient::retrieveValueVector(), expected ".toList ++ decimal n ++
            " values but instead retrieved ".toList ++ decimal items.length)
        else .ok (items.map (·.2))) := by
  simp only [SocketClient.retrieveValueVector, hrecv]
  exact parseValueVector_intsPayload venv items trailing n hsp hsep htr h64 hres

/-- C15 (witness). Three values are expected and the reply `Count__$__1 2`
carries two: the error names 3 and 2. -/
theorem c15_count_validation_witness :
    defaultClient.retrieveValueVector vectorEnv (fun _ => "Count__$__1 2\n".toList) readInt
        "Count".toList "all".toList 3 =
      some (.error
        "SocketClient::retrieveValueVector(), expected 3 values but instead retrieved 2".toList) :=
  c15_count_validation defaultClient vectorEnv (fun _ => "Count__$__1 2\n".toList) "Count".toList
    "all".toList [([], 1), (" ".toList, 2)] [] 3 (by decide) (by decide) (by decide) (by decide)
    (fun _ => ⟨by decide, rfl⟩) rfl

/-- C15 (counterexample). The reply `Count__$__1 99999999999` carries two
integers separated by white space, and two values are expected: an error is
raised although `k = n = 2`, because the second integer is outside the range of
`int` and ends the reading after one value (with `n = 0` the one value `1` is
returned, not the two). And with `2 ^ 62` values expected, more than the vector
can hold, the reply `Count__$__1 2` raises the error of `reserve`, whose message
holds neither count. -/
theorem c15_counterexample :
    intsPayload [([], 1), (" ".toList, 99999999999)] [] = "1 99999999999".toList ∧
    defaultClient.retrieveValueVector vectorEnv (fun _ => "Count__$__1 99999999999\n".toList)
        readInt "Count".toList "all".toList 2 =
      some (.error
        "SocketClient::retrieveValueVector(), expected 2 values but instead retrieved 1".toList) ∧
    defaultClient.retrieveValueVector vectorEnv (fun _ => "Count__$__1 99999999999\n".toList)
        readInt "Count".toList "all".toList 0 = some (.ok [1]) ∧
    defaultClient.retrieveValueVector vectorEnv (fun _ => "Count__$__1 2\n".toList)
        readInt "Count".toList "all".toList (2 ^ 62) = some (.error "vector::reserve".toList) :=
  ⟨rfl, rfl, rfl, rfl⟩

/-! ### The session: a line that is neither structured nor a POST -/

/-- C23. In every state, an iteration that reads a line holding neither the
command separator nor `POST /` sends nothing, adds one error to the log, leaves
the session variables (step counter, challenge file name and secret), the
files and the handler calls unchanged, and the loop goes on with the next
line. -/
theorem c23_unrecognised_line (srv : SocketServer) (env : Env) (st : SessionState) (w : World)
    (line : Str) (rest : List Env) (hl : env.listening = true) (hr : env.read = .data line)
    (hsep : find line srv.commandFieldSeparator_ = none)
    (hpost : find line "POST /".toList = none) :
    ∃ out : IterOut, iteration srv env st w = some out ∧
      out.st = st ∧ out.w.sent = w.sent ∧ out.w.files = w.files ∧ out.w.calls = w.calls ∧
      out.w.webCalls = w.webCalls ∧
      out.w.log = w.log.errorToLog ("SocketServer::session(): ".toList ++
        ("Neither the field separator \"".toList ++ srv.commandFieldSeparator_ ++
          "\", nor \"POST /\", were found within: \"".toList ++ line ++ "\"".toList)) ∧
      out.w.log.entries.length = w.log.entries.length + 1 ∧
      out.continues = true ∧
      sessionLoop srv (env :: rest) st w = sessionLoop srv rest out.st out.w := by
  have hi : iteration srv env st w = some ⟨st, { w with log := (w.log.errorToLog
      ("SocketServer::session(): ".toList ++
        ("Neither the field separator \"".toList ++ srv.commandFieldSeparator_ ++
          "\", nor \"POST /\", were found within: \"".toList ++ line ++ "\"".toList))) }, true⟩ := by
    simp only [iteration, tryBlock, hr, hsep, hpost, Option.isSome_none, Bool.false_eq_true,
      if_false, Option.some_bind, catchBlock]
    simp
  refine ⟨_, hi, rfl, rfl, rfl, rfl, rfl, rfl, ?_, rfl, ?_⟩
  · show (w.log.errorToLog _).entries.length = _
    rw [errorToLog_entries]
    simp
  · exact sessionLoop_cons srv env rest st _ w _ hl hi

/-- C23 (witness). The line `hello` reaches a session that has an outstanding
challenge (step 1 taken, file `tmp/auth_abcdefghij` written). -/
theorem c23_unrecognised_line_witness :
    ∃ out : IterOut,
      iteration (defaultServer pingRegistry) (lineEnv "hello" "" "")
        ⟨"tmp/auth_abcdefghij".toList, secretA.toList, 1⟩
        (world0.writeFile "tmp/auth_abcdefghij".toList secretA.toList) = some out ∧
      out.st = ⟨"tmp/auth_abcdefghij".toList, secretA.toList, 1⟩ ∧
      out.w.sent = [] ∧
      out.w.files = (world0.writeFile "tmp/auth_abcdefghij".toList secretA.toList).files ∧
      out.w.calls = [] ∧ out.w.webCalls = [] ∧
      out.w.log = (world0.writeFile "tmp/auth_abcdefghij".toList secretA.toList).log.errorToLog
        ("SocketServer::session(): ".toList ++
          ("Neither the field separator \"".toList ++ "__+__".toList ++
            "\", nor \"POST /\", were found within: \"".toList ++ "hello".toList ++ "\"".toList)) ∧
      out.w.log.entries.length = 0 + 1 ∧
      out.continues = true ∧
      sessionLoop (defaultServer pingRegistry) (lineEnv "hello" "" "" :: [eofEnv])
          ⟨"tmp/auth_abcdefghij".toList, secretA.toList, 1⟩
          (world0.writeFile "tmp/auth_abcdefghij".toList secretA.toList) =
        sessionLoop (defaultServer pingRegistry) [eofEnv] out.st out.w :=
  c23_unrecognised_line (defaultServer pingRegistry) (lineEnv "hello" "" "")
    ⟨"tmp/auth_abcdefghij".toList, secretA.toList, 1⟩
    (world0.writeFile "tmp/auth_abcdefghij".toList secretA.toList) "hello".toList [eofEnv]
    rfl rfl (by decide) (by decide)

/-! ### The registry: frame property -/

/-- C29. `Register(k, f)`, whatever it returns, leaves the dispatch of every
other key `k2` unchanged (the same handler is invoked, or the same
"not registered" error is raised), and every entry that was registered, that
of `k` included, is still registered with the same handler. -/
theorem c29_register_frame {A R : Type} (reg : FunctionRegistry A R) (k k2 : Str)
    (f : A → Outcome R) (args : A) (h : k2 ≠ k) :
    (reg.Register k f).1.lookup k2 = reg.lookup k2 ∧
    (reg.Register k f).1.call k2 args = reg.call k2 args ∧
    (∀ (key : Str) (g : A → Outcome R), reg.lookup key = some g →
      (reg.Register k f).1.lookup key = some g) := by
  have hl : (reg.Register k f).1.lookup k2 = reg.lookup k2 := by
    rw [FunctionRegistry.lookup_Register, if_neg (Ne.symm h)]
  refine ⟨hl, ?_, ?_⟩
  · simp only [FunctionRegistry.call, hl]
  · intro key g hg
    rw [FunctionRegistry.lookup_Register]
    by_cases hk : k = key
    · subst hk; simp [hg]
    · simp [hk, hg]

/-- C29 (witness). Registering `Echo`, and registering `Ping` again, in the
registry that holds `Ping`: the dispatch of `Ping` and of the absent `Nope` is
unchanged. -/
theorem c29_register_frame_witness :
    ((pingRegistry.Register "Echo".toList other).1.lookup "Ping".toList =
        pingRegistry.lookup "Ping".toList ∧
      (pingRegistry.Register "Echo".toList other).1.call "Ping".toList "hello".toList =
        pingRegistry.call "Ping".toList "hello".toList ∧
      (∀ (key : Str) (g : Str → Outcome Str), pingRegistry.lookup key = some g →
        (pingRegistry.Register "Echo".toList other).1.lookup key = some g)) ∧
    (pingRegistry.Register "Ping".toList other).1.call "Nope".toList "hello".toList =
      ⟨false, .stdException (FunctionRegistry.notRegistered "Nope".toList)⟩ ∧
    (pingRegistry.Register "Ping".toList other).1.call "Ping".toList "hello".toList =
      ⟨true, .value "hello".toList⟩ :=
  ⟨c29_register_frame pingRegistry "Echo".toList "Ping".toList other "hello".toList (by decide),
    rfl, rfl⟩

/-! ### Reading integers until the first failure -/

theorem dropWhile_length_le {α : Type} (p : α → Bool) (l : List α) :
    (l.dropWhile p).length ≤ l.length := by
  induction l with
  | nil => simp
  | cons a l ih =>
    rw [List.dropWhile_cons]
    split_ifs
    · simp; omega
    · simp

theorem dropWhile_length_lt {α : Type} (p : α → Bool) (l : List α) (h : l.takeWhile p ≠ []) :
    (l.dropWhile p).length < l.length := by
  cases l with
  | nil => simp at h
  | cons a l =>
    rw [List.takeWhile_cons] at h
    rw [List.dropWhile_cons]
    split_ifs at h ⊢ with hp
    · have := dropWhile_length_le p l
      simp; omega
    · simp at h

/-- A successful extraction of an integer takes at least one character. -/
theorem readInt_shorter (s rest : Str) (v : Int) (h : readInt s = some (v, rest)) :
    rest.length < s.length := by
  unfold readInt at h
  simp only at h
  split_ifs at h with h1 h2 h3
  all_goals
    simp only [Option.some.injEq, Prod.mk.injEq] at h
    obtain ⟨-, hrest⟩ := h
    rw [← hrest]
    have hlt := dropWhile_length_lt Char.isDigit _ h1
    refine lt_of_lt_of_le hlt ?_
    have hle := dropWhile_length_le isSpace s
    cases hs : s.dropWhile isSpace with
    | nil => simp
    | cons c r =>
      rw [hs] at hle
      simp only
      split_ifs <;> simp at hle ⊢ <;> omega

/-- With more extractions allowed than the text has characters, the loop of
`retrieveValueVector<int>` ends, with the integers read up to the first
failure. -/
theorem readValues_readInt (fuel : Nat) : ∀ s : Str, s.length < fuel →
    ∃ vs, readValues readInt fuel s = some vs ∧ ReadsUntilFailure s vs := by
  induction fuel with
  | zero => intro s h; omega
  | succ fuel ih =>
    intro s h
    cases hr : readInt s with
    | none => exact ⟨[], by simp [readValues, hr], .stop s hr⟩
    | some p =>
      obtain ⟨v, rest⟩ := p
      have hlt := readInt_shorter s rest v hr
      obtain ⟨vs, hvs, hR⟩ := ih rest (by omega)
      exact ⟨v :: vs, by simp [readValues, hr, hvs], .step s rest v vs hr hR⟩

/-- C30. With `expectedNumValues = 0`, for every payload received (a reply
with the expected tag and without `Error:`), `retrieveValueVector<int>` returns
normally: its result is the list of the integers read from the start of the
payload up to the first point at which an integer cannot be read; what follows
that point is ignored. -/
theorem c30_no_parse_error (cl : SocketClient) (venv : VectorEnv) (peer : Str → Str)
    (command argument payload : Str)
    (hrecv : cl.receiveStringTag (peer (cl.sendCommandAndString command argument)) command =
      .ok payload) :
    ∃ values, cl.retrieveValueVector venv peer readInt command argument 0 = some (.ok values) ∧
      ReadsUntilFailure payload values := by
  obtain ⟨vs, hvs, hR⟩ := readValues_readInt (payload.length + 1) payload (Nat.lt_succ_self _)
  refine ⟨vs, ?_, hR⟩
  simp [SocketClient.retrieveValueVector, hrecv, parseValueVector, hvs]

/-- C30 (witness). The payload `1 2 x 3` gives `[1, 2]`, and the payload `none`,
which holds no integer, gives the empty list. -/
theorem c30_no_parse_error_witness :
    (∃ values, defaultClient.retrieveValueVector vectorEnv
        (fun _ => "Count__$__1 2 x 3\n".toList) readInt
        "Count".toList "all".toList 0 = some (.ok values) ∧
      ReadsUntilFailure "1 2 x 3".toList values) ∧
    defaultClient.retrieveValueVector vectorEnv (fun _ => "Count__$__1 2 x 3\n".toList) readInt
        "Count".toList "all".toList 0 = some (.ok [1, 2]) ∧
    defaultClient.retrieveValueVector vectorEnv (fun _ => "Count__$__none\n".toList) readInt
        "Count".toList "all".toList 0 = some (.ok []) :=
  ⟨c30_no_parse_error defaultClient vectorEnv (fun _ => "Count__$__1 2 x 3\n".toList)
    "Count".toList
    "all".toList "1 2 x 3".toList rfl, rfl, rfl⟩

/-! ### Construction that throws, and the port as a `short` -/

/-- C26 (evaluation at the failing input). A construction on port 8080 whose
header and footer file cannot be opened throws `Cannot open missing.html`, and
one whose file lacks the marker throws the bad-format error; in both cases
port 8080 is in `usedPorts` afterwards, although no `SocketServer` exists, and
a following construction on port 8080 with the default arguments throws
`already instantiated`. -/
theorem c26_port_kept_by_failed_construction :
    SocketServer.construct (argsWeb 8080 "missing.html") "host".toList none pingRegistry
        webRegistry processStart =
      (⟨[8080], ⟨["SocketServer instantiated with port 8080".toList], _info_⟩, true⟩,
        .error "Cannot open missing.html".toList) ∧
    SocketServer.construct (argsWeb 8080 "page.html") "host".toList (some "<html></html>".toList)
        pingRegistry webRegistry processStart =
      (⟨[8080], ⟨["SocketServer instantiated with port 8080".toList], _info_⟩, true⟩,
        .error ("SocketServer::SocketServer(): bad format in the HTML header/footer file, ".toList ++
          "page.html".toList)) ∧
    processStart.usedPorts = [] ∧
    constructOn 8080 ⟨[8080], ⟨["SocketServer instantiated with port 8080".toList], _info_⟩, true⟩ =
      (⟨[8080], ⟨["SocketServer instantiated with port 8080".toList], _info_⟩, true⟩,
        .error "SocketServer::SocketServer(): a server listening on port 8080 was already instantiated.".toList) :=
  ⟨rfl, rfl, rfl, rfl⟩

/-- A constructed `SocketServer` holds the port it was given and its decimal
representation; the log line of the construction is recorded when the log
level is `_info_` or lower, and nothing is logged when it is higher. -/
theorem construct_ok_port (args : ServerArgs) (hostName : Str) (htmlFile : Option Str)
    (commands : FunctionRegistry Str Str) (webCommands : FunctionRegistry CGImap Str)
    (ps ps1 : ProcessState) (l : Listener)
    (h : SocketServer.construct args hostName htmlFile commands webCommands ps = (ps1, .ok l)) :
    l.port_ = args.port ∧ l.portString_ = decimalInt args.port ∧
    (ps.log.logLevel_ ≤ _info_ →
      ("SocketServer instantiated with port ".toList ++ decimalInt args.port) ∈
        ps1.log.entries) ∧
    (_info_ < ps.log.logLevel_ → ps1.log = ps.log) := by
  unfold SocketServer.construct at h
  simp only at h
  by_cases hm : args.port ∈ ps.usedPorts
  · simp only [hm, if_true, Prod.mk.injEq, reduceCtorEq, and_false] at h
  · simp only [hm, if_false] at h
    split at h
    · cases htmlFile with
      | none => simp only [Prod.mk.injEq, reduceCtorEq, and_false] at h
      | some content =>
        simp only at h
        cases hfc : find content "__HFSEPARATOR__".toList with
        | none => simp only [hfc, Prod.mk.injEq, reduceCtorEq, and_false] at h
        | some p =>
          simp only [hfc, Prod.mk.injEq, Except.ok.injEq] at h
          obtain ⟨h1, h2⟩ := h
          subst h2; subst h1
          refine ⟨rfl, rfl, fun hle => ?_, fun hlt => ?_⟩
          · have hn : ¬ _info_ < ps.log.logLevel_ := not_lt.2 hle
            split_ifs <;> simp [Logger.addToLog, hn]
          · split_ifs <;> simp [Logger.addToLog, hlt]
    · simp only [Prod.mk.injEq, Except.ok.injEq] at h
      obtain ⟨h1, h2⟩ := h
      subst h2; subst h1
      refine ⟨rfl, rfl, fun hle => ?_, fun hlt => ?_⟩
      · have hn : ¬ _info_ < ps.log.logLevel_ := not_lt.2 hle
        split_ifs <;> simp [Logger.addToLog, hn]
      · split_ifs <;> simp [Logger.addToLog, hlt]

theorem toShort_of_range (p : Int) (hlo : -32768 ≤ p) (hhi : p ≤ 32767) : toShort p = p := by
  unfold toShort
  omega

/-- C27 (amended). For every port number `p` with `1 ≤ p ≤ 32767`, the range a
`short` holds, a `SocketServer` constructed with it keeps `p` itself: `itsPort()`
returns `p`, `portString_` is the decimal representation of `p` (digits only),
the log line of the construction ends in it when the log level is `_info_` or
lower (with a higher log level the construction logs nothing), and the error
thrown by a second construction on the port names it. -/
theorem c27_port_string (p : Int) (args : ServerArgs) (hostName : Str) (htmlFile : Option Str)
    (commands : FunctionRegistry Str Str) (webCommands : FunctionRegistry CGImap Str)
    (ps ps1 : ProcessState) (l : Listener) (hlo : 1 ≤ p) (hhi : p ≤ 32767)
    (hp : args.port = toShort p)
    (h : SocketServer.construct args hostName htmlFile commands webCommands ps = (ps1, .ok l)) :
    l.itsPort = p ∧ l.portString_ = decimalInt p ∧ decimalInt p = decimal p.toNat ∧
    (ps.log.logLevel_ ≤ _info_ →
      ("SocketServer instantiated with port ".toList ++ decimal p.toNat) ∈ ps1.log.entries) ∧
    (_info_ < ps.log.logLevel_ → ps1.log = ps.log) ∧
    SocketServer.construct args hostName htmlFile commands webCommands ps1 =
      (ps1, .error ("SocketServer::SocketServer(): a server listening on port ".toList ++
        decimal p.toNat ++ " was already instantiated.".toList)) := by
  have hs : args.port = p := by rw [hp]; exact toShort_of_range p (by omega) hhi
  obtain ⟨h1, h2, h3, h4⟩ :=
    construct_ok_port args hostName htmlFile commands webCommands ps ps1 l h
  have hd : decimalInt p = decimal p.toNat := by
    have hn : ¬ p < 0 := by omega
    have ht : p.natAbs = p.toNat := by omega
    simp only [decimalInt, hn, if_false, ht]
  have hmem := construct_ok_mem args hostName htmlFile commands webCommands ps ps1 l h
  have hsec := construct_registered args hostName htmlFile commands webCommands ps1 hmem
  rw [hs] at h1 h2 h3 hsec
  rw [hd] at h3 hsec
  exact ⟨h1, h2, hd, h3, h4, hsec⟩

/-- C27 (witness). Port 19971, in a process whose log level is `_info_`. -/
theorem c27_port_string_witness :
    ∃ ps1 l, constructOn 19971 processStart = (ps1, .ok l) ∧
      l.itsPort = 19971 ∧ l.portString_ = "19971".toList ∧
      decimalInt 19971 = decimal (19971 : Int).toNat ∧
      "SocketServer instantiated with port 19971".toList ∈ ps1.log.entries ∧
      constructOn 19971 ps1 =
        (ps1, .error "SocketServer::SocketServer(): a server listening on port 19971 was already instantiated.".toList) := by
  obtain ⟨ps1, l, hc⟩ : ∃ ps1 l, constructOn 19971 processStart = (ps1, .ok l) := ⟨_, _, rfl⟩
  obtain ⟨h1, h2, h3, h4, -, h6⟩ :=
    c27_port_string 19971 (argsOn 19971) "host".toList none pingRegistry webRegistry
      processStart ps1 l (by decide) (by decide) rfl hc
  exact ⟨ps1, l, hc, h1, h2, h3, h4 (by decide), h6⟩

/-- C27 (counterexample). The port number 50000 does not fit a `short`: the
constructor receives -15536, `itsPort()` returns -15536 and the port string is
`-15536`, not `50000`. -/
theorem c27_counterexample :
    toShort 50000 = -15536 ∧
    ∃ ps1 l, constructOn (toShort 50000) processStart = (ps1, .ok l) ∧
      l.itsPort = -15536 ∧ l.portString_ = "-15536".toList ∧
      l.itsPort ≠ 50000 ∧ l.portString_ ≠ decimalInt 50000 :=
  ⟨by decide, _, _, rfl, rfl, rfl, by decide, by decide⟩

/-! ### URL decoding: the positions read -/

theorem charAt_of_drop (s : Str) (i : Nat) (c : Char) (rest : Str) (h : s.drop i = c :: rest) :
    charAt s i = some c ∧ i < s.length ∧ s.drop (i + 1) = rest := by
  have hlt : i < s.length := by
    by_contra hge
    rw [List.drop_eq_nil_of_le (by omega)] at h
    cases h
  have hd : s.drop (i + 1) = rest := by
    have := List.drop_drop 1 i s
    rw [← this, h]; rfl
  refine ⟨?_, hlt, hd⟩
  have hne : i ≠ s.length := by omega
  simp only [charAt, hne, if_false]
  rw [List.get?_eq_getElem?, ← List.head?_drop, h]; rfl

theorem charAt_of_drop_nil (s : Str) (i : Nat) (hi : i ≤ s.length) (h : s.drop i = []) :
    charAt s i = some (Char.ofNat 0) ∧ charAt s (i + 1) = none ∧ i = s.length := by
  have hge : s.length ≤ i := List.drop_eq_nil_iff.mp h
  have he : i = s.length := by omega
  refine ⟨by simp [charAt, he], ?_, he⟩
  have hne : i + 1 ≠ s.length := by omega
  simp only [charAt, hne, if_false]
  exact List.get?_eq_none.mpr (by omega)

/-- The loop over the indices computes what `decodeURLString` of the embedding
computes on the text from index `i` on. -/
theorem decodeURLLoop_drop (s : Str) : ∀ (fuel i : Nat) (result : Str), i ≤ s.length →
    s.length - i < fuel →
    decodeURLLoop s fuel i result = (decodeURLString (s.drop i)).map (result ++ ·) := by
  intro fuel
  induction fuel with
  | zero => intro i result _ h; omega
  | succ fuel ih =>
    intro i result hi hf
    cases hd : s.drop i with
    | nil =>
      obtain ⟨-, -, he⟩ := charAt_of_drop_nil s i hi hd
      have : ¬ i < s.length := by omega
      simp [decodeURLLoop, this, decodeURLString]
    | cons c rest =>
      obtain ⟨hc, hlt, hrest⟩ := charAt_of_drop s i c rest hd
      rw [decodeURLLoop, if_pos hlt, hc]
      simp only
      by_cases hplus : c = '+'
      · subst hplus
        rw [if_pos rfl, ih (i + 1) _ (by omega) (by omega), hrest, decodeURLString_plus]
        cases decodeURLString rest <;> simp
      · rw [if_neg hplus]
        by_cases hpct : c = '%'
        · subst hpct
          rw [if_pos rfl]
          cases hr : rest with
          | nil =>
            rw [hr] at hrest
            obtain ⟨h0, h1, -⟩ := charAt_of_drop_nil s (i + 1) (by omega) hrest
            rw [h0, h1]
            simp [decodeURLString]
          | cons x rest1 =>
            rw [hr] at hrest
            obtain ⟨hx, hlt1, hrest1⟩ := charAt_of_drop s (i + 1) x rest1 hrest
            rw [hx]
            cases hr1 : rest1 with
            | nil =>
              rw [hr1] at hrest1
              obtain ⟨h0, -, he⟩ := charAt_of_drop_nil s (i + 1 + 1) (by omega) hrest1
              rw [h0]
              simp only
              have hfu : ∃ f, fuel = f + 1 := ⟨fuel - 1, by omega⟩
              obtain ⟨f, rfl⟩ := hfu
              have : ¬ i + 2 + 1 < s.length := by omega
              simp [decodeURLLoop, this, decodeURLString]
            | cons y rest2 =>
              rw [hr1] at hrest1
              obtain ⟨hy, hlt2, hrest2⟩ := charAt_of_drop s (i + 1 + 1) y rest2 hrest1
              rw [hy]
              simp only
              rw [ih (i + 2 + 1) _ (by omega) (by omega), hrest2, decodeURLString_percent]
              cases decodeURLString rest2 <;> simp
        · rw [if_neg hpct, ih (i + 1) _ (by omega) (by omega), hrest,
            decodeURLString_literal c rest hplus hpct]
          cases decodeURLString rest <;> simp

/-- The loop of the source, run on the whole string, is `decodeURLString`. -/
theorem decodeURLLoop_eq (s : Str) : decodeURLLoop s (s.length + 1) 0 [] = decodeURLString s := by
  rw [decodeURLLoop_drop s _ 0 [] (Nat.zero_le _) (by omega), List.drop_zero]
  cases decodeURLString s <;> simp

/-- Where `decodeURLString` stays inside the string, its result is no longer
than its argument. -/
theorem decodeURLString_length : ∀ (n : Nat) (s r : Str), s.length ≤ n →
    decodeURLString s = some r → r.length ≤ s.length := by
  intro n
  induction n with
  | zero =>
    intro s r hn h
    have : s = [] := List.length_eq_zero.mp (by omega)
    subst this
    simp [decodeURLString] at h
    subst h; simp
  | succ n ih =>
    intro s r hn h
    cases s with
    | nil => simp [decodeURLString] at h; subst h; simp
    | cons c rest =>
      by_cases hplus : c = '+'
      · subst hplus
        rw [decodeURLString_plus] at h
        cases hd : decodeURLString rest with
        | none => rw [hd] at h; cases h
        | some r1 =>
          rw [hd] at h
          simp at h; subst h
          have := ih rest r1 (by simp at hn; omega) hd
          simp; omega
      · by_cases hpct : c = '%'
        · subst hpct
          cases rest with
          | nil => simp [decodeURLString] at h
          | cons x rest1 =>
            cases rest1 with
            | nil => simp [decodeURLString] at h; subst h; simp
            | cons y rest2 =>
              rw [decodeURLString_percent] at h
              cases hd : decodeURLString rest2 with
              | none => rw [hd] at h; cases h
              | some r1 =>
                rw [hd] at h
                simp at h; subst h
                have := ih rest2 r1 (by simp at hn; omega) hd
                simp; omega
        · rw [decodeURLString_literal c rest hplus hpct] at h
          cases hd : decodeURLString rest with
          | none => rw [hd] at h; cases h
          | some r1 =>
            rw [hd] at h
            simp at h; subst h
            have := ih rest r1 (by simp at hn; omega) hd
            simp; omega

/-- C28 (evaluation at the failing input). On the one-character string `%`
the loop reads `URLstr[1]` (the terminating zero) and `URLstr[2]`, a position
outside the string, so the call has no defined result; the same holds for
`parseCGImap` on the form body `name=%&x=Submit+This+Form`. On `%4` the character after the `4` is
the terminating zero, which is read as a hexadecimal digit: the result is the
character with code 16. -/
theorem c28_read_outside_string :
    "%".toList.length = 1 ∧ charAt "%".toList 1 = some (Char.ofNat 0) ∧
    charAt "%".toList 2 = none ∧
    decodeURLLoop "%".toList 2 0 [] = none ∧
    decodeURLString "%".toList = none ∧
    parseCGImap "name=%&x=Submit+This+Form".toList = none ∧
    charAt "%4".toList 2 = some (Char.ofNat 0) ∧
    decodeURLLoop "%4".toList 3 0 [] = some [Char.ofNat 16] ∧
    decodeURLString "%4".toList = some [Char.ofNat 16] :=
  ⟨rfl, rfl, rfl, rfl, rfl, rfl, rfl, rfl, rfl⟩

/-! ### The client: file retrieval by secure copy -/

theorem foldl_comma (names : List Str) : ∀ start : Str, names ≠ [] →
    names.foldl (fun acc f => acc ++ f ++ [',']) start = start ++ commaList names ++ [','] := by
  induction names with
  | nil => intro start h; exact absurd rfl h
  | cons f rest ih =>
    intro start _
    cases rest with
    | nil => simp [commaList]
    | cons g r =>
      rw [List.foldl_cons, ih _ (List.cons_ne_nil g r)]
      simp [commaList, List.append_assoc]

theorem filesToCopy_eq (folder : Str) (names : List Str) (hn : names ≠ []) :
    filesToCopy folder names = folder ++ braceList names := by
  cases names with
  | nil => exact absurd rfl hn
  | cons f rest =>
    cases rest with
    | nil => simp [filesToCopy, braceList, List.dropLast_concat]
    | cons g r =>
      have hlen : (f :: g :: r).length > 1 := by simp
      simp only [filesToCopy, hlen, if_true, braceList]
      rw [foldl_comma _ _ (List.cons_ne_nil f (g :: r)), List.dropLast_concat]
      simp [List.append_assoc]

theorem withSlash_eq (d : Str) (hd : d ≠ []) : withSlash d = some (slashed d) := by
  unfold withSlash slashed
  cases hl : d.getLast? with
  | none => exact absurd (List.getLast?_eq_none_iff.mp hl) hd
  | some c =>
    by_cases hc : c = '/'
    · subst hc; simp
    · simp [hc]

/-- C25. For a remote peer, a non-empty remote folder `d` and a non-empty list
of names, `retrieveFiles` runs the one command `scp -q h:d'F l`, where `d'` is
`d` with a trailing `/` appended when missing and `F` is the single name or the
backslash-escaped brace list of the names joined by commas; when the command
has run, `retrieveFiles` throws if and only if its exit status is not zero. -/
theorem c25_scp_command (st : SocketClient.State) (sh : Shell) (names : List Str) (d l : Str)
    (hremote : st.isLocalHost_ = false) (hd : d ≠ []) (hn : names ≠ []) :
    SocketClient.retrieveFiles st sh names d l =
      some (match sh.pipe_to_string ("scp -q ".toList ++ st.hostname_ ++ ":".toList ++ slashed d ++
          braceList names ++ " ".toList ++ l) with
        | .error what => .error what
        | .ok (_, status) =>
          if status ≠ 0 then
            .error ("SocketClient::retrieveFiles(), scp error code: ".toList ++ decimalInt status)
          else .ok ()) ∧
    ∀ (out : Str) (status : Int),
      sh.pipe_to_string ("scp -q ".toList ++ st.hostname_ ++ ":".toList ++ slashed d ++
        braceList names ++ " ".toList ++ l) = .ok (out, status) →
      ((∃ what, SocketClient.retrieveFiles st sh names d l = some (.error what)) ↔ status ≠ 0) := by
  have hcmd : "scp -q ".toList ++ st.hostname_ ++ [':'] ++ filesToCopy (slashed d) names ++ [' '] ++ l
      = "scp -q ".toList ++ st.hostname_ ++ ":".toList ++ slashed d ++ braceList names ++
        " ".toList ++ l := by
    rw [filesToCopy_eq _ _ hn]
    simp [List.append_assoc]
  have hmain : SocketClient.retrieveFiles st sh names d l =
      some (match sh.pipe_to_string ("scp -q ".toList ++ st.hostname_ ++ ":".toList ++ slashed d ++
          braceList names ++ " ".toList ++ l) with
        | .error what => .error what
        | .ok (_, status) =>
          if status ≠ 0 then
            .error ("SocketClient::retrieveFiles(), scp error code: ".toList ++ decimalInt status)
          else .ok ()) := by
    simp only [SocketClient.retrieveFiles, withSlash_eq d hd, hremote, Bool.false_eq_true, if_false]
    rw [hcmd]
    cases sh.pipe_to_string ("scp -q ".toList ++ st.hostname_ ++ ":".toList ++ slashed d ++
        braceList names ++ " ".toList ++ l) with
    | error what => rfl
    | ok r =>
      obtain ⟨out, status⟩ := r
      by_cases hs : status = 0 <;> simp [hs]
  refine ⟨hmain, ?_⟩
  intro out status hrun
  rw [hmain, hrun]
  by_cases hs : status = 0 <;> simp [hs]

/-- C25 (witness). From the remote host `lab7`, the files `a` and `b` of
`/srv/tmp` are retrieved into `./` by `scp -q lab7:/srv/tmp/\{a,b\} ./`, and the
one file `a` by `scp -q lab7:/srv/tmp/a ./`; with exit status 256 the call
throws. -/
theorem c25_scp_command_witness :
    ("scp -q ".toList ++ remoteClient.hostname_ ++ ":".toList ++ slashed "/srv/tmp".toList ++
        braceList ["a".toList, "b".toList] ++ " ".toList ++ "./".toList =
      "scp -q lab7:/srv/tmp/\\\x7ba,b\\\x7d ./".toList) ∧
    ("scp -q ".toList ++ remoteClient.hostname_ ++ ":".toList ++ slashed "/srv/tmp/".toList ++
        braceList ["a".toList] ++ " ".toList ++ "./".toList =
      "scp -q lab7:/srv/tmp/a ./".toList) ∧
    SocketClient.retrieveFiles remoteClient (shellWith 256) ["a".toList, "b".toList]
        "/srv/tmp".toList "./".toList =
      some (.error "SocketClient::retrieveFiles(), scp error code: 256".toList) ∧
    ((∃ what, SocketClient.retrieveFiles remoteClient (shellWith 0) ["a".toList, "b".toList]
        "/srv/tmp".toList "./".toList = some (.error what)) ↔ (0 : Int) ≠ 0) :=
  ⟨by decide, by decide, rfl,
    (c25_scp_command remoteClient (shellWith 0) ["a".toList, "b".toList] "/srv/tmp".toList
      "./".toList rfl (by decide) (by decide)).2 [] 0 rfl⟩

/-! ### The client: the connected flag -/

theorem disconnect_closes (st : SocketClient.State) (closeError : Option Str) :
    (SocketClient.disconnect st closeError).1.socketOpen = false := by
  cases closeError <;> rfl

/-- C21. The flag `isConnected_` is false after the constructor; it is true
when `connect` returns, and `connect` then returns true; when `connect` throws
(`socket_.close()` itself not failing), the socket has been closed, the flag is
false and the exception thrown is the one that left the `try` block; and after
`disconnect()` the socket is closed and the flag is false. -/
theorem c21_connected_flag (cl : SocketClient) (st : SocketClient.State) (env : ConnectEnv)
    (hostname port : Str) (hclose : env.closeError = none) :
    SocketClient.State.init.isConnected_ = false ∧
    (∀ (st1 : SocketClient.State) (b : Bool),
      cl.connect st env hostname port = some (st1, .ok b) →
        b = true ∧ st1.isConnected_ = true) ∧
    (∀ (st1 : SocketClient.State) (what : Str),
      cl.connect st env hostname port = some (st1, .error what) →
        st1.isConnected_ = false ∧ st1.socketOpen = false ∧
        ∃ st0, cl.connectTry st env hostname port = some (st0, .error what)) ∧
    (SocketClient.disconnect st env.closeError).1.isConnected_ = false ∧
    (SocketClient.disconnect st env.closeError).1.socketOpen = false ∧
    (SocketClient.disconnect st env.closeError).2 = .ok () := by
  refine ⟨rfl, ?_, ?_, ?_, ?_, ?_⟩
  · intro st1 b h
    unfold SocketClient.connect at h
    cases ht : cl.connectTry st env hostname port with
    | none => rw [ht] at h; cases h
    | some r =>
      obtain ⟨st0, res⟩ := r
      rw [ht] at h
      cases res with
      | ok u =>
        simp only [Option.some.injEq, Prod.mk.injEq, Except.ok.injEq] at h
        obtain ⟨h1, h2⟩ := h
        subst h1; subst h2
        exact ⟨rfl, rfl⟩
      | error e =>
        simp only [hclose, SocketClient.disconnect, Option.some.injEq, Prod.mk.injEq,
          reduceCtorEq, and_false] at h
  · intro st1 what h
    unfold SocketClient.connect at h
    cases ht : cl.connectTry st env hostname port with
    | none => rw [ht] at h; cases h
    | some r =>
      obtain ⟨st0, res⟩ := r
      rw [ht] at h
      cases res with
      | ok u =>
        simp only [Option.some.injEq, Prod.mk.injEq, reduceCtorEq, and_false] at h
      | error e =>
        simp only [hclose, SocketClient.disconnect, Option.some.injEq, Prod.mk.injEq,
          Except.error.injEq] at h
        obtain ⟨h1, h2⟩ := h
        subst h1; subst h2
        exact ⟨rfl, rfl, st0, rfl⟩
  · rw [hclose]; rfl
  · rw [hclose]; rfl
  · rw [hclose]; rfl

/-- C21 (witness). A successful handshake sets the flag; with a wrong secret in
the retrieved file the second step is answered with `Error:`, `connect` throws
that reply, the socket is closed and the flag is false. -/
theorem c21_connected_flag_witness :
    defaultClient.connect SocketClient.State.init connectEnv "localhost".toList "19971".toList =
      some (⟨"localhost".toList, "19971".toList, true, true, true⟩, .ok true) ∧
    defaultClient.connect SocketClient.State.init
        { connectEnv with authFile := some "wrong".toList } "localhost".toList "19971".toList =
      some (⟨"localhost".toList, "19971".toList, false, true, false⟩, .error
        "AuthStep2__$__Error: SocketServer::session(): Client at 10.0.0.7 did not send the secret string".toList) ∧
    ((⟨"localhost".toList, "19971".toList, true, true, true⟩ : SocketClient.State).isConnected_ =
      true) ∧
    ((⟨"localhost".toList, "19971".toList, false, true, false⟩ : SocketClient.State).isConnected_ =
      false) :=
  ⟨rfl, rfl,
    ((c21_connected_flag defaultClient SocketClient.State.init connectEnv "localhost".toList
      "19971".toList rfl).2.1 _ true rfl).2,
    ((c21_connected_flag defaultClient SocketClient.State.init
      { connectEnv with authFile := some "wrong".toList } "localhost".toList "19971".toList
      rfl).2.2.1 _ _ rfl).1⟩

/-! ### Random strings -/

theorem roundHalfEven_nonneg (q : ℚ) (h : 0 ≤ q) : 0 ≤ roundHalfEven q := by
  have hf : 0 ≤ ⌊q⌋ := Int.floor_nonneg.mpr h
  unfold roundHalfEven
  simp only
  split_ifs <;> omega

theorem roundHalfEven_le (q : ℚ) (M : Int) (h : q < M - 1 / 2) : roundHalfEven q ≤ M - 1 := by
  have hlt : ⌊q⌋ < M := Int.floor_lt.mpr (by linarith)
  unfold roundHalfEven
  simp only
  by_cases h1 : q - ⌊q⌋ < 1 / 2
  · rw [if_pos h1]; omega
  · have h2 : ((⌊q⌋ : Int) : ℚ) < ((M - 1 : Int) : ℚ) := by push_cast; linarith
    have h3 : ⌊q⌋ < M - 1 := by exact_mod_cast h2
    rw [if_neg h1]
    split_ifs <;> omega

theorem ulpOf_pos (q : ℚ) : 0 < ulpOf q := by
  unfold ulpOf
  positivity

theorem roundPos_nonneg (q : ℚ) (h : 0 ≤ q) : 0 ≤ roundPos q := by
  unfold roundPos
  split_ifs
  · exact le_refl _
  · have hu := ulpOf_pos q
    have : 0 ≤ roundHalfEven (q / ulpOf q) := roundHalfEven_nonneg _ (div_nonneg h hu.le)
    have : (0 : ℚ) ≤ (roundHalfEven (q / ulpOf q) : ℚ) := by exact_mod_cast this
    positivity

theorem roundPos_lt (r : ℚ) (m : Int) (hr0 : 0 ≤ r) (hr1 : r ≤ 1 - 1 / 2 ^ 53) (hm1 : 1 ≤ m)
    (hm2 : m ≤ 2 ^ 31) : roundPos (r * m) < m := by
  have hmq : (1 : ℚ) ≤ m := by exact_mod_cast hm1
  have hmq2 : (m : ℚ) ≤ 2 ^ 31 := by exact_mod_cast hm2
  by_cases hq0 : r * (m : ℚ) = 0
  · simp only [roundPos, hq0, if_true]; linarith
  have hqpos : 0 < r * (m : ℚ) := lt_of_le_of_ne (by positivity) (Ne.symm hq0)
  have hqlt : r * (m : ℚ) < m := by nlinarith
  obtain ⟨e, he1, he2, hu⟩ : ∃ e : Int, (2 : ℚ) ^ e < m ∧ e ≤ 30 ∧
      ulpOf (r * (m : ℚ)) = (2 : ℚ) ^ (e - 52) := by
    refine ⟨max (Int.log 2 (r * (m : ℚ))) (-1022), ?_, ?_, rfl⟩
    · rcases max_cases (Int.log 2 (r * (m : ℚ))) (-1022) with ⟨h, _⟩ | ⟨h, _⟩
      · rw [h]
        have := Int.zpow_log_le_self (b := 2) (by norm_num) hqpos
        push_cast at this
        linarith
      · rw [h]
        have : (2 : ℚ) ^ (-1022 : ℤ) < 2 ^ (0 : ℤ) := (zpow_lt_zpow_iff_right₀ (by norm_num)).mpr (by norm_num)
        rw [zpow_zero] at this
        linarith
    · have h31 : r * (m : ℚ) < ((2 : ℕ) : ℚ) ^ (31 : ℤ) := by
        push_cast
        have : (2 : ℚ) ^ (31 : ℤ) = 2 ^ 31 := by norm_cast
        rw [this]; linarith
      have := (Int.lt_zpow_iff_log_lt (b := 2) (by norm_num) hqpos).mp h31
      exact max_le (by omega) (by norm_num)
  obtain ⟨k, hk⟩ : ∃ k : ℕ, (k : ℤ) = 52 - e := ⟨(52 - e).toNat, by omega⟩
  have hu2 : ulpOf (r * (m : ℚ)) = ((2 : ℚ) ^ k)⁻¹ := by
    rw [hu, show e - 52 = -(k : ℤ) by omega, zpow_neg, zpow_natCast]
  have hpk : (0 : ℚ) < 2 ^ k := by positivity
  have he3 : (2 : ℚ) ^ 52 < m * 2 ^ k := by
    have h1 : (2 : ℚ) ^ e = 2 ^ 52 / 2 ^ k := by
      rw [show e = 52 - (k : ℤ) by omega, zpow_sub₀ (by norm_num), zpow_natCast]
      norm_cast
    rw [h1, div_lt_iff₀ hpk] at he1
    exact he1
  have hx : r * (m : ℚ) / ulpOf (r * (m : ℚ)) < ((m * 2 ^ k : Int) : ℚ) - 1 / 2 := by
    rw [hu2, div_inv_eq_mul]
    push_cast
    have h2 : r * ((m : ℚ) * 2 ^ k) ≤ (1 - 1 / 2 ^ 53) * ((m : ℚ) * 2 ^ k) :=
      mul_le_mul_of_nonneg_right hr1 (by positivity)
    have h3 : (m : ℚ) * 2 ^ k * (1 / 2 ^ 53) > 1 / 2 := by
      have : (2 : ℚ) ^ 52 * (1 / 2 ^ 53) = 1 / 2 := by norm_num
      nlinarith
    nlinarith
  have hle := roundHalfEven_le _ _ hx
  have hle2 : (roundHalfEven (r * (m : ℚ) / ulpOf (r * (m : ℚ))) : ℚ) ≤ (m : ℚ) * 2 ^ k - 1 := by
    have : ((roundHalfEven (r * (m : ℚ) / ulpOf (r * (m : ℚ))) : Int) : ℚ) ≤
        ((m * 2 ^ k - 1 : Int) : ℚ) := by exact_mod_cast hle
    push_cast at this
    exact this
  simp only [roundPos, hq0, if_false]
  have hupos := ulpOf_pos (r * (m : ℚ))
  calc (roundHalfEven (r * (m : ℚ) / ulpOf (r * (m : ℚ))) : ℚ) * ulpOf (r * (m : ℚ))
      ≤ ((m : ℚ) * 2 ^ k - 1) * ulpOf (r * (m : ℚ)) := mul_le_mul_of_nonneg_right hle2 hupos.le
    _ = (m : ℚ) - ulpOf (r * (m : ℚ)) := by rw [hu2]; field_simp
    _ < m := by linarith

theorem unitDouble_le (r : ℚ) (h : UnitDouble r) : r ≤ 1 - 1 / 2 ^ 53 := by
  obtain ⟨hd, h0, h1⟩ := h
  by_cases hr0 : r = 0
  · subst hr0; norm_num
  have hpos : 0 < r := lt_of_le_of_ne h0 (Ne.symm hr0)
  have hlog : Int.log 2 r < 0 := by
    have h2 : r < ((2 : ℕ) : ℚ) ^ (0 : ℤ) := by rw [zpow_zero]; exact h1
    exact (Int.lt_zpow_iff_log_lt (b := 2) (by norm_num) hpos).mp h2
  have hlt2 := Int.lt_zpow_succ_log_self (b := 2) (by norm_num) r
  push_cast at hlt2
  by_cases he : Int.log 2 r = -1
  · -- the binade [1/2, 1)
    have hu : ulpOf r = 1 / 2 ^ 53 := by
      unfold ulpOf
      rw [he, show max (-1 : ℤ) (-1022) - 52 = -(53 : ℕ) by norm_num, zpow_neg, zpow_natCast]
      norm_num
    unfold IsDouble toDouble at hd
    rw [if_neg (by linarith), roundPos, if_neg hr0, hu] at hd
    have hn : (roundHalfEven (r / (1 / 2 ^ 53)) : ℚ) < 2 ^ 53 := by
      rw [← hd] at h1
      have : (roundHalfEven (r / (1 / 2 ^ 53)) : ℚ) * (1 / 2 ^ 53) * 2 ^ 53 < 1 * 2 ^ 53 :=
        mul_lt_mul_of_pos_right h1 (by positivity)
      have h3 : (roundHalfEven (r / (1 / 2 ^ 53)) : ℚ) * (1 / 2 ^ 53) * 2 ^ 53 =
          (roundHalfEven (r / (1 / 2 ^ 53)) : ℚ) := by field_simp
      rw [h3] at this
      linarith
    have hn2 : roundHalfEven (r / (1 / 2 ^ 53)) < 2 ^ 53 := by exact_mod_cast hn
    have hn3 : roundHalfEven (r / (1 / 2 ^ 53)) ≤ 2 ^ 53 - 1 := by omega
    have hn4 : (roundHalfEven (r / (1 / 2 ^ 53)) : ℚ) ≤ 2 ^ 53 - 1 := by exact_mod_cast hn3
    rw [← hd]
    have : (roundHalfEven (r / (1 / 2 ^ 53)) : ℚ) * (1 / 2 ^ 53) ≤ (2 ^ 53 - 1) * (1 / 2 ^ 53) :=
      mul_le_mul_of_nonneg_right hn4 (by positivity)
    have h5 : ((2 : ℚ) ^ 53 - 1) * (1 / 2 ^ 53) = 1 - 1 / 2 ^ 53 := by field_simp
    linarith
  · have he2 : Int.log 2 r + 1 ≤ -1 := by omega
    have : (2 : ℚ) ^ (Int.log 2 r + 1) ≤ 2 ^ (-1 : ℤ) :=
      (zpow_le_zpow_iff_right₀ (by norm_num)).mpr he2
    have h6 : (2 : ℚ) ^ (-1 : ℤ) = 1 / 2 := by norm_num
    have h7 : (1 : ℚ) / 2 ≤ 1 - 1 / 2 ^ 53 := by norm_num
    have h8 : r < 1 / 2 := lt_of_lt_of_le hlt2 (this.trans h6.le)
    exact (h8.trans_le h7).le

theorem toDouble_nonneg_lt (r : ℚ) (m : Int) (hr : UnitDouble r) (hm1 : 1 ≤ m)
    (hm2 : m ≤ 2 ^ 31) : 0 ≤ toDouble (r * m) ∧ toDouble (r * m) < m := by
  have hle := unitDouble_le r hr
  obtain ⟨-, h0, -⟩ := hr
  have hmq : (0 : ℚ) ≤ m := by exact_mod_cast (by omega : 0 ≤ m)
  have hq : ¬ r * (m : ℚ) < 0 := not_lt.mpr (mul_nonneg h0 hmq)
  simp only [toDouble, hq, if_false]
  exact ⟨roundPos_nonneg _ (mul_nonneg h0 hmq), roundPos_lt r m h0 hle hm1 hm2⟩

theorem truncate_nonneg_lt (v : ℚ) (m : Int) (h0 : 0 ≤ v) (h1 : v < m) :
    0 ≤ truncate v ∧ truncate v < m := by
  simp only [truncate, h0, if_true]
  exact ⟨Int.floor_nonneg.mpr h0, Int.floor_lt.mpr h1⟩

theorem truncate_nonpos_gt (v : ℚ) (m : Int) (h0 : v ≤ 0) (h1 : -(m : ℚ) < v) :
    truncate v ≤ 0 ∧ -m < truncate v := by
  by_cases hv : v = 0
  · subst hv
    have : (0 : ℚ) < m := by linarith
    have : 0 < m := by exact_mod_cast this
    simp [truncate]; omega
  · have hneg : ¬ 0 ≤ v := by
      intro h; exact hv (le_antisymm h0 h)
    simp only [truncate, hneg, if_false]
    refine ⟨Int.ceil_le.mpr (by simpa using h0), ?_⟩
    have : ((-m : Int) : ℚ) < v := by push_cast; exact h1
    exact Int.lt_ceil.mpr this


theorem toInt32_of_range (v : Int) (h1 : -2147483648 ≤ v) (h2 : v ≤ 2147483647) :
    toInt32 v = v := by
  unfold toInt32
  omega

/-- With a `double` in `[0, 1)` and a multiplier from 1 to `2 ^ 31`, the
assertion of `doMultiply` holds and the result is in `[0, multiplier)`. -/
theorem doMultiply_pos (r : ℚ) (m : Int) (hr : UnitDouble r) (hm1 : 1 ≤ m) (hm2 : m ≤ 2 ^ 31) :
    ∃ k, doMultiply r m = some k ∧ 0 ≤ k ∧ k < m := by
  obtain ⟨h0, h1⟩ := toDouble_nonneg_lt r m hr hm1 hm2
  obtain ⟨h2, h3⟩ := truncate_nonneg_lt _ m h0 h1
  refine ⟨truncate (toDouble (r * m)), ?_, h2, h3⟩
  have hne : truncate (toDouble (r * m)) ≠ m := by omega
  simp only [doMultiply, ne_eq, hne, not_false_eq_true, true_or, if_true]

/-- With a `double` in `[0, 1)` and the multiplier `-2 ^ 31`, the assertion of
`doMultiply` holds and the result is in `(-2 ^ 31, 0]`. -/
theorem doMultiply_min (r : ℚ) (hr : UnitDouble r) :
    ∃ k, doMultiply r (-2147483648) = some k ∧ -2147483648 < k ∧ k ≤ 0 := by
  obtain ⟨h0, h1⟩ := toDouble_nonneg_lt r 2147483648 hr (by norm_num) (by norm_num)
  have hr0 := hr.2.1
  have hv : toDouble (r * ((-2147483648 : Int) : ℚ)) = -toDouble (r * ((2147483648 : Int) : ℚ)) := by
    by_cases hz : r = 0
    · subst hz; simp [toDouble, roundPos]
    · have hpos : 0 < r := lt_of_le_of_ne hr0 (Ne.symm hz)
      have hneg : r * ((-2147483648 : Int) : ℚ) < 0 := by push_cast; linarith
      have hnn : ¬ r * ((2147483648 : Int) : ℚ) < 0 := by push_cast; linarith
      simp only [toDouble, hneg, hnn, if_true, if_false]
      congr 2
      push_cast
      ring
  have h2 : toDouble (r * ((-2147483648 : Int) : ℚ)) ≤ 0 := by rw [hv]; linarith
  have h3 : -((2147483648 : Int) : ℚ) < toDouble (r * ((-2147483648 : Int) : ℚ)) := by
    rw [hv]; linarith
  obtain ⟨h4, h5⟩ := truncate_nonpos_gt _ 2147483648 h2 h3
  refine ⟨truncate (toDouble (r * ((-2147483648 : Int) : ℚ))), ?_, h5, h4⟩
  have hne : truncate (toDouble (r * ((-2147483648 : Int) : ℚ))) ≠ -2147483648 := by omega
  simp only [doMultiply, ne_eq, hne, not_false_eq_true, true_or, if_true]

/-- The length drawn by `randomIntegerWithinInclusiveRange(lo, hi)` for
`0 ≤ lo ≤ hi`, taken as a number of iterations, is in `[lo, hi]`. -/
theorem randomInteger_range (g : Draws) (lo hi : Int) (hg : ∀ i, UnitDouble (g i))
    (h0 : 0 ≤ lo) (h1 : lo ≤ hi) (h2 : hi ≤ 2147483647) :
    ∃ v g1, randomIntegerWithinInclusiveRange g lo hi = some (v, g1) ∧
      lo ≤ (v.toNat : Int) ∧ (v.toNat : Int) ≤ hi ∧ ∀ i, UnitDouble (g1 i) := by
  by_cases he : lo = hi
  · refine ⟨lo, g, by simp [randomIntegerWithinInclusiveRange, he], ?_, ?_, hg⟩ <;> omega
  · have hgt : ¬ lo > hi := by omega
    simp only [randomIntegerWithinInclusiveRange, he, if_false, hgt]
    have hd : toInt32 (hi - lo) = hi - lo := toInt32_of_range _ (by omega) (by omega)
    rw [hd]
    by_cases hw : hi - lo + 1 ≤ 2147483647
    · rw [toInt32_of_range _ (by omega) hw]
      obtain ⟨k, hk, hk0, hk1⟩ := doMultiply_pos (g 0) (hi - lo + 1) (hg 0) (by omega) (by omega)
      refine ⟨toInt32 (lo + k), fun n => g (n + 1), by simp [rndMT, hk], ?_, ?_,
        fun i => hg (i + 1)⟩
      · rw [toInt32_of_range _ (by omega) (by omega)]; omega
      · rw [toInt32_of_range _ (by omega) (by omega)]; omega
    · have hlo : lo = 0 := by omega
      have hhi : hi = 2147483647 := by omega
      subst hlo; subst hhi
      have hm : toInt32 (2147483647 - 0 + 1) = -2147483648 := by decide
      rw [hm]
      obtain ⟨k, hk, hk0, hk1⟩ := doMultiply_min (g 0) (hg 0)
      refine ⟨toInt32 (0 + k), fun n => g (n + 1), by simp [rndMT, hk], ?_, ?_,
        fun i => hg (i + 1)⟩
      · omega
      · rw [toInt32_of_range _ (by omega) (by omega)]; omega

theorem characters_alphanum (k : Nat) (hk : k < 62) :
    ∃ c, charAt characters k = some c ∧ c.isAlphanum = true := by
  have hall : ∀ c ∈ characters.take 62, c.isAlphanum = true := by decide
  have hlen : characters.length = 84 := by decide
  have hne : k ≠ characters.length := by omega
  have hget : (characters.take 62).get? k = characters.get? k := by
    simp only [List.get?_eq_getElem?]
    exact List.getElem?_take_of_lt hk
  have hlt : k < (characters.take 62).length := by
    rw [List.length_take, hlen]; omega
  refine ⟨(characters.take 62).get ⟨k, hlt⟩, ?_, hall _ (List.get_mem _ _ _)⟩
  simp only [charAt, hne, if_false]
  rw [← hget]
  exact List.get?_eq_get hlt

theorem alphanumericLoop_zero (g : Draws) (result : Str) :
    alphanumericLoop 0 g result = some (result, g) := rfl

theorem alphanumericLoop_succ (n : Nat) (g : Draws) (result : Str) :
    alphanumericLoop (n + 1) g result =
      match rndMT g 62 with
      | none => none
      | some (k, g1) =>
        match (if 0 ≤ k then charAt characters k.toNat else none) with
        | none => none
        | some c => alphanumericLoop n g1 (result ++ [c]) := rfl

/-- The loop of `generateRandomAlphanumericString` appends `n` characters, each
a digit or a letter. -/
theorem alphanumericLoop_spec (n : Nat) : ∀ (g : Draws) (result : Str),
    (∀ i, UnitDouble (g i)) →
    ∃ s g1, alphanumericLoop n g result = some (result ++ s, g1) ∧ s.length = n ∧
      (∀ c ∈ s, c.isAlphanum = true) ∧ ∀ i, UnitDouble (g1 i) := by
  induction n with
  | zero =>
    intro g result hg
    refine ⟨[], g, ?_, rfl, ?_, hg⟩
    · rw [alphanumericLoop_zero, List.append_nil]
    · intro c hc; cases hc
  | succ n ih =>
    intro g result hg
    obtain ⟨k, hk, hk0, hk1⟩ := doMultiply_pos (g 0) 62 (hg 0) (by omega) (by omega)
    obtain ⟨c, hc, hca⟩ := characters_alphanum k.toNat (by omega)
    obtain ⟨s, g1, hs, hlen, hal, hg1⟩ := ih (fun i => g (i + 1)) (result ++ [c])
      (fun i => hg (i + 1))
    refine ⟨c :: s, g1, ?_, by simp [hlen], ?_, hg1⟩
    · rw [alphanumericLoop_succ]
      simp only [rndMT, hk, Option.map_some', hk0, if_true, hc, hs]
      simp
    · intro x hx
      rcases List.mem_cons.mp hx with rfl | hx
      · exact hca
      · exact hal x hx

/-- For `0 ≤ lo ≤ hi`, `generateRandomAlphanumericString(lo, hi)` returns a
string of digits and letters whose length is in `[lo, hi]`. -/
theorem generateRandomAlphanumericString_spec (g : Draws) (lo hi : Int)
    (hg : ∀ i, UnitDouble (g i)) (h0 : 0 ≤ lo) (h1 : lo ≤ hi) (h2 : hi ≤ 2147483647) :
    ∃ s g1, generateRandomAlphanumericString g lo hi = some (s, g1) ∧
      lo ≤ (s.length : Int) ∧ (s.length : Int) ≤ hi ∧ (∀ c ∈ s, c.isAlphanum = true) ∧
      ∀ i, UnitDouble (g1 i) := by
  obtain ⟨v, g1, hv, hv0, hv1, hg1⟩ := randomInteger_range g lo hi hg h0 h1 h2
  obtain ⟨s, g2, hs, hlen, hal, hg2⟩ := alphanumericLoop_spec v.toNat g1 [] hg1
  refine ⟨s, g2, ?_, by rw [hlen]; exact hv0, by rw [hlen]; exact hv1, hal, hg2⟩
  simp only [generateRandomAlphanumericString, hv, hs, List.nil_append]

/-- A text that holds a character absent from `hay` does not occur in `hay`. -/
theorem find_none_of_not_mem (hay needle : Str) (x : Char) (hx : x ∈ needle) (hn : x ∉ hay) :
    find hay needle = none := by
  cases h : find hay needle with
  | none => rfl
  | some p =>
    exfalso
    have hp := (find_some_spec hay needle p h).1
    have hpre : needle <+: hay.drop p := List.isPrefixOf_iff_prefix.mp hp
    exact hn (List.mem_of_mem_drop (hpre.subset hx))

theorem isSpace_not_alphanum (c : Char) (h : c.isAlphanum = true) : isSpace c = false := by
  cases hs : isSpace c with
  | false => rfl
  | true =>
    exfalso
    simp only [isSpace, Bool.or_eq_true, decide_eq_true_eq] at hs
    rcases hs with ((((rfl | rfl) | rfl) | rfl) | rfl) | rfl <;> simp at h

/-- C22. Whatever values of type `double` in `[0, 1)` the generator gives:
`generateRandomAlphanumericString(lo, hi)` with `0 ≤ lo ≤ hi` returns a string
of length in `[lo, hi]` made of digits and letters; so the name of a challenge
file has 10 to 16 characters and the secret, generated after it, 64 to 128,
all digits or letters; the secret is not empty, holds no white space, and
neither `Error:` nor any text with a character other than a digit or letter
(such as the separators `__+__` and `__$__`) occurs in it. -/
theorem c22_challenge_strings (g : Draws) (hg : ∀ i, UnitDouble (g i)) :
    (∀ lo hi : Int, 0 ≤ lo → lo ≤ hi → hi ≤ 2147483647 →
      ∃ s g1, generateRandomAlphanumericString g lo hi = some (s, g1) ∧
        lo ≤ (s.length : Int) ∧ (s.length : Int) ≤ hi ∧ ∀ c ∈ s, c.isAlphanum = true) ∧
    ∃ name g1 secret g2,
      generateRandomAlphanumericString g 10 16 = some (name, g1) ∧
      generateRandomAlphanumericString g1 64 128 = some (secret, g2) ∧
      10 ≤ name.length ∧ name.length ≤ 16 ∧ 64 ≤ secret.length ∧ secret.length ≤ 128 ∧
      (∀ c ∈ name, c.isAlphanum = true) ∧ (∀ c ∈ secret, c.isAlphanum = true) ∧
      secret ≠ [] ∧ (∀ c ∈ secret, isSpace c = false) ∧
      (∀ sep : Str, (∃ x ∈ sep, x.isAlphanum = false) → find secret sep = none) ∧
      find secret "Error:".toList = none ∧
      find secret "__+__".toList = none ∧ find secret "__$__".toList = none := by
  constructor
  · intro lo hi h0 h1 h2
    obtain ⟨s, g1, hs, hl0, hl1, hal, -⟩ :=
      generateRandomAlphanumericString_spec g lo hi hg h0 h1 h2
    exact ⟨s, g1, hs, hl0, hl1, hal⟩
  · obtain ⟨name, g1, hn, hn0, hn1, hna, hg1⟩ :=
      generateRandomAlphanumericString_spec g 10 16 hg (by norm_num) (by norm_num) (by norm_num)
    obtain ⟨secret, g2, hs, hs0, hs1, hsa, -⟩ :=
      generateRandomAlphanumericString_spec g1 64 128 hg1 (by norm_num) (by norm_num)
        (by norm_num)
    have hsep : ∀ sep : Str, (∃ x ∈ sep, x.isAlphanum = false) → find secret sep = none := by
      intro sep ⟨x, hx, hxa⟩
      refine find_none_of_not_mem secret sep x hx ?_
      intro hmem
      rw [hsa x hmem] at hxa
      cases hxa
    refine ⟨name, g1, secret, g2, hn, hs, by omega, by omega, by omega, by omega, hna, hsa, ?_,
      fun c hc => isSpace_not_alphanum c (hsa c hc), hsep, ?_, ?_, ?_⟩
    · intro he
      rw [he] at hs0
      simp at hs0
    · exact hsep _ ⟨':', by decide, by decide⟩
    · exact hsep _ ⟨'_', by decide, by decide⟩
    · exact hsep _ ⟨'_', by decide, by decide⟩

/-- The number one half is a `double` in `[0, 1)`. -/
theorem unitDouble_half : UnitDouble (1 / 2) := by
  refine ⟨?_, by norm_num, by norm_num⟩
  have hlog : Int.log 2 ((1 : ℚ) / 2) = -1 := by
    have h := Int.log_zpow (R := ℚ) (b := 2) (by norm_num) (-1)
    have he : (((2 : ℕ) : ℚ)) ^ (-1 : ℤ) = 1 / 2 := by norm_num
    rw [he] at h
    exact h
  have hu : ulpOf ((1 : ℚ) / 2) = 1 / 2 ^ 53 := by
    unfold ulpOf
    rw [hlog, show max (-1 : ℤ) (-1022) - 52 = -(53 : ℕ) by norm_num, zpow_neg, zpow_natCast]
    norm_num
  have hq : (1 : ℚ) / 2 / (1 / 2 ^ 53) = ((2 ^ 52 : Int) : ℚ) := by norm_num
  have hr : roundHalfEven (((2 ^ 52 : Int) : ℚ)) = 2 ^ 52 := by
    unfold roundHalfEven
    simp only [Int.floor_intCast, sub_self]
    norm_num
  unfold IsDouble toDouble roundPos
  rw [if_neg (by norm_num), if_neg (by norm_num), hu, hq, hr]
  norm_num

/-- C22 (witness). A generator that gives one half at every call. -/
theorem c22_challenge_strings_witness :
    (∀ lo hi : Int, 0 ≤ lo → lo ≤ hi → hi ≤ 2147483647 →
      ∃ s g1, generateRandomAlphanumericString (fun _ => 1 / 2) lo hi = some (s, g1) ∧
        lo ≤ (s.length : Int) ∧ (s.length : Int) ≤ hi ∧ ∀ c ∈ s, c.isAlphanum = true) ∧
    ∃ name g1 secret g2,
      generateRandomAlphanumericString (fun _ => 1 / 2) 10 16 = some (name, g1) ∧
      generateRandomAlphanumericString g1 64 128 = some (secret, g2) ∧
      10 ≤ name.length ∧ name.length ≤ 16 ∧ 64 ≤ secret.length ∧ secret.length ≤ 128 ∧
      (∀ c ∈ name, c.isAlphanum = true) ∧ (∀ c ∈ secret, c.isAlphanum = true) ∧
      secret ≠ [] ∧ (∀ c ∈ secret, isSpace c = false) ∧
      (∀ sep : Str, (∃ x ∈ sep, x.isAlphanum = false) → find secret sep = none) ∧
      find secret "Error:".toList = none ∧
      find secret "__+__".toList = none ∧ find secret "__$__".toList = none :=
  c22_challenge_strings (fun _ => 1 / 2) (fun _ => unitDouble_half)

/-! ### Stopping the server -/

end Syntheta
